import Mathlib

/-!
elastigo: generation of an Elasticsearch mapping from a Go type.

A shallow embedding of `mapping.go` (and of the `Mapping` type of `settings.go`).

* `reflect.Type` is the inductive type `GoType`: pointer, slice and array wrappers, struct
  types with their declared fields, and every other type by its kind alone (the code never
  looks inside those).  A Go type that refers to itself is not a value of `GoType`.
* A panic is an error value of `GenError`; every function that can panic, or that calls
  into `reflect` in a way that can panic, returns `Except GenError _`.
* The two recursive functions `extractFields` and `generateMappingRecur` take a fuel
  argument bounding the depth of their recursion; `GenError.outOfFuel` is returned when it
  is used up and is not an outcome of the Go code.  A fuel of `GoType.depth t` is enough
  (`generateMappingRecur_enough_fuel`) and more fuel does not change the result
  (`generateMappingRecur_stable`).
* The functions give the value returned or the panic; what `fmt.Printf` writes on the
  way (mapping.go line 225) is not part of them.
* Go strings are `String`; `len(s) > 0` is `s.length > 0`.
* A Go `map[string]Mapping` is an association list with unique keys (`mapInsert`,
  `mapLookup`); the `hashset.Set` of flags is the list of its members.
-/

namespace Elastigo

/-! ## reflect -/

/-- The values of `reflect.Kind`. -/
inductive Kind
  | Invalid | Bool | Int | Int8 | Int16 | Int32 | Int64
  | Uint | Uint8 | Uint16 | Uint32 | Uint64 | Uintptr
  | Float32 | Float64 | Complex64 | Complex128
  | Array | Chan | Func | Interface | Map | Ptr | Slice
  | String | Struct | UnsafePointer
  deriving DecidableEq, Repr

/-- The kinds of the types that are not a struct, an array, a slice or a pointer. -/
inductive BasicKind
  | Bool | Int | Int8 | Int16 | Int32 | Int64
  | Uint | Uint8 | Uint16 | Uint32 | Uint64 | Uintptr
  | Float32 | Float64 | Complex64 | Complex128
  | Chan | Func | Interface | Map | String | UnsafePointer
  deriving DecidableEq, Repr

/-- The `reflect.Kind` of a basic kind. -/
def BasicKind.toKind : BasicKind → Kind
  | .Bool => .Bool | .Int => .Int | .Int8 => .Int8 | .Int16 => .Int16
  | .Int32 => .Int32 | .Int64 => .Int64
  | .Uint => .Uint | .Uint8 => .Uint8 | .Uint16 => .Uint16 | .Uint32 => .Uint32
  | .Uint64 => .Uint64 | .Uintptr => .Uintptr
  | .Float32 => .Float32 | .Float64 => .Float64
  | .Complex64 => .Complex64 | .Complex128 => .Complex128
  | .Chan => .Chan | .Func => .Func | .Interface => .Interface | .Map => .Map
  | .String => .String | .UnsafePointer => .UnsafePointer

/-- A `reflect.StructTag`, by the key/value pairs of its conventional format
(`json:"bar" es:"text"` is `[("json", "bar"), ("es", "text")]`). -/
abbrev StructTag := List (String × String)

/-- The method `reflect.StructTag.Get`: the value of the first pair with the key, the empty
string when there is none. -/
def StructTag.Get (tag : StructTag) (key : String) : String :=
  match tag.lookup key with
  | some v => v
  | none => ""

mutual
/-- A `reflect.Type`. -/
inductive GoType
  | basic (k : BasicKind)
  | array (len : Nat) (elem : GoType)
  | slice (elem : GoType)
  | ptr (elem : GoType)
  | struct (name : String) (fields : List StructField)
/-- A `reflect.StructField`: the members the code reads. -/
inductive StructField
  | mk (Name : String) (Type_ : GoType) (Tag : StructTag) (Anonymous : Bool)
end

/-- The member `Name` of a `reflect.StructField`. -/
def StructField.Name : StructField → String
  | .mk n _ _ _ => n

/-- The member `Type` of a `reflect.StructField`. -/
def StructField.Type_ : StructField → GoType
  | .mk _ t _ _ => t

/-- The member `Tag` of a `reflect.StructField`. -/
def StructField.Tag : StructField → StructTag
  | .mk _ _ t _ => t

/-- The member `Anonymous` of a `reflect.StructField`: the field is embedded. -/
def StructField.Anonymous : StructField → Bool
  | .mk _ _ _ a => a

/-- The method `reflect.Type.Kind`. -/
def GoType.Kind : GoType → Kind
  | .basic k => k.toKind
  | .array _ _ => .Array
  | .slice _ => .Slice
  | .ptr _ => .Ptr
  | .struct _ _ => .Struct

/-- The fields `Field(0)`, ..., `Field(NumField()-1)` of a struct type (the code asks for
them on struct types only). -/
def GoType.fieldList : GoType → List StructField
  | .struct _ fs => fs
  | _ => []

/-! ## settings.go -/

/-- The struct `Mapping` of `settings.go`; a nil pointer or nil map is `none`. -/
structure Mapping where
  Type_ : Option String
  Properties : Option (List (String × Mapping))
  Index : Option Bool
  Format : Option String
  EagerGlobalOrdinals : Option Bool

/-- The zero value `Mapping{}`. -/
def Mapping.zero : Mapping := ⟨none, none, none, none, none⟩

/-- The assignment `props[k] = v` on a Go map. -/
def mapInsert (props : List (String × Mapping)) (k : String) (v : Mapping) :
    List (String × Mapping) :=
  match props with
  | [] => [(k, v)]
  | (k0, v0) :: rest => if k0 = k then (k, v) :: rest else (k0, v0) :: mapInsert rest k v

/-- The lookup `props[k]` on a Go map, `none` when the key is absent. -/
def mapLookup (props : List (String × Mapping)) (k : String) : Option Mapping :=
  match props with
  | [] => none
  | (k0, v0) :: rest => if k0 = k then some v0 else mapLookup rest k

/-! ## mapping.go -/

/-- The ways in which the generation panics, and the exhaustion of the fuel. -/
inductive GenError
  /-- The panic "%s is an invalid Elasticsearch type", mapping.go line 192. -/
  | invalidESType (customESType : String)
  /-- The panic "%s not a valid format for Elasticsearch type %s", mapping.go lines 244
  and 255. -/
  | invalidFormat (format esType : String)
  /-- The panic "%s can only be set for %s and %s fields", mapping.go line 267. -/
  | eagerGlobalOrdinals
  /-- The panic of `reflect.Type.Elem` on a type that has no element type. -/
  | reflectElem
  /-- The recursion went deeper than the fuel allows. -/
  | outOfFuel
  deriving DecidableEq, Repr

def esBOOL : String := "boolean"
def esBYTE : String := "byte"
def esSHORT : String := "short"
def esINT : String := "integer"
def esLONG : String := "long"
def esFLOAT : String := "float"
def esDOUBLE : String := "double"
def esKEYWORD : String := "keyword"
def esTEXT : String := "text"
def esDATE : String := "date"
def esIP : String := "ip"

/-- The slice `esPrimitives`, mapping.go lines 23-33. -/
def esPrimitives : List String :=
  [esBOOL, esINT, esLONG, esFLOAT, esDOUBLE, esKEYWORD, esTEXT, esDATE, esIP]

/-- The map `defaultElasticTypeMap`, mapping.go lines 59-69; `none` is an absent key. -/
def defaultElasticTypeMap : Kind → Option String
  | .Bool => some esBOOL
  | .Int => some esINT
  | .Int8 => some esBYTE
  | .Int16 => some esSHORT
  | .Int32 => some esINT
  | .Int64 => some esLONG
  | .Float32 => some esFLOAT
  | .Float64 => some esDOUBLE
  | .String => some esKEYWORD
  | _ => none

/-- The function `createPrimitiveSet`: the set of the members of the list, as its
membership test. -/
def createPrimitiveSet (primitivesList : List String) : String → Bool :=
  fun s => primitivesList.contains s

/-- The variable `esPrimitiveSet`, mapping.go line 80. -/
def esPrimitiveSet : String → Bool := createPrimitiveSet esPrimitives

/-- The function `isPrimitiveESType`, mapping.go lines 84-87. -/
def isPrimitiveESType (tName : String) : Bool := esPrimitiveSet tName

/-- The pieces of a text between its commas. -/
def splitComma : List Char → List (List Char)
  | [] => [[]]
  | c :: cs =>
    if c = ',' then [] :: splitComma cs
    else match splitComma cs with
      | [] => [[c]]
      | tok :: rest => (c :: tok) :: rest

/-- The call `strings.Split(s, ",")`. -/
def stringsSplitComma (s : String) : List String := (splitComma s.data).map String.mk

/-- The function `getTagValues`, mapping.go lines 91-98. -/
def getTagValues (tag : StructTag) (tagName : String) : List String :=
  let values := tag.Get tagName
  if values.length > 0 then stringsSplitComma values else []

/-- The function `getESTypeAndProps`, mapping.go lines 100-116; the second component is
`none` for the nil set. -/
def getESTypeAndProps (tag : StructTag) : String × Option (List String) :=
  let esValues := getTagValues tag "es"
  match esValues with
  | [] => ("", none)
  | [v] => (v, none)
  | v :: rest => (v, some rest)

/-- The function `getJSONNameFromTag`, mapping.go lines 118-128. -/
def getJSONNameFromTag (tag : StructTag) : String :=
  let jsonValues := getTagValues tag "json"
  match jsonValues with
  | v :: _ => v
  | [] => ""

/-- The function `getUnderlyingType`, mapping.go lines 132-146.  On a type of kind
`UnsafePointer` the code calls `t.Elem()`, which panics in `reflect`. -/
def getUnderlyingType : GoType → Except GenError GoType
  | .array _ elem => getUnderlyingType elem
  | .slice elem => getUnderlyingType elem
  | .ptr elem => getUnderlyingType elem
  | .basic .UnsafePointer => .error .reflectElem
  | t => .ok t

/-- The function `isPrimitiveGoType`, mapping.go lines 150-154. -/
def isPrimitiveGoType (t : GoType) : Except GenError Bool := do
  let underlyingT ← getUnderlyingType t
  pure (underlyingT.Kind != .Struct)

/-- The function `extractFields`, mapping.go lines 159-177, with the slice behind
`fieldsPtr` as argument and result (the one caller passes a pointer that is not nil). -/
def extractFields (fuel : Nat) (t : GoType) (fields : List StructField) :
    Except GenError (List StructField) := do
  let tActual ← getUnderlyingType t
  if tActual.Kind != .Struct then
    pure fields
  else
    tActual.fieldList.foldlM (fun acc memberField => do
      let typeOfField ← getUnderlyingType memberField.Type_
      if typeOfField.Kind == .Struct && memberField.Anonymous then
        match fuel with
        | 0 => throw .outOfFuel
        | n + 1 => extractFields n typeOfField acc
      else
        pure (acc ++ [memberField])) fields

/-- The name of the member, mapping.go lines 214-220 of `generateMappingRecur`. -/
def memberName (goField : StructField) : String :=
  let name := getJSONNameFromTag goField.Tag
  if name.length > 0 then name else goField.Name

/-- The generated type of a field, mapping.go lines 230-234 of `generateMappingRecur`: the
empty string when the Type of its mapping is nil. -/
def generatedESTypeOf (innerMapping : Mapping) : String :=
  match innerMapping.Type_ with
  | some ty => ty
  | none => ""

/-- The flags applied to the mapping of a field, mapping.go lines 230-277 of
`generateMappingRecur`. -/
def applyCustomProps (innerMapping : Mapping) (esType : String)
    (customProps : Option (List String)) : Except GenError Mapping :=
  let generatedESType := generatedESTypeOf innerMapping
  match customProps with
  | none => pure innerMapping
  | some customProps => do
    let innerMapping :=
      if customProps.contains "indexignore" then { innerMapping with Index := some false }
      else innerMapping
    let innerMapping ←
      if customProps.contains "epoch_second" then
        if generatedESType ≠ esDATE then
          throw (GenError.invalidFormat "epoch_second" esType)
        else pure { innerMapping with Format := some "epoch_second" }
      else if customProps.contains "epoch_ms" then
        if generatedESType ≠ esDATE then
          throw (GenError.invalidFormat "epoch_millis" esType)
        else pure { innerMapping with Format := some "epoch_millis" }
      else pure innerMapping
    if customProps.contains "eager_global_ordinals" then
      if generatedESType ≠ esKEYWORD ∧ generatedESType ≠ esTEXT then
        throw GenError.eagerGlobalOrdinals
      else pure { innerMapping with EagerGlobalOrdinals := some true }
    else pure innerMapping

/-- The mapping generated for one field, mapping.go lines 222-277 of
`generateMappingRecur`; `recur` is the recursive call.  The `fmt.Printf` of line 225
writes to the standard output and has no part in the value. -/
def fieldMapping (recur : GoType → String → Except GenError Mapping)
    (goField : StructField) : Except GenError Mapping := do
  let goFieldType := goField.Type_
  let (esType, customProps) := getESTypeAndProps goField.Tag
  let innerMapping ← recur goFieldType esType
  applyCustomProps innerMapping esType customProps

/-- One turn of the loop of `generateMappingRecur`, mapping.go lines 211-279. -/
def fieldStep (recur : GoType → String → Except GenError Mapping)
    (props : List (String × Mapping)) (goField : StructField) :
    Except GenError (List (String × Mapping)) := do
  let innerMapping ← fieldMapping recur goField
  pure (mapInsert props (memberName goField) innerMapping)

/-- The function `generateMappingRecur`, mapping.go lines 181-286.  The lookup
`defaultElasticTypeMap[goType.Kind()]` of an absent key is the empty string. -/
def generateMappingRecur (fuel : Nat) (t : GoType) (customESType : String) :
    Except GenError Mapping := do
  let goType ← getUnderlyingType t
  if (← isPrimitiveGoType goType) then
    let esPrimType ←
      if customESType.length > 0 then
        if !isPrimitiveESType customESType then
          throw (GenError.invalidESType customESType)
        else pure customESType
      else
        pure ((defaultElasticTypeMap goType.Kind).getD "")
    pure { Mapping.zero with Type_ := some esPrimType }
  else
    match fuel with
    | 0 => throw .outOfFuel
    | n + 1 =>
      let allFields ← extractFields (n + 1) goType []
      let props ← allFields.foldlM (fieldStep (generateMappingRecur n)) []
      pure { Mapping.zero with Type_ := some "nested", Properties := some props }

/-- The function `GenerateMapping`, mapping.go lines 290-298. -/
def GenerateMapping (fuel : Nat) (t : GoType) : Except GenError Mapping := do
  let m ← generateMappingRecur fuel t ""
  pure { m with Type_ := none }

/-! ## The types of mapping_test.go -/

/-- The type `MyInnerStruct` of mapping_test.go. -/
def MyInnerStruct : GoType :=
  .struct "MyInnerStruct"
    [.mk "Bar" (.basic .String) [("json", "bar"), ("es", "text")] false]

/-- The type `MyStruct` of mapping_test.go. -/
def MyStruct : GoType :=
  .struct "MyStruct"
    [.mk "Foo" (.basic .Int) [("json", "foo,omitempty")] false,
     .mk "Inner" MyInnerStruct [("json", "inner")] false]

/-- The type `Dog` of mapping_test.go. -/
def Dog : GoType :=
  .struct "Dog"
    [.mk "Name" (.basic .String) [("json", "name"), ("es", ",eager_global_ordinals")] false,
     .mk "UniqueID" (.basic .String) [("json", "unique_id"), ("es", ",indexignore")] false]

/-- The value `expectedDTO` of `TestMappingGen`, mapping_test.go lines 45-59. -/
def TestMappingGen_expectedDTO : Mapping :=
  ⟨none, some [
      ("foo", ⟨some "integer", none, none, none, none⟩),
      ("inner", ⟨some "nested", some [("bar", ⟨some "text", none, none, none, none⟩)],
        none, none, none⟩)],
    none, none, none⟩

/-- The value `expectedDTO` of `TestCustomESProps`, mapping_test.go lines 78-89. -/
def TestCustomESProps_expectedDTO : Mapping :=
  ⟨none, some [
      ("name", ⟨some "keyword", none, none, none, some true⟩),
      ("unique_id", ⟨some "keyword", none, some false, none, none⟩)],
    none, none, none⟩

/-! ## Definitions used in the statements and proofs -/

/-- One turn of the loop of `extractFields`, mapping.go lines 167-176, as a function of
its own. -/
def extractStep (fuel : Nat) (acc : List StructField) (memberField : StructField) :
    Except GenError (List StructField) :=
  match getUnderlyingType memberField.Type_ with
  | .error e => .error e
  | .ok typeOfField =>
    if typeOfField.Kind = .Struct ∧ memberField.Anonymous = true then
      match fuel with
      | 0 => .error .outOfFuel
      | n + 1 => extractFields n typeOfField acc
    else .ok (acc ++ [memberField])

/-- The external name of a field in the words of the specification: the first
comma-delimited token of the json annotation when it is not empty, the declared name of the
field otherwise. -/
def externalNameSpec (goField : StructField) : String :=
  let token := String.mk ((goField.Tag.Get "json").data.takeWhile (fun ch => ch ≠ ','))
  if token ≠ "" then token else goField.Name

/-- A struct type with two fields of one external name:
`struct { Inner MyInnerStruct "json:x"; Foo int "json:x" }`. -/
def SameNameStruct : GoType :=
  .struct "SameNameStruct"
    [.mk "Inner" MyInnerStruct [("json", "x")] false,
     .mk "Foo" (.basic .Int) [("json", "x")] false]

/-- A struct type with a string field that carries the flags epoch_second and
eager_global_ordinals. -/
def KeywordEpochEager : GoType :=
  .struct "KeywordEpochEager"
    [.mk "Name" (.basic .String) [("es", ",epoch_second,eager_global_ordinals")] false]

/-- A struct type with a field of override date that carries the flags epoch_second and
eager_global_ordinals. -/
def DateEpochEager : GoType :=
  .struct "DateEpochEager"
    [.mk "When" (.basic .Int64) [("es", "date,epoch_second,eager_global_ordinals")] false]

/-- A struct type that embeds a pointer to `MyInnerStruct` between two fields of its own. -/
def OuterStruct : GoType :=
  .struct "OuterStruct"
    [.mk "ID" (.basic .Int64) [("json", "id")] false,
     .mk "MyInnerStruct" (.ptr MyInnerStruct) [] true,
     .mk "Note" (.basic .String) [] false]

mutual
/-- The depth of the nesting of struct types in a type. -/
def GoType.depth : GoType → Nat
  | .basic _ => 0
  | .array _ elem => elem.depth
  | .slice elem => elem.depth
  | .ptr elem => elem.depth
  | .struct _ fields => depthFields fields + 1
/-- The greatest depth of the types of the fields of a list. -/
def depthFields : List StructField → Nat
  | [] => 0
  | .mk _ t _ _ :: rest => max t.depth (depthFields rest)
end

/-- The text of a list of tokens with a comma between two tokens. -/
def joinComma (toks : List (List Char)) : List Char := List.intercalate [','] toks

/-- A struct type with a field of struct type that carries the flag indexignore. -/
def IgnoredInner : GoType :=
  .struct "IgnoredInner"
    [.mk "Inner" MyInnerStruct [("json", "inner"), ("es", ",indexignore")] false]

mutual
/-- The nodes of a Mapping tree: the Mapping itself and the nodes of its Properties. -/
def Mapping.nodes : Mapping → List Mapping
  | ⟨ty, props, idx, fmt, ego⟩ => ⟨ty, props, idx, fmt, ego⟩ :: nodesOfProperties props
/-- The nodes of the Mapping trees of a Properties member. -/
def nodesOfProperties : Option (List (String × Mapping)) → List Mapping
  | none => []
  | some entries => nodesOfEntries entries
/-- The nodes of the Mapping trees of the entries of a map. -/
def nodesOfEntries : List (String × Mapping) → List Mapping
  | [] => []
  | (_, m) :: rest => m.nodes ++ nodesOfEntries rest
end

/-- A struct type with a date field, a keyword field with eager global ordinals and a field
of struct type. -/
def EventStruct : GoType :=
  .struct "EventStruct"
    [.mk "At" (.basic .Int64) [("json", "at"), ("es", "date,epoch_second")] false,
     .mk "Owner" Dog [("json", "owner")] false]

/-- The Mapping that GenerateMapping returns for `EventStruct`. -/
def EventStruct_expected : Mapping :=
  ⟨none, some [
      ("at", ⟨some "date", none, none, some "epoch_second", none⟩),
      ("owner", ⟨some "nested", some [
        ("name", ⟨some "keyword", none, none, none, some true⟩),
        ("unique_id", ⟨some "keyword", none, some false, none, none⟩)],
        none, none, none⟩)], none, none, none⟩

/-- A struct type with a field of map type. -/
def MapFieldStruct : GoType :=
  .struct "MapFieldStruct" [.mk "Labels" (.basic .Map) [("json", "labels")] false]

/-- A struct type with a field of override date that carries the flags epoch_second,
epoch_ms and eager_global_ordinals. -/
def DateBothEpochEager : GoType :=
  .struct "DateBothEpochEager"
    [.mk "When" (.basic .Int64)
      [("es", "date,epoch_ms,epoch_second,eager_global_ordinals")] false]

/-- A struct type with two fields of one external name, the first with an override that
is not a valid type. -/
def SameNameInvalid : GoType :=
  .struct "SameNameInvalid"
    [.mk "A" (.basic .String) [("json", "x"), ("es", "geo_point")] false,
     .mk "B" (.basic .Int) [("json", "x")] false]

/-- A struct type with a field of struct type that carries an override and a date flag. -/
def NestedWithDateFlag : GoType :=
  .struct "NestedWithDateFlag"
    [.mk "Inner" MyInnerStruct [("json", "inner"), ("es", "date,epoch_second")] false]

/-- The base type of a type in the words of the specification: what is left when the
pointer, array and slice layers are stripped. -/
def baseTypeSpec : GoType → GoType
  | .array _ elem => baseTypeSpec elem
  | .slice elem => baseTypeSpec elem
  | .ptr elem => baseTypeSpec elem
  | t => t

mutual
/-- The extracted fields of a type in the words of the specification: none for a type whose
base type is not a struct, the contributions of the declared fields in declaration order
for one whose base type is a struct. -/
def flattenSpec : GoType → List StructField
  | .basic _ => []
  | .array _ elem => flattenSpec elem
  | .slice elem => flattenSpec elem
  | .ptr elem => flattenSpec elem
  | .struct _ fields => flattenFieldsSpec fields
/-- The contributions of a list of declared fields: for an anonymous field whose base type
is a struct the extracted fields of its type, for any other field the field itself. -/
def flattenFieldsSpec : List StructField → List StructField
  | [] => []
  | .mk name ty tag anonymous :: rest =>
    (if anonymous = true ∧ (baseTypeSpec ty).Kind = .Struct then flattenSpec ty
      else [.mk name ty tag anonymous]) ++ flattenFieldsSpec rest
end

/-- A struct type with a field of type unsafe.Pointer. -/
def UnsafeFieldStruct : GoType :=
  .struct "UnsafeFieldStruct"
    [.mk "ID" (.basic .Int64) [("json", "id")] false,
     .mk "Raw" (.basic .UnsafePointer) [("json", "raw")] false]

/-- The method `reflect.Kind.String`. -/
def kindString : Kind → String
  | .Invalid => "invalid" | .Bool => "bool"
  | .Int => "int" | .Int8 => "int8" | .Int16 => "int16" | .Int32 => "int32"
  | .Int64 => "int64"
  | .Uint => "uint" | .Uint8 => "uint8" | .Uint16 => "uint16" | .Uint32 => "uint32"
  | .Uint64 => "uint64" | .Uintptr => "uintptr"
  | .Float32 => "float32" | .Float64 => "float64"
  | .Complex64 => "complex64" | .Complex128 => "complex128"
  | .Array => "array" | .Chan => "chan" | .Func => "func" | .Interface => "interface"
  | .Map => "map" | .Ptr => "ptr" | .Slice => "slice" | .String => "string"
  | .Struct => "struct" | .UnsafePointer => "unsafe.Pointer"

/-- The text written by the `fmt.Printf` of mapping.go line 225 for a field. -/
def printedForField (goField : StructField) : String :=
  "field name: " ++ memberName goField ++ "\n\ttype:" ++ kindString goField.Type_.Kind ++ "\n"

/-- The loop of `generateMappingRecur`, mapping.go lines 211-279, with the standard output:
`out` is the list of the texts written so far, the result is the list afterwards and the
properties or the panic.  `recur` is the recursive call. -/
def fieldLoopOut
    (recur : GoType → String → List String → List String × Except GenError Mapping) :
    List StructField → List (String × Mapping) → List String →
      List String × Except GenError (List (String × Mapping))
  | [], props, out => (out, .ok props)
  | goField :: rest, props, out =>
    let esType := (getESTypeAndProps goField.Tag).1
    let customProps := (getESTypeAndProps goField.Tag).2
    let out1 := out ++ [printedForField goField]
    match recur goField.Type_ esType out1 with
    | (out2, .error e) => (out2, .error e)
    | (out2, .ok innerMapping) =>
      match applyCustomProps innerMapping esType customProps with
      | .error e => (out2, .error e)
      | .ok innerMapping =>
        fieldLoopOut recur rest (mapInsert props (memberName goField) innerMapping) out2

/-- The function `generateMappingRecur`, mapping.go lines 181-286, with the standard output:
`out` is the list of the texts written so far, the result is the list afterwards and the
value returned or the panic. -/
def generateMappingRecurOut (fuel : Nat) (t : GoType) (customESType : String)
    (out : List String) : List String × Except GenError Mapping :=
  match getUnderlyingType t with
  | .error e => (out, .error e)
  | .ok goType =>
    match isPrimitiveGoType goType with
    | .error e => (out, .error e)
    | .ok true =>
      if customESType.length > 0 then
        if !isPrimitiveESType customESType then
          (out, .error (GenError.invalidESType customESType))
        else (out, .ok { Mapping.zero with Type_ := some customESType })
      else
        (out, .ok { Mapping.zero with
          Type_ := some ((defaultElasticTypeMap goType.Kind).getD "") })
    | .ok false =>
      match fuel with
      | 0 => (out, .error .outOfFuel)
      | n + 1 =>
        match extractFields (n + 1) goType [] with
        | .error e => (out, .error e)
        | .ok allFields =>
          match fieldLoopOut (generateMappingRecurOut n) allFields [] out with
          | (out2, .error e) => (out2, .error e)
          | (out2, .ok props) =>
            (out2, .ok { Mapping.zero with Type_ := some "nested", Properties := some props })

/-- The function `GenerateMapping`, mapping.go lines 290-298, with the standard output. -/
def GenerateMappingOut (fuel : Nat) (t : GoType) (out : List String) :
    List String × Except GenError Mapping :=
  match generateMappingRecurOut fuel t "" out with
  | (out2, .error e) => (out2, .error e)
  | (out2, .ok m) => (out2, .ok { m with Type_ := none })

/-- The texts that the loop over the extracted fields writes, in the words of the amended
claim C18: for each field in order the text of the Printf followed by what the generation of
the type of the field writes (`written`), up to and including the first field whose mapping
is not generated (`rec` is the generation of a type). -/
def writtenFieldsSpec (written : GoType → List String)
    (rec : GoType → String → Except GenError Mapping) : List StructField → List String
  | [] => []
  | f :: rest =>
    printedForField f :: written f.Type_ ++
      (match fieldMapping rec f with
       | .ok _ => writtenFieldsSpec written rec rest
       | .error _ => [])

/-- The texts that the generation of a type writes to the standard output, in the words of
the amended claim C18: nothing when the unwrapping panics, when the unwrapped type is not a
struct or when the extraction of the fields panics, and else the texts of the loop over the
extracted fields. -/
def writtenSpec : Nat → GoType → List String
  | 0, _ => []
  | n + 1, t =>
    match getUnderlyingType t with
    | .error _ => []
    | .ok g =>
      if g.Kind = .Struct then
        match extractFields (n + 1) g [] with
        | .error _ => []
        | .ok fs => writtenFieldsSpec (writtenSpec n) (generateMappingRecur n) fs
      else []

/-- A struct type whose field Inner has a struct type, AbortInner, in which the override of
the second field is not a valid type: the generation aborts in the middle of the inner loop. -/
def DeepAbortStruct : GoType :=
  .struct "DeepAbortStruct"
    [.mk "ID" (.basic .Int64) [("json", "id")] false,
     .mk "Inner" (.ptr (.struct "AbortInner"
        [.mk "Ok" (.basic .String) [("json", "ok")] false,
         .mk "Bad" (.basic .String) [("json", "bad"), ("es", "geo_point")] false,
         .mk "Rest" (.basic .Int) [("json", "rest")] false])) [("json", "inner")] false,
     .mk "Tail" (.basic .String) [("json", "tail")] false]

/-! ## Lemmas -/

theorem getUnderlyingType_kind : ∀ (t g : GoType), getUnderlyingType t = .ok g →
    (∃ k, g = .basic k ∧ k ≠ .UnsafePointer) ∨ (∃ n fs, g = .struct n fs)
  | .array _ e, g, h => getUnderlyingType_kind e g (by simpa [getUnderlyingType] using h)
  | .slice e, g, h => getUnderlyingType_kind e g (by simpa [getUnderlyingType] using h)
  | .ptr e, g, h => getUnderlyingType_kind e g (by simpa [getUnderlyingType] using h)
  | .struct n fs, g, h => by
    simp [getUnderlyingType] at h
    exact Or.inr ⟨n, fs, h.symm⟩
  | .basic k, g, h => by
    cases k <;> simp [getUnderlyingType] at h <;> exact Or.inl ⟨_, h.symm, by decide⟩

theorem getUnderlyingType_idem (t g : GoType) (h : getUnderlyingType t = .ok g) :
    getUnderlyingType g = .ok g := by
  rcases getUnderlyingType_kind t g h with ⟨k, rfl, hk⟩ | ⟨n, fs, rfl⟩
  · cases k <;> simp [getUnderlyingType] at hk ⊢
  · simp [getUnderlyingType]

theorem isPrimitiveGoType_of_underlying (t g : GoType) (h : getUnderlyingType t = .ok g) :
    isPrimitiveGoType g = .ok (g.Kind != .Struct) := by
  simp [isPrimitiveGoType, getUnderlyingType_idem t g h, bind, Except.bind, pure, Except.pure]

theorem generateMappingRecur_prim (fuel : Nat) (t g : GoType) (c : String)
    (h : getUnderlyingType t = .ok g) (hk : g.Kind ≠ .Struct) :
    generateMappingRecur fuel t c =
      if c.length > 0 then
        if isPrimitiveESType c = true then .ok ⟨some c, none, none, none, none⟩
        else .error (.invalidESType c)
      else .ok ⟨some ((defaultElasticTypeMap g.Kind).getD ""), none, none, none, none⟩ := by
  unfold generateMappingRecur
  simp only [h, isPrimitiveGoType_of_underlying t g h, bind, Except.bind]
  have hb : (g.Kind != Kind.Struct) = true := by simpa using hk
  simp only [hb, if_true]
  by_cases hc : c.length > 0
  · by_cases hp : isPrimitiveESType c = true
    · simp [hc, hp, pure, Except.pure, Mapping.zero, Except.bind]
    · simp [hc, hp, pure, Except.pure, Mapping.zero, Except.bind, throw, throwThe, MonadExceptOf.throw]
  · simp [hc, pure, Except.pure, Mapping.zero, Except.bind]

theorem generateMappingRecur_struct (n : Nat) (t g : GoType) (c : String)
    (h : getUnderlyingType t = .ok g) (hk : g.Kind = .Struct) :
    generateMappingRecur (n + 1) t c =
      match extractFields (n + 1) g [] with
      | .error e => .error e
      | .ok allFields =>
        match allFields.foldlM (fieldStep (generateMappingRecur n)) [] with
        | .error e => .error e
        | .ok props => .ok ⟨some "nested", some props, none, none, none⟩ := by
  rw [generateMappingRecur]
  simp only [h, isPrimitiveGoType_of_underlying t g h, bind, Except.bind]
  have hb : (g.Kind != Kind.Struct) = false := by simp [hk]
  simp only [hb]
  cases extractFields (n + 1) g [] with
  | error e => simp
  | ok fs =>
    simp only
    cases List.foldlM (fieldStep (generateMappingRecur n)) [] fs with
    | error e => simp
    | ok props => simp [pure, Except.pure, Mapping.zero]

theorem generateMappingRecur_struct_zero (t g : GoType) (c : String)
    (h : getUnderlyingType t = .ok g) (hk : g.Kind = .Struct) :
    generateMappingRecur 0 t c = .error .outOfFuel := by
  rw [generateMappingRecur]
  simp only [h, isPrimitiveGoType_of_underlying t g h, bind, Except.bind]
  have hb : (g.Kind != Kind.Struct) = false := by simp [hk]
  simp [hb, throw, throwThe, MonadExceptOf.throw]

section fold

variable {ε α β : Type}

theorem foldlM_ok_cons (f : β → α → Except ε β) (a : β) (x : α) (xs : List α) (r : β) :
    List.foldlM f a (x :: xs) = .ok r ↔ ∃ b, f a x = .ok b ∧ List.foldlM f b xs = .ok r := by
  simp only [List.foldlM_cons, bind, Except.bind]
  cases f a x with
  | error e => simp
  | ok b => simp

theorem foldlM_ok_append (f : β → α → Except ε β) (a : β) (xs ys : List α) (r : β) :
    List.foldlM f a (xs ++ ys) = .ok r ↔
      ∃ b, List.foldlM f a xs = .ok b ∧ List.foldlM f b ys = .ok r := by
  simp only [List.foldlM_append, bind, Except.bind]
  cases List.foldlM f a xs with
  | error e => simp
  | ok b => simp

theorem foldlM_ok_mono (f g : β → α → Except ε β)
    (hfg : ∀ a x r, f a x = .ok r → g a x = .ok r) :
    ∀ (xs : List α) (a r : β), List.foldlM f a xs = .ok r → List.foldlM g a xs = .ok r := by
  intro xs
  induction xs with
  | nil => intro a r h; simpa using h
  | cons x xs ih =>
    intro a r h
    rw [foldlM_ok_cons] at h ⊢
    obtain ⟨b, hb, hr⟩ := h
    exact ⟨b, hfg _ _ _ hb, ih _ _ hr⟩

theorem foldlM_error_of_mem (f : β → α → Except ε β)
    (x : α) (hx : ∀ a, ∃ e, f a x = .error e) :
    ∀ (xs : List α) (a : β), x ∈ xs → ∃ e, List.foldlM f a xs = .error e := by
  intro xs
  induction xs with
  | nil => intro a h; simp at h
  | cons y ys ih =>
    intro a h
    simp only [List.foldlM_cons, bind, Except.bind]
    cases hy : f a y with
    | error e => exact ⟨e, rfl⟩
    | ok b =>
      rcases List.mem_cons.1 h with rfl | h
      · obtain ⟨e, he⟩ := hx a
        rw [he] at hy
        cases hy
      · exact ih b h

end fold

theorem extractFields_eq (fuel : Nat) (t : GoType) (fields : List StructField) :
    extractFields fuel t fields =
      match getUnderlyingType t with
      | .error e => .error e
      | .ok tActual =>
        if tActual.Kind ≠ .Struct then .ok fields
        else tActual.fieldList.foldlM (extractStep fuel) fields := by
  rw [extractFields]
  simp only [bind, Except.bind]
  cases getUnderlyingType t with
  | error e => rfl
  | ok tActual =>
    simp only
    by_cases hk : tActual.Kind = .Struct
    · simp only [hk, bne_self_eq_false, ne_eq, not_true_eq_false, if_false, Bool.false_eq_true]
      congr 1
      funext acc memberField
      simp only [extractStep]
      cases getUnderlyingType memberField.Type_ with
      | error e => rfl
      | ok ty =>
        simp only [Bool.and_eq_true, beq_iff_eq]
        split
        · cases fuel <;> rfl
        · rfl
    · simp [hk, pure, Except.pure]

theorem mapLookup_mapInsert (props : List (String × Mapping)) (k k2 : String) (v : Mapping) :
    mapLookup (mapInsert props k v) k2 = if k = k2 then some v else mapLookup props k2 := by
  induction props with
  | nil => simp [mapInsert, mapLookup]
  | cons p rest ih =>
    obtain ⟨k0, v0⟩ := p
    by_cases h0 : k0 = k
    · subst h0
      by_cases h2 : k0 = k2 <;> simp [mapInsert, mapLookup, h2]
    · by_cases h2 : k = k2
      · subst h2
        simp [mapInsert, mapLookup, h0, ih]
      · simp [mapInsert, mapLookup, h0, h2, ih]

theorem fieldStep_ok (r : GoType → String → Except GenError Mapping)
    (props p : List (String × Mapping)) (f : StructField) :
    fieldStep r props f = .ok p ↔
      ∃ c, fieldMapping r f = .ok c ∧ p = mapInsert props (memberName f) c := by
  simp only [fieldStep, bind, Except.bind]
  cases fieldMapping r f with
  | error e => simp
  | ok c => simp [pure, Except.pure, eq_comm]

theorem fieldStep_error (r : GoType → String → Except GenError Mapping)
    (props : List (String × Mapping)) (f : StructField) (e : GenError)
    (h : fieldMapping r f = .error e) : fieldStep r props f = .error e := by
  simp [fieldStep, bind, Except.bind, h]

theorem loop_lookup_notin (r : GoType → String → Except GenError Mapping) (k : String) :
    ∀ (fs : List StructField) (init p : List (String × Mapping)),
      List.foldlM (fieldStep r) init fs = .ok p → (∀ f ∈ fs, memberName f ≠ k) →
      mapLookup p k = mapLookup init k := by
  intro fs
  induction fs with
  | nil => intro init p h _; simp [pure, Except.pure] at h; rw [h]
  | cons x xs ih =>
    intro init p h hk
    rw [foldlM_ok_cons] at h
    obtain ⟨b, hb, hr⟩ := h
    obtain ⟨c, _, rfl⟩ := (fieldStep_ok _ _ _ _).1 hb
    rw [ih _ _ hr (fun f hf => hk f (List.mem_cons_of_mem _ hf)), mapLookup_mapInsert,
      if_neg (hk x (List.mem_cons_self _ _))]

theorem loop_lookup_in (r : GoType → String → Except GenError Mapping) (k : String) :
    ∀ (fs : List StructField) (init init2 p p2 : List (String × Mapping)),
      List.foldlM (fieldStep r) init fs = .ok p → List.foldlM (fieldStep r) init2 fs = .ok p2 →
      (∃ f ∈ fs, memberName f = k) → mapLookup p k = mapLookup p2 k := by
  intro fs
  induction fs with
  | nil => intro _ _ _ _ _ _ h; simp at h
  | cons x xs ih =>
    intro init init2 p p2 h h2 hk
    rw [foldlM_ok_cons] at h h2
    obtain ⟨b, hb, hr⟩ := h
    obtain ⟨b2, hb2, hr2⟩ := h2
    by_cases hx : ∃ f ∈ xs, memberName f = k
    · exact ih _ _ _ _ hr hr2 hx
    · have hx2 : ∀ f ∈ xs, memberName f ≠ k := fun f hf hn => hx ⟨f, hf, hn⟩
      obtain ⟨f, hf, hfk⟩ := hk
      have hxk : memberName x = k := by
        rcases List.mem_cons.1 hf with rfl | hf
        · exact hfk
        · exact absurd hfk (hx2 f hf)
      obtain ⟨c, hc, rfl⟩ := (fieldStep_ok _ _ _ _).1 hb
      obtain ⟨c2, hc2, rfl⟩ := (fieldStep_ok _ _ _ _).1 hb2
      rw [hc] at hc2
      cases hc2
      rw [loop_lookup_notin r k xs _ _ hr hx2, loop_lookup_notin r k xs _ _ hr2 hx2,
        mapLookup_mapInsert, mapLookup_mapInsert, if_pos hxk, if_pos hxk]

theorem loop_init_irrelevant (r : GoType → String → Except GenError Mapping) :
    ∀ (fs : List StructField) (init init2 p : List (String × Mapping)),
      List.foldlM (fieldStep r) init fs = .ok p → ∃ p2, List.foldlM (fieldStep r) init2 fs = .ok p2 := by
  intro fs
  induction fs with
  | nil => intro init init2 p _; exact ⟨init2, rfl⟩
  | cons x xs ih =>
    intro init init2 p h
    rw [foldlM_ok_cons] at h
    obtain ⟨b, hb, hr⟩ := h
    obtain ⟨c, hc, rfl⟩ := (fieldStep_ok _ _ _ _).1 hb
    obtain ⟨p2, hp2⟩ := ih _ (mapInsert init2 (memberName x) c) _ hr
    exact ⟨p2, (foldlM_ok_cons _ _ _ _ _).2 ⟨_, (fieldStep_ok _ _ _ _).2 ⟨c, hc, rfl⟩, hp2⟩⟩

theorem loop_last (r : GoType → String → Except GenError Mapping)
    (pre post : List StructField) (f : StructField) (init p : List (String × Mapping))
    (h : List.foldlM (fieldStep r) init (pre ++ f :: post) = .ok p)
    (hpost : ∀ g ∈ post, memberName g ≠ memberName f) :
    ∃ c, fieldMapping r f = .ok c ∧ mapLookup p (memberName f) = some c := by
  rw [foldlM_ok_append] at h
  obtain ⟨b, _, h⟩ := h
  rw [foldlM_ok_cons] at h
  obtain ⟨b2, hb2, hr⟩ := h
  obtain ⟨c, hc, rfl⟩ := (fieldStep_ok _ _ _ _).1 hb2
  refine ⟨c, hc, ?_⟩
  rw [loop_lookup_notin r _ post _ _ hr hpost, mapLookup_mapInsert, if_pos rfl]

theorem loop_keys (r : GoType → String → Except GenError Mapping) (k : String) :
    ∀ (fs : List StructField) (init p : List (String × Mapping)),
      List.foldlM (fieldStep r) init fs = .ok p →
      ((mapLookup p k).isSome = true ↔
        ((mapLookup init k).isSome = true ∨ ∃ f ∈ fs, memberName f = k)) := by
  intro fs
  induction fs with
  | nil => intro init p h; simp [pure, Except.pure] at h; simp [h]
  | cons x xs ih =>
    intro init p h
    rw [foldlM_ok_cons] at h
    obtain ⟨b, hb, hr⟩ := h
    obtain ⟨c, _, rfl⟩ := (fieldStep_ok _ _ _ _).1 hb
    rw [ih _ _ hr, mapLookup_mapInsert]
    by_cases hx : memberName x = k
    · simp [hx]
    · simp [hx]

theorem foldlM_acc {ε α γ : Type} (step : List γ → α → Except ε (List γ))
    (hstep : ∀ acc x, step acc x = (step [] x).map (fun l => acc ++ l)) :
    ∀ (xs : List α) (acc : List γ), List.foldlM step acc xs =
      (List.foldlM step [] xs).map (fun l => acc ++ l) := by
  intro xs
  induction xs with
  | nil => intro acc; simp [pure, Except.pure, Except.map]
  | cons x xs ih =>
    intro acc
    simp only [List.foldlM_cons, bind, Except.bind]
    rw [hstep acc x]
    cases step [] x with
    | error e => rfl
    | ok l =>
      simp only [Except.map]
      rw [ih (acc ++ l), ih l]
      cases List.foldlM step [] xs with
      | error e => rfl
      | ok l2 => simp [Except.map, List.append_assoc]

theorem extractFields_acc : ∀ (fuel : Nat) (t : GoType) (acc : List StructField),
    extractFields fuel t acc = (extractFields fuel t []).map (fun l => acc ++ l) := by
  intro fuel
  induction fuel with
  | zero =>
    intro t acc
    rw [extractFields_eq, extractFields_eq 0 t []]
    cases getUnderlyingType t with
    | error e => rfl
    | ok g =>
      simp only
      by_cases hk : g.Kind = .Struct
      · simp only [hk, ne_eq, not_true_eq_false, if_false]
        apply foldlM_acc
        intro acc x
        simp only [extractStep]
        cases getUnderlyingType x.Type_ with
        | error e => rfl
        | ok ty => simp only; split <;> simp [Except.map]
      · simp [hk, Except.map]
  | succ n ih =>
    intro t acc
    rw [extractFields_eq, extractFields_eq (n + 1) t []]
    cases getUnderlyingType t with
    | error e => rfl
    | ok g =>
      simp only
      by_cases hk : g.Kind = .Struct
      · simp only [hk, ne_eq, not_true_eq_false, if_false]
        apply foldlM_acc
        intro acc x
        simp only [extractStep]
        cases getUnderlyingType x.Type_ with
        | error e => rfl
        | ok ty =>
          simp only
          split
          · exact ih ty acc
          · simp [Except.map]
      · simp [hk, Except.map]

theorem fieldMapping_eq (r : GoType → String → Except GenError Mapping) (f : StructField) :
    fieldMapping r f =
      (r f.Type_ (getESTypeAndProps f.Tag).1).bind
        (fun inner => applyCustomProps inner (getESTypeAndProps f.Tag).1 (getESTypeAndProps f.Tag).2) := by
  rfl

theorem foldlM_stable {ε α β : Type} (f g : β → α → Except ε β) (e0 : ε)
    (hfg : ∀ a x, f a x ≠ .error e0 → g a x = f a x) :
    ∀ (xs : List α) (a : β), List.foldlM f a xs ≠ .error e0 →
      List.foldlM g a xs = List.foldlM f a xs := by
  intro xs
  induction xs with
  | nil => intro a _; rfl
  | cons x xs ih =>
    intro a h
    simp only [List.foldlM_cons, bind, Except.bind] at h ⊢
    cases hx : f a x with
    | error e =>
      rw [hx] at h
      simp only at h
      rw [hfg a x (by rw [hx]; exact h), hx]
    | ok b =>
      rw [hx] at h
      simp only at h
      rw [hfg a x (by rw [hx]; exact fun hh => by cases hh)]
      rw [hx]
      exact ih b h

theorem extractStep_stable (fuel : Nat)
    (ih : ∀ n, fuel = n + 1 → ∀ (t : GoType) (acc : List StructField),
      extractFields n t acc ≠ .error .outOfFuel →
      extractFields (n + 1) t acc = extractFields n t acc)
    (a : List StructField) (x : StructField)
    (h : extractStep fuel a x ≠ .error .outOfFuel) :
    extractStep (fuel + 1) a x = extractStep fuel a x := by
  simp only [extractStep] at h ⊢
  cases hty : getUnderlyingType x.Type_ with
  | error e => rfl
  | ok ty =>
    rw [hty] at h
    simp only at h ⊢
    split
    · rename_i hc
      rw [if_pos hc] at h
      cases fuel with
      | zero => exact absurd rfl h
      | succ n => exact ih n rfl ty a h
    · rfl

theorem extractFields_stable : ∀ (n : Nat) (t : GoType) (acc : List StructField),
    extractFields n t acc ≠ .error .outOfFuel →
    extractFields (n + 1) t acc = extractFields n t acc := by
  intro n
  induction n using Nat.strong_induction_on with
  | _ n ih =>
    intro t acc h
    rw [extractFields_eq] at h
    rw [extractFields_eq, extractFields_eq n]
    cases hg : getUnderlyingType t with
    | error e => rfl
    | ok g =>
      rw [hg] at h
      simp only at h ⊢
      by_cases hk : g.Kind = .Struct
      · simp only [hk, ne_eq, not_true_eq_false, if_false] at h ⊢
        refine foldlM_stable _ _ .outOfFuel ?_ _ _ h
        intro a x hx
        refine extractStep_stable n ?_ a x hx
        intro m hm t2 acc2
        exact ih m (by omega) t2 acc2
      · simp [hk]

theorem generateMappingRecur_stable_succ : ∀ (n : Nat) (t : GoType) (c : String),
    generateMappingRecur n t c ≠ .error .outOfFuel →
    generateMappingRecur (n + 1) t c = generateMappingRecur n t c := by
  intro n
  induction n with
  | zero =>
    intro t c h
    cases hg : getUnderlyingType t with
    | error e =>
      rw [generateMappingRecur, generateMappingRecur]
      simp [hg, bind, Except.bind]
    | ok g =>
      by_cases hk : g.Kind = .Struct
      · exact absurd (generateMappingRecur_struct_zero t g c hg hk) h
      · rw [generateMappingRecur_prim _ t g c hg hk, generateMappingRecur_prim _ t g c hg hk]
  | succ n ih =>
    intro t c h
    cases hg : getUnderlyingType t with
    | error e =>
      rw [generateMappingRecur, generateMappingRecur]
      simp [hg, bind, Except.bind]
    | ok g =>
      by_cases hk : g.Kind = .Struct
      · rw [generateMappingRecur_struct _ t g c hg hk] at h ⊢
        rw [generateMappingRecur_struct _ t g c hg hk]
        have hx : extractFields (n + 1) g [] ≠ .error .outOfFuel := by
          intro hh
          rw [hh] at h
          exact h rfl
        rw [extractFields_stable _ _ _ hx]
        cases hfs : extractFields (n + 1) g [] with
        | error e => rfl
        | ok fs =>
          rw [hfs] at h
          simp only at h ⊢
          have hl : List.foldlM (fieldStep (generateMappingRecur n)) [] fs
              ≠ .error .outOfFuel := by
            intro hh
            rw [hh] at h
            exact h rfl
          rw [foldlM_stable (fieldStep (generateMappingRecur n))
            (fieldStep (generateMappingRecur (n + 1))) .outOfFuel ?_ fs [] hl]
          intro a x hstep
          simp only [fieldStep, fieldMapping_eq] at hstep ⊢
          have hin : generateMappingRecur n x.Type_ (getESTypeAndProps x.Tag).1
              ≠ .error .outOfFuel := by
            intro hh
            rw [hh] at hstep
            exact hstep rfl
          rw [ih _ _ hin]
      · rw [generateMappingRecur_prim _ t g c hg hk, generateMappingRecur_prim _ t g c hg hk]

theorem extractFields_mono (n : Nat) (t : GoType) (acc r : List StructField)
    (h : extractFields n t acc = .ok r) : extractFields (n + 1) t acc = .ok r := by
  rw [extractFields_stable n t acc (by rw [h]; exact fun hh => by cases hh), h]

theorem generateMappingRecur_mono (n : Nat) (t : GoType) (c : String) (m : Mapping)
    (h : generateMappingRecur n t c = .ok m) : generateMappingRecur (n + 1) t c = .ok m := by
  rw [generateMappingRecur_stable_succ n t c (by rw [h]; exact fun hh => by cases hh), h]

theorem generateMappingRecur_mono_le (n m : Nat) (hnm : n ≤ m) (t : GoType) (c : String)
    (r : Mapping) (h : generateMappingRecur n t c = .ok r) :
    generateMappingRecur m t c = .ok r := by
  induction hnm with
  | refl => exact h
  | step _ ih => exact generateMappingRecur_mono _ _ _ _ ih

theorem generateMappingRecur_error_of_field (n : Nat) (T G : GoType) (c : String)
    (fs : List StructField) (f : StructField) (e : GenError)
    (hT : getUnderlyingType T = .ok G) (hG : G.Kind = .Struct)
    (hfs : extractFields (n + 1) G [] = .ok fs) (hf : f ∈ fs)
    (he : fieldMapping (generateMappingRecur n) f = .error e) :
    ∃ e2, generateMappingRecur (n + 1) T c = .error e2 := by
  rw [generateMappingRecur_struct n T G c hT hG, hfs]
  simp only
  obtain ⟨e2, he2⟩ := foldlM_error_of_mem (fieldStep (generateMappingRecur n)) f
    (fun a => ⟨e, fieldStep_error _ a f e he⟩) fs [] hf
  rw [he2]
  exact ⟨e2, rfl⟩

theorem length_pos_of_ne_empty (c : String) (h : c ≠ "") : c.length > 0 := by
  rcases c with ⟨l⟩
  cases l with
  | nil => exact absurd rfl h
  | cons a l => simp [String.length]

theorem isPrimitiveESType_iff (c : String) :
    isPrimitiveESType c = true ↔
      c ∈ ["boolean", "integer", "long", "float", "double", "keyword", "text", "date", "ip"] := by
  simp [isPrimitiveESType, esPrimitiveSet, createPrimitiveSet, esPrimitives, esBOOL, esINT,
    esLONG, esFLOAT, esDOUBLE, esKEYWORD, esTEXT, esDATE, esIP]

theorem splitComma_head (cs : List Char) :
    ∃ rest, splitComma cs = cs.takeWhile (fun ch => ch ≠ ',') :: rest := by
  induction cs with
  | nil => exact ⟨[], rfl⟩
  | cons c cs ih =>
    obtain ⟨rest, hr⟩ := ih
    by_cases hc : c = ','
    · exact ⟨splitComma cs, by simp [splitComma, hc]⟩
    · exact ⟨rest, by simp [splitComma, hc, hr]⟩

theorem getJSONNameFromTag_eq (tag : StructTag) :
    getJSONNameFromTag tag
      = String.mk ((tag.Get "json").data.takeWhile (fun ch => ch ≠ ',')) := by
  unfold getJSONNameFromTag getTagValues
  generalize tag.Get "json" = v
  rcases v with ⟨l⟩
  cases l with
  | nil => rfl
  | cons a l =>
    obtain ⟨rest, hr⟩ := splitComma_head (a :: l)
    have hpos : (String.mk (a :: l)).length > 0 := by simp [String.length]
    simp only [hpos, if_true, stringsSplitComma, hr, List.map_cons]

theorem ite_length_pos (tok name : String) :
    (if tok.length > 0 then tok else name) = (if tok ≠ "" then tok else name) := by
  by_cases ht : tok = ""
  · subst ht
    rfl
  · rw [if_pos (length_pos_of_ne_empty tok ht), if_pos ht]

theorem memberName_eq_externalNameSpec (f : StructField) :
    memberName f = externalNameSpec f := by
  unfold memberName externalNameSpec
  rw [getJSONNameFromTag_eq]
  exact ite_length_pos _ _

theorem generateMappingRecur_struct_ok (n : Nat) (t g : GoType) (c : String) (m : Mapping)
    (hg : getUnderlyingType t = .ok g) (hk : g.Kind = .Struct)
    (hm : generateMappingRecur (n + 1) t c = .ok m) :
    ∃ fs props, extractFields (n + 1) g [] = .ok fs ∧
      List.foldlM (fieldStep (generateMappingRecur n)) [] fs = .ok props ∧
      m = ⟨some "nested", some props, none, none, none⟩ := by
  rw [generateMappingRecur_struct n t g c hg hk] at hm
  cases hfs : extractFields (n + 1) g [] with
  | error e => rw [hfs] at hm; cases hm
  | ok fs =>
    rw [hfs] at hm
    simp only at hm
    cases hp : List.foldlM (fieldStep (generateMappingRecur n)) [] fs with
    | error e => rw [hp] at hm; cases hm
    | ok props =>
      rw [hp] at hm
      simp only [Except.ok.injEq] at hm
      exact ⟨fs, props, rfl, hp, hm.symm⟩

theorem generateMappingRecur_struct_congr (fuel : Nat) (t g : GoType) (c c2 : String)
    (hg : getUnderlyingType t = .ok g) (hk : g.Kind = .Struct) :
    generateMappingRecur fuel t c = generateMappingRecur fuel g c2 := by
  have hgg := getUnderlyingType_idem t g hg
  cases fuel with
  | zero =>
    rw [generateMappingRecur_struct_zero t g c hg hk,
      generateMappingRecur_struct_zero g g c2 hgg hk]
  | succ n =>
    rw [generateMappingRecur_struct n t g c hg hk,
      generateMappingRecur_struct n g g c2 hgg hk]

theorem generateMappingRecur_fuel_indep (n n2 : Nat) (t : GoType) (c : String)
    (m m2 : Mapping) (h : generateMappingRecur n t c = .ok m)
    (h2 : generateMappingRecur n2 t c = .ok m2) : m = m2 := by
  have e1 := generateMappingRecur_mono_le n (max n n2) (le_max_left _ _) t c m h
  have e2 := generateMappingRecur_mono_le n2 (max n n2) (le_max_right _ _) t c m2 h2
  rw [e1] at e2
  exact Except.ok.inj e2

theorem extractStep_mem (fuel : Nat) (acc r : List StructField) (x : StructField)
    (h : extractStep fuel acc x = .ok r) :
    (∀ a ∈ acc, a ∈ r) ∧
    ((∀ ty, getUnderlyingType x.Type_ = .ok ty → ¬ (ty.Kind = .Struct ∧ x.Anonymous = true)) →
      x ∈ r) := by
  simp only [extractStep] at h
  cases hty : getUnderlyingType x.Type_ with
  | error e => rw [hty] at h; cases h
  | ok ty =>
    rw [hty] at h
    simp only at h
    split at h
    · rename_i hc
      refine ⟨?_, fun hno => absurd hc (hno ty rfl)⟩
      cases fuel with
      | zero => cases h
      | succ n =>
        simp only at h
        rw [extractFields_acc] at h
        cases hl : extractFields n ty [] with
        | error e => rw [hl] at h; cases h
        | ok l =>
          rw [hl] at h
          simp only [Except.map, Except.ok.injEq] at h
          subst h
          intro a ha
          exact List.mem_append_left _ ha
    · simp only [Except.ok.injEq] at h
      subst h
      exact ⟨fun a ha => List.mem_append_left _ ha, fun _ => by simp⟩

theorem foldlM_extractStep_mem (fuel : Nat) :
    ∀ (xs : List StructField) (acc r : List StructField),
      List.foldlM (extractStep fuel) acc xs = .ok r →
      (∀ a ∈ acc, a ∈ r) ∧
      (∀ x ∈ xs, (∀ ty, getUnderlyingType x.Type_ = .ok ty →
        ¬ (ty.Kind = .Struct ∧ x.Anonymous = true)) → x ∈ r) := by
  intro xs
  induction xs with
  | nil =>
    intro acc r h
    simp only [List.foldlM_nil, pure, Except.pure, Except.ok.injEq] at h
    subst h
    exact ⟨fun a ha => ha, fun x hx => by simp at hx⟩
  | cons y ys ih =>
    intro acc r h
    rw [foldlM_ok_cons] at h
    obtain ⟨b, hb, hr⟩ := h
    obtain ⟨h1, h2⟩ := extractStep_mem fuel acc b y hb
    obtain ⟨h3, h4⟩ := ih b r hr
    refine ⟨fun a ha => h3 a (h1 a ha), ?_⟩
    intro x hx hno
    rcases List.mem_cons.1 hx with rfl | hx
    · exact h3 _ (h2 hno)
    · exact h4 x hx hno

theorem extractFields_mem_direct (fuel : Nat) (G : GoType) (fs : List StructField)
    (f : StructField) (hG : G.Kind = .Struct) (hgg : getUnderlyingType G = .ok G)
    (hfs : extractFields fuel G [] = .ok fs) (hf : f ∈ G.fieldList)
    (hno : ∀ ty, getUnderlyingType f.Type_ = .ok ty →
      ¬ (ty.Kind = .Struct ∧ f.Anonymous = true)) : f ∈ fs := by
  rw [extractFields_eq, hgg] at hfs
  simp only [hG, ne_eq, not_true_eq_false, if_false] at hfs
  exact (foldlM_extractStep_mem fuel _ _ _ hfs).2 f hf hno

theorem loop_mem_ok (r : GoType → String → Except GenError Mapping) :
    ∀ (fs : List StructField) (init p : List (String × Mapping)) (f : StructField),
      List.foldlM (fieldStep r) init fs = .ok p → f ∈ fs →
      ∃ c, fieldMapping r f = .ok c := by
  intro fs
  induction fs with
  | nil => intro _ _ _ _ hf; simp at hf
  | cons x xs ih =>
    intro init p f h hf
    rw [foldlM_ok_cons] at h
    obtain ⟨b, hb, hr⟩ := h
    rcases List.mem_cons.1 hf with rfl | hf
    · obtain ⟨c, hc, _⟩ := (fieldStep_ok _ _ _ _).1 hb
      exact ⟨c, hc⟩
    · exact ih _ _ _ hr hf

theorem GenerateMapping_ok (fuel : Nat) (t : GoType) (root : Mapping) :
    GenerateMapping fuel t = .ok root ↔
      ∃ m, generateMappingRecur fuel t "" = .ok m ∧
        root = ⟨none, m.Properties, m.Index, m.Format, m.EagerGlobalOrdinals⟩ := by
  simp only [GenerateMapping, bind, Except.bind]
  cases generateMappingRecur fuel t "" with
  | error e => simp
  | ok m => simp [pure, Except.pure, eq_comm]

theorem applyCustomProps_some (inner : Mapping) (esType : String) (fl : List String) :
    applyCustomProps inner esType (some fl) =
      Except.bind (if "epoch_second" ∈ fl then
        if generatedESTypeOf inner ≠ "date" then .error (.invalidFormat "epoch_second" esType)
        else .ok ⟨inner.Type_, inner.Properties,
          if "indexignore" ∈ fl then some false else inner.Index,
          some "epoch_second", inner.EagerGlobalOrdinals⟩
      else if "epoch_ms" ∈ fl then
        if generatedESTypeOf inner ≠ "date" then .error (.invalidFormat "epoch_millis" esType)
        else .ok ⟨inner.Type_, inner.Properties,
          if "indexignore" ∈ fl then some false else inner.Index,
          some "epoch_millis", inner.EagerGlobalOrdinals⟩
      else .ok ⟨inner.Type_, inner.Properties,
          if "indexignore" ∈ fl then some false else inner.Index,
          inner.Format, inner.EagerGlobalOrdinals⟩ : Except GenError Mapping)
      (fun im =>
        if "eager_global_ordinals" ∈ fl then
          if generatedESTypeOf inner ≠ "keyword" ∧ generatedESTypeOf inner ≠ "text" then
            .error .eagerGlobalOrdinals
          else .ok ⟨im.Type_, im.Properties, im.Index, im.Format, some true⟩
        else .ok im) := by
  simp only [applyCustomProps, bind, pure, Except.pure, throw, throwThe,
    MonadExceptOf.throw, esDATE, esKEYWORD, esTEXT]
  generalize generatedESTypeOf inner = ty
  cases inner
  by_cases h1 : "indexignore" ∈ fl <;> by_cases h2 : "epoch_second" ∈ fl <;>
    by_cases h3 : "epoch_ms" ∈ fl <;> by_cases hd : ty = "date" <;>
    simp [h1, h2, h3, hd, Except.bind]

theorem fieldMapping_flags (r : GoType → String → Except GenError Mapping) (f : StructField)
    (flags : List String) (inner : Mapping)
    (hflags : (getESTypeAndProps f.Tag).2 = some flags)
    (hinner : r f.Type_ (getESTypeAndProps f.Tag).1 = .ok inner) :
    fieldMapping r f = applyCustomProps inner (getESTypeAndProps f.Tag).1 (some flags) := by
  rw [fieldMapping_eq, hinner, hflags]
  rfl

theorem extractStep_acc (fuel : Nat) (acc : List StructField) (x : StructField) :
    extractStep fuel acc x = (extractStep fuel [] x).map (fun l => acc ++ l) := by
  simp only [extractStep]
  cases getUnderlyingType x.Type_ with
  | error e => rfl
  | ok ty =>
    simp only
    split
    · cases fuel with
      | zero => rfl
      | succ n => exact extractFields_acc n ty acc
    · simp [Except.map]

theorem extractStep_embedded (n : Nat) (acc : List StructField) (emb : StructField)
    (E : GoType) (hanon : emb.Anonymous = true)
    (hE : getUnderlyingType emb.Type_ = .ok E) (hEk : E.Kind = .Struct) :
    extractStep (n + 1) acc emb = extractFields n E acc := by
  simp only [extractStep, hE]
  rw [if_pos ⟨hEk, hanon⟩]

theorem extractFields_of_struct (fuel : Nat) (name : String) (fields acc : List StructField) :
    extractFields fuel (.struct name fields) acc
      = List.foldlM (extractStep fuel) acc fields := by
  rw [extractFields_eq]
  simp [getUnderlyingType, GoType.Kind, GoType.fieldList]

theorem except_map_ok {ε α β : Type} (x : Except ε α) (g : α → β) (b : β)
    (h : x.map g = .ok b) : ∃ a, x = .ok a ∧ b = g a := by
  cases x with
  | error e => cases h
  | ok a =>
    simp only [Except.map, Except.ok.injEq] at h
    exact ⟨a, rfl, h.symm⟩

theorem extractFields_split (n : Nat) (name : String) (pre post : List StructField)
    (emb : StructField) (E : GoType) (fsT : List StructField)
    (hanon : emb.Anonymous = true)
    (hE : getUnderlyingType emb.Type_ = .ok E) (hEk : E.Kind = .Struct)
    (h : extractFields (n + 1) (.struct name (pre ++ emb :: post)) [] = .ok fsT) :
    ∃ fsPre fsE fsPost,
      extractFields (n + 1) (.struct name pre) [] = .ok fsPre ∧
      extractFields (n + 1) E [] = .ok fsE ∧
      extractFields (n + 1) (.struct name post) [] = .ok fsPost ∧
      fsT = fsPre ++ fsE ++ fsPost := by
  rw [extractFields_of_struct, foldlM_ok_append] at h
  obtain ⟨a, ha, h⟩ := h
  rw [foldlM_ok_cons] at h
  obtain ⟨b, hb, h⟩ := h
  rw [extractStep_embedded n a emb E hanon hE hEk, extractFields_acc] at hb
  obtain ⟨fsE, hfsE, rfl⟩ := except_map_ok _ _ _ hb
  rw [foldlM_acc (extractStep (n + 1)) (extractStep_acc (n + 1))] at h
  obtain ⟨fsPost, hfsPost, rfl⟩ := except_map_ok _ _ _ h
  refine ⟨a, fsE, fsPost, ?_, extractFields_mono _ _ _ _ hfsE, ?_, rfl⟩
  · rw [extractFields_of_struct]
    exact ha
  · rw [extractFields_of_struct]
    exact hfsPost

theorem foldlM_invariant {ε α β : Type} (P : β → Prop) (f : β → α → Except ε β)
    (hstep : ∀ a x b, P a → f a x = .ok b → P b) :
    ∀ (xs : List α) (a r : β), P a → List.foldlM f a xs = .ok r → P r := by
  intro xs
  induction xs with
  | nil =>
    intro a r ha h
    simp only [List.foldlM_nil, pure, Except.pure, Except.ok.injEq] at h
    exact h ▸ ha
  | cons x xs ih =>
    intro a r ha h
    rw [foldlM_ok_cons] at h
    obtain ⟨b, hb, hr⟩ := h
    exact ih b r (hstep a x b ha hb) hr

theorem extractFields_not_embedded : ∀ (fuel : Nat) (t : GoType) (acc r : List StructField),
    extractFields fuel t acc = .ok r →
    ∀ x ∈ r, x ∈ acc ∨ ∀ ty, getUnderlyingType x.Type_ = .ok ty →
      ¬ (ty.Kind = .Struct ∧ x.Anonymous = true) := by
  intro fuel
  induction fuel with
  | zero =>
    intro t acc r h
    rw [extractFields_eq] at h
    cases hg : getUnderlyingType t with
    | error e => rw [hg] at h; cases h
    | ok g =>
      rw [hg] at h
      simp only at h
      by_cases hk : g.Kind = .Struct
      · simp only [hk, ne_eq, not_true_eq_false, if_false] at h
        refine foldlM_invariant
          (fun l => ∀ x ∈ l, x ∈ acc ∨ ∀ ty, getUnderlyingType x.Type_ = .ok ty →
            ¬ (ty.Kind = .Struct ∧ x.Anonymous = true)) (extractStep 0) ?_ _ acc r
          (fun x hx => Or.inl hx) h
        intro a y b ha hb
        simp only [extractStep] at hb
        cases hty : getUnderlyingType y.Type_ with
        | error e => rw [hty] at hb; cases hb
        | ok ty =>
          rw [hty] at hb
          simp only at hb
          split at hb
          · cases hb
          · rename_i hc
            simp only [Except.ok.injEq] at hb
            subst hb
            intro x hx
            rcases List.mem_append.1 hx with hx | hx
            · exact ha x hx
            · rw [List.mem_singleton.1 hx]
              exact Or.inr (fun ty2 h2 => by rw [hty] at h2; cases h2; exact hc)
      · simp only [ne_eq, hk, not_false_eq_true, if_true, Except.ok.injEq] at h
        subst h
        exact fun x hx => Or.inl hx
  | succ n ih =>
    intro t acc r h
    rw [extractFields_eq] at h
    cases hg : getUnderlyingType t with
    | error e => rw [hg] at h; cases h
    | ok g =>
      rw [hg] at h
      simp only at h
      by_cases hk : g.Kind = .Struct
      · simp only [hk, ne_eq, not_true_eq_false, if_false] at h
        refine foldlM_invariant
          (fun l => ∀ x ∈ l, x ∈ acc ∨ ∀ ty, getUnderlyingType x.Type_ = .ok ty →
            ¬ (ty.Kind = .Struct ∧ x.Anonymous = true)) (extractStep (n + 1)) ?_ _ acc r
          (fun x hx => Or.inl hx) h
        intro a y b ha hb
        simp only [extractStep] at hb
        cases hty : getUnderlyingType y.Type_ with
        | error e => rw [hty] at hb; cases hb
        | ok ty =>
          rw [hty] at hb
          simp only at hb
          split at hb
          · intro x hx
            rcases ih ty a b hb x hx with hxa | hxn
            · exact ha x hxa
            · exact Or.inr hxn
          · rename_i hc
            simp only [Except.ok.injEq] at hb
            subst hb
            intro x hx
            rcases List.mem_append.1 hx with hx | hx
            · exact ha x hx
            · rw [List.mem_singleton.1 hx]
              exact Or.inr (fun ty2 h2 => by rw [hty] at h2; cases h2; exact hc)
      · simp only [ne_eq, hk, not_false_eq_true, if_true, Except.ok.injEq] at h
        subst h
        exact fun x hx => Or.inl hx

theorem depth_underlying : ∀ (t g : GoType), getUnderlyingType t = .ok g → g.depth = t.depth
  | .array _ e, g, h => by
    rw [GoType.depth]; exact depth_underlying e g (by simpa [getUnderlyingType] using h)
  | .slice e, g, h => by
    rw [GoType.depth]; exact depth_underlying e g (by simpa [getUnderlyingType] using h)
  | .ptr e, g, h => by
    rw [GoType.depth]; exact depth_underlying e g (by simpa [getUnderlyingType] using h)
  | .struct n fs, g, h => by
    simp [getUnderlyingType] at h
    rw [← h]
  | .basic k, g, h => by
    cases k <;> simp [getUnderlyingType] at h <;> rw [← h]

theorem depth_of_mem (fs : List StructField) (f : StructField) (hf : f ∈ fs) :
    f.Type_.depth ≤ depthFields fs := by
  induction fs with
  | nil => simp at hf
  | cons x xs ih =>
    obtain ⟨nm, ty, tg, an⟩ := x
    rw [depthFields]
    rcases List.mem_cons.1 hf with rfl | hf
    · exact le_max_left _ _
    · exact le_trans (ih hf) (le_max_right _ _)

theorem depth_field_lt (g : GoType) (f : StructField) (hf : f ∈ g.fieldList) :
    f.Type_.depth < g.depth := by
  cases g with
  | struct nm fs =>
    rw [GoType.depth]
    exact Nat.lt_succ_of_le (depth_of_mem fs f hf)
  | basic k => simp [GoType.fieldList] at hf
  | array l e => simp [GoType.fieldList] at hf
  | slice e => simp [GoType.fieldList] at hf
  | ptr e => simp [GoType.fieldList] at hf

theorem foldlM_ne_error {ε α β : Type} (f : β → α → Except ε β) (e0 : ε) :
    ∀ (xs : List α) (a : β), (∀ b, ∀ x ∈ xs, f b x ≠ .error e0) →
      List.foldlM f a xs ≠ .error e0 := by
  intro xs
  induction xs with
  | nil => intro a _ h; simp [pure, Except.pure] at h
  | cons x xs ih =>
    intro a hne h
    simp only [List.foldlM_cons, bind, Except.bind] at h
    cases hx : f a x with
    | error e =>
      rw [hx] at h
      simp only [Except.error.injEq] at h
      exact hne a x (List.mem_cons_self _ _) (by rw [hx, h])
    | ok b =>
      rw [hx] at h
      exact ih b (fun b2 y hy => hne b2 y (List.mem_cons_of_mem _ hy)) h

theorem getUnderlyingType_error : ∀ (t : GoType) (e : GenError),
    getUnderlyingType t = .error e → e = .reflectElem
  | .array _ el, e, h => getUnderlyingType_error el e (by simpa [getUnderlyingType] using h)
  | .slice el, e, h => getUnderlyingType_error el e (by simpa [getUnderlyingType] using h)
  | .ptr el, e, h => getUnderlyingType_error el e (by simpa [getUnderlyingType] using h)
  | .struct n fs, e, h => by simp [getUnderlyingType] at h
  | .basic k, e, h => by
    cases k <;> simp [getUnderlyingType] at h
    exact h.symm

theorem foldlM_invariant_mem {ε α β : Type} (P : β → Prop) (f : β → α → Except ε β) :
    ∀ (xs : List α) (a r : β), (∀ a x b, x ∈ xs → P a → f a x = .ok b → P b) →
      P a → List.foldlM f a xs = .ok r → P r := by
  intro xs
  induction xs with
  | nil =>
    intro a r _ ha h
    simp only [List.foldlM_nil, pure, Except.pure, Except.ok.injEq] at h
    exact h ▸ ha
  | cons x xs ih =>
    intro a r hstep ha h
    rw [foldlM_ok_cons] at h
    obtain ⟨b, hb, hr⟩ := h
    exact ih b r (fun a2 y b2 hy => hstep a2 y b2 (List.mem_cons_of_mem _ hy))
      (hstep a x b (List.mem_cons_self _ _) ha hb) hr

theorem struct_depth_pos (g : GoType) (hk : g.Kind = .Struct) : 0 < g.depth := by
  cases g with
  | struct nm fs => rw [GoType.depth]; exact Nat.succ_pos _
  | basic k => cases k <;> simp [GoType.Kind, BasicKind.toKind] at hk
  | array l e => simp [GoType.Kind] at hk
  | slice e => simp [GoType.Kind] at hk
  | ptr e => simp [GoType.Kind] at hk

theorem extractStep_enough_fuel (fuel : Nat) (g : GoType)
    (ih : ∀ n, fuel = n + 1 → ∀ (t : GoType) (acc : List StructField),
      t.depth ≤ n → extractFields n t acc ≠ .error .outOfFuel)
    (hd : g.depth ≤ fuel) (a : List StructField) (x : StructField) (hx : x ∈ g.fieldList) :
    extractStep fuel a x ≠ .error .outOfFuel := by
  intro h
  simp only [extractStep] at h
  cases hty : getUnderlyingType x.Type_ with
  | error e =>
    rw [hty] at h
    simp only [Except.error.injEq] at h
    rw [getUnderlyingType_error _ _ hty] at h
    cases h
  | ok ty =>
    rw [hty] at h
    simp only at h
    split at h
    · have hlt : ty.depth < g.depth := by
        rw [depth_underlying _ _ hty]
        exact depth_field_lt g x hx
      cases fuel with
      | zero => omega
      | succ n => exact ih n rfl ty a (by omega) h
    · cases h

theorem extractFields_enough_fuel : ∀ (fuel : Nat) (t : GoType) (acc : List StructField),
    t.depth ≤ fuel → extractFields fuel t acc ≠ .error .outOfFuel := by
  intro fuel
  induction fuel with
  | zero =>
    intro t acc hd h
    rw [extractFields_eq] at h
    cases hg : getUnderlyingType t with
    | error e =>
      rw [hg] at h
      simp only [Except.error.injEq] at h
      rw [getUnderlyingType_error _ _ hg] at h
      cases h
    | ok g =>
      rw [hg] at h
      simp only at h
      by_cases hk : g.Kind = .Struct
      · have := struct_depth_pos g hk
        rw [depth_underlying _ _ hg] at this
        omega
      · simp [hk] at h
  | succ n ih =>
    intro t acc hd h
    rw [extractFields_eq] at h
    cases hg : getUnderlyingType t with
    | error e =>
      rw [hg] at h
      simp only [Except.error.injEq] at h
      rw [getUnderlyingType_error _ _ hg] at h
      cases h
    | ok g =>
      rw [hg] at h
      simp only at h
      by_cases hk : g.Kind = .Struct
      · simp only [hk, ne_eq, not_true_eq_false, if_false] at h
        refine foldlM_ne_error (extractStep (n + 1)) _ _ acc ?_ h
        intro b x hx
        refine extractStep_enough_fuel (n + 1) g ?_ ?_ b x hx
        · intro m hm
          cases hm
          exact ih
        · rw [depth_underlying _ _ hg]
          exact hd
      · simp [hk] at h

theorem extractFields_depth : ∀ (fuel : Nat) (t : GoType) (acc r : List StructField),
    extractFields fuel t acc = .ok r →
    ∀ x ∈ r, x ∈ acc ∨ x.Type_.depth < t.depth := by
  intro fuel
  induction fuel using Nat.strong_induction_on with
  | _ fuel ih =>
    intro t acc r h
    rw [extractFields_eq] at h
    cases hg : getUnderlyingType t with
    | error e => rw [hg] at h; cases h
    | ok g =>
      rw [hg] at h
      simp only at h
      by_cases hk : g.Kind = .Struct
      · simp only [hk, ne_eq, not_true_eq_false, if_false] at h
        refine foldlM_invariant_mem
          (fun l => ∀ x ∈ l, x ∈ acc ∨ x.Type_.depth < t.depth) (extractStep fuel)
          g.fieldList acc r ?_ (fun x hx => Or.inl hx) h
        intro a y b hy ha hb
        have hylt : y.Type_.depth < t.depth := by
          rw [← depth_underlying _ _ hg]
          exact depth_field_lt g y hy
        simp only [extractStep] at hb
        cases hty : getUnderlyingType y.Type_ with
        | error e => rw [hty] at hb; cases hb
        | ok ty =>
          rw [hty] at hb
          simp only at hb
          split at hb
          · cases fuel with
            | zero => cases hb
            | succ n =>
              intro x hx
              rcases ih n (Nat.lt_succ_self n) ty a b hb x hx with hxa | hxn
              · exact ha x hxa
              · rw [depth_underlying _ _ hty] at hxn
                exact Or.inr (lt_trans hxn hylt)
          · simp only [Except.ok.injEq] at hb
            subst hb
            intro x hx
            rcases List.mem_append.1 hx with hx | hx
            · exact ha x hx
            · rw [List.mem_singleton.1 hx]
              exact Or.inr hylt
      · simp only [ne_eq, hk, not_false_eq_true, if_true, Except.ok.injEq] at h
        subst h
        exact fun x hx => Or.inl hx

theorem applyCustomProps_ne_outOfFuel (inner : Mapping) (esType : String)
    (cp : Option (List String)) : applyCustomProps inner esType cp ≠ .error .outOfFuel := by
  cases cp with
  | none => simp [applyCustomProps, pure, Except.pure]
  | some fl =>
    rw [applyCustomProps_some]
    by_cases h2 : "epoch_second" ∈ fl <;> by_cases h3 : "epoch_ms" ∈ fl <;>
      by_cases hd : generatedESTypeOf inner = "date" <;>
      by_cases he : "eager_global_ordinals" ∈ fl <;>
      by_cases hb : generatedESTypeOf inner ≠ "keyword" ∧ generatedESTypeOf inner ≠ "text" <;>
      simp [h2, h3, hd, he, hb, Except.bind]

theorem generateMappingRecur_enough_fuel : ∀ (fuel : Nat) (t : GoType) (c : String),
    t.depth ≤ fuel → generateMappingRecur fuel t c ≠ .error .outOfFuel := by
  intro fuel
  induction fuel with
  | zero =>
    intro t c hd h
    cases hg : getUnderlyingType t with
    | error e =>
      rw [generateMappingRecur] at h
      simp only [hg, bind, Except.bind, Except.error.injEq] at h
      rw [getUnderlyingType_error _ _ hg] at h
      cases h
    | ok g =>
      by_cases hk : g.Kind = .Struct
      · have := struct_depth_pos g hk
        rw [depth_underlying _ _ hg] at this
        omega
      · rw [generateMappingRecur_prim _ t g c hg hk] at h
        split at h
        · split at h <;> cases h
        · cases h
  | succ n ih =>
    intro t c hd h
    cases hg : getUnderlyingType t with
    | error e =>
      rw [generateMappingRecur] at h
      simp only [hg, bind, Except.bind, Except.error.injEq] at h
      rw [getUnderlyingType_error _ _ hg] at h
      cases h
    | ok g =>
      by_cases hk : g.Kind = .Struct
      · rw [generateMappingRecur_struct n t g c hg hk] at h
        have hgd : g.depth ≤ n + 1 := by rw [depth_underlying _ _ hg]; exact hd
        cases hfs : extractFields (n + 1) g [] with
        | error e =>
          rw [hfs] at h
          simp only [Except.error.injEq] at h
          subst h
          exact extractFields_enough_fuel (n + 1) g [] hgd hfs
        | ok fs =>
          rw [hfs] at h
          simp only at h
          cases hp : List.foldlM (fieldStep (generateMappingRecur n)) [] fs with
          | ok props => rw [hp] at h; cases h
          | error e =>
            rw [hp] at h
            simp only [Except.error.injEq] at h
            subst h
            refine foldlM_ne_error (fieldStep (generateMappingRecur n)) _ fs [] ?_ hp
            intro b x hx hstep
            have hxd : x.Type_.depth ≤ n := by
              rcases extractFields_depth _ _ _ _ hfs x hx with h0 | hlt
              · simp at h0
              · omega
            simp only [fieldStep, bind, Except.bind] at hstep
            cases hfm : fieldMapping (generateMappingRecur n) x with
            | ok ch => rw [hfm] at hstep; cases hstep
            | error e2 =>
              rw [hfm] at hstep
              simp only [Except.error.injEq] at hstep
              subst hstep
              rw [fieldMapping_eq] at hfm
              cases hin : generateMappingRecur n x.Type_ (getESTypeAndProps x.Tag).1 with
              | error e3 =>
                rw [hin] at hfm
                simp only [Except.bind, Except.error.injEq] at hfm
                subst hfm
                exact ih _ _ hxd hin
              | ok inner =>
                rw [hin] at hfm
                exact applyCustomProps_ne_outOfFuel _ _ _ hfm
      · rw [generateMappingRecur_prim _ t g c hg hk] at h
        split at h
        · split at h <;> cases h
        · cases h

theorem generateMappingRecur_stable (fuel : Nat) (t : GoType) (c : String)
    (h : t.depth ≤ fuel) :
    generateMappingRecur fuel t c = generateMappingRecur t.depth t c := by
  induction h with
  | refl => rfl
  | step hle ih =>
    rw [generateMappingRecur_stable_succ _ _ _
      (generateMappingRecur_enough_fuel _ _ _ hle), ih]

theorem extractFields_stable_le (fuel : Nat) (t : GoType) (acc : List StructField)
    (h : t.depth ≤ fuel) :
    extractFields fuel t acc = extractFields t.depth t acc := by
  induction h with
  | refl => rfl
  | step hle ih =>
    rw [extractFields_stable _ _ _ (extractFields_enough_fuel _ _ _ hle), ih]

/-! ## The tests of mapping_test.go -/

theorem TestMappingGen_passes : GenerateMapping 2 MyStruct = .ok TestMappingGen_expectedDTO :=
  rfl

theorem TestCustomESProps_passes :
    GenerateMapping 1 Dog = .ok TestCustomESProps_expectedDTO :=
  rfl

/-! ## The claims -/

/-- C1: with the empty override, a type whose unwrapped kind is one of the nine kinds of the
default table is mapped to a leaf whose Type is the table entry of that kind (plain int
to integer) and whose Properties, Index, Format and EagerGlobalOrdinals are unset, for
every fuel. -/
theorem C1_default_type_leaf (fuel : Nat) (t g : GoType)
    (h : getUnderlyingType t = .ok g) :
    (g.Kind = .Bool →
      generateMappingRecur fuel t "" = .ok ⟨some "boolean", none, none, none, none⟩) ∧
    (g.Kind = .Int8 →
      generateMappingRecur fuel t "" = .ok ⟨some "byte", none, none, none, none⟩) ∧
    (g.Kind = .Int16 →
      generateMappingRecur fuel t "" = .ok ⟨some "short", none, none, none, none⟩) ∧
    (g.Kind = .Int32 →
      generateMappingRecur fuel t "" = .ok ⟨some "integer", none, none, none, none⟩) ∧
    (g.Kind = .Int64 →
      generateMappingRecur fuel t "" = .ok ⟨some "long", none, none, none, none⟩) ∧
    (g.Kind = .Float32 →
      generateMappingRecur fuel t "" = .ok ⟨some "float", none, none, none, none⟩) ∧
    (g.Kind = .Float64 →
      generateMappingRecur fuel t "" = .ok ⟨some "double", none, none, none, none⟩) ∧
    (g.Kind = .String →
      generateMappingRecur fuel t "" = .ok ⟨some "keyword", none, none, none, none⟩) ∧
    (g.Kind = .Int →
      generateMappingRecur fuel t "" = .ok ⟨some "integer", none, none, none, none⟩) := by
  refine ⟨?_, ?_, ?_, ?_, ?_, ?_, ?_, ?_, ?_⟩ <;> intro hk <;>
    rw [generateMappingRecur_prim fuel t g "" h (by rw [hk]; decide), hk] <;> rfl

theorem C1_default_type_leaf_witness :
    getUnderlyingType (.ptr (.slice (.basic .Int))) = .ok (.basic .Int) ∧
    generateMappingRecur 0 (.ptr (.slice (.basic .Int))) ""
      = .ok ⟨some "integer", none, none, none, none⟩ :=
  ⟨rfl, (C1_default_type_leaf 0 (.ptr (.slice (.basic .Int))) (.basic .Int) rfl).2.2.2.2.2.2.2.2 rfl⟩

/-- C2 (the code at the failing input): the overrides byte and short, which the default table
itself produces for int8 and int16, are rejected as invalid Elasticsearch types. -/
theorem C2_byte_short_override_rejected :
    generateMappingRecur 0 (.basic .Int8) "byte" = .error (.invalidESType "byte") ∧
    generateMappingRecur 0 (.basic .Int16) "short" = .error (.invalidESType "short") ∧
    generateMappingRecur 0 (.basic .Int8) "" = .ok ⟨some "byte", none, none, none, none⟩ ∧
    GenerateMapping 1 (.struct "T" [.mk "B" (.basic .Int8) [("es", "byte")] false])
      = .error (.invalidESType "byte") := by
  refine ⟨rfl, rfl, rfl, rfl⟩

/-- C3: on a type that is primitive after unwrapping, a non-empty override outside the
vocabulary boolean, byte, short, integer, long, float, double, keyword, text, date, ip makes
the generation abort with the invalid-type error, for every fuel; the mapping of a field with
such a type and override is that error, and the generation of a struct type that has the
field among its extracted fields returns an error and no Mapping. -/
theorem C3_invalid_override_aborts (fuel : Nat) (t g : GoType) (c : String)
    (h : getUnderlyingType t = .ok g) (hk : g.Kind ≠ .Struct) (hne : c ≠ "")
    (hc : c ∉ ["boolean", "byte", "short", "integer", "long", "float", "double", "keyword",
      "text", "date", "ip"]) :
    generateMappingRecur fuel t c = .error (.invalidESType c) ∧
    ∀ f : StructField, f.Type_ = t → (getESTypeAndProps f.Tag).1 = c →
      fieldMapping (generateMappingRecur fuel) f = .error (.invalidESType c) ∧
      ∀ (T G : GoType) (fs : List StructField) (c2 : String),
        getUnderlyingType T = .ok G → G.Kind = .Struct →
        extractFields (fuel + 1) G [] = .ok fs → f ∈ fs →
        ∃ e, generateMappingRecur (fuel + 1) T c2 = .error e := by
  have h1 : generateMappingRecur fuel t c = .error (.invalidESType c) := by
    rw [generateMappingRecur_prim fuel t g c h hk, if_pos (length_pos_of_ne_empty c hne)]
    have hnp : ¬ isPrimitiveESType c = true := by
      rw [isPrimitiveESType_iff]
      intro hmem
      apply hc
      simp only [List.mem_cons, List.mem_singleton, List.not_mem_nil, or_false] at hmem ⊢
      tauto
    rw [if_neg hnp]
  refine ⟨h1, ?_⟩
  intro f hft hfc
  have h2 : fieldMapping (generateMappingRecur fuel) f = .error (.invalidESType c) := by
    rw [fieldMapping_eq, hft, hfc, h1]
    rfl
  refine ⟨h2, ?_⟩
  intro T G fs c2 hT hG hfs hf
  exact generateMappingRecur_error_of_field fuel T G c2 fs f _ hT hG hfs hf h2

theorem C3_invalid_override_aborts_witness :
    generateMappingRecur 0 (.basic .String) "geo_point" = .error (.invalidESType "geo_point") ∧
    ∃ e, generateMappingRecur 1
      (.struct "T" [.mk "Loc" (.basic .String) [("es", "geo_point")] false]) "" = .error e :=
  have hw := C3_invalid_override_aborts 0 (.basic .String) (.basic .String) "geo_point" rfl
    (by decide) (by decide) (by decide)
  ⟨hw.1, (hw.2 (.mk "Loc" (.basic .String) [("es", "geo_point")] false) rfl rfl).2
    (.struct "T" [.mk "Loc" (.basic .String) [("es", "geo_point")] false])
    (.struct "T" [.mk "Loc" (.basic .String) [("es", "geo_point")] false])
    [.mk "Loc" (.basic .String) [("es", "geo_point")] false] "" rfl rfl rfl
    (List.mem_singleton.2 rfl)⟩

/-- C4 (counterexample): for the type uint, whose kind has no entry in the default table, and
the empty override, the generation does not fail: it returns a leaf whose Type is the empty
string, also as a field of a struct. -/
theorem C4_unsupported_kind_not_rejected :
    generateMappingRecur 0 (.basic .Uint) "" = .ok ⟨some "", none, none, none, none⟩ ∧
    GenerateMapping 1 (.struct "T" [.mk "U" (.basic .Uint) [] false])
      = .ok ⟨none, some [("U", ⟨some "", none, none, none, none⟩)], none, none, none⟩ :=
  ⟨rfl, rfl⟩

/-- C4 (amended): for a type that is primitive after unwrapping and whose unwrapped kind has
no entry in the default table, and the empty override, the generation succeeds for every fuel
and returns a leaf whose Type is the empty string and whose other members are unset. -/
theorem C4_unsupported_kind_empty_type (fuel : Nat) (t g : GoType)
    (h : getUnderlyingType t = .ok g) (hk : g.Kind ≠ .Struct)
    (hno : defaultElasticTypeMap g.Kind = none) :
    generateMappingRecur fuel t "" = .ok ⟨some "", none, none, none, none⟩ := by
  rw [generateMappingRecur_prim fuel t g "" h hk, hno]
  rfl

theorem C4_unsupported_kind_empty_type_witness :
    generateMappingRecur 3 (.slice (.basic .Complex128)) ""
      = .ok ⟨some "", none, none, none, none⟩ :=
  C4_unsupported_kind_empty_type 3 (.slice (.basic .Complex128)) (.basic .Complex128) rfl
    (by decide) rfl

/-- C5: in the mapping generated for a composite type, every extracted field has a property
under its external name in the words of the specification (the first comma-delimited token
of its json annotation when that token is not empty, its declared name otherwise), every key
of the Properties is such a name, and the property under the name of a field that no later
extracted field shares is the mapping generated for that field. -/
theorem C5_property_key (n : Nat) (t g : GoType) (c : String) (fs : List StructField)
    (m : Mapping) (hg : getUnderlyingType t = .ok g) (hk : g.Kind = .Struct)
    (hfs : extractFields (n + 1) g [] = .ok fs)
    (hm : generateMappingRecur (n + 1) t c = .ok m) :
    ∃ props, m.Properties = some props ∧
      (∀ f ∈ fs, (mapLookup props (externalNameSpec f)).isSome = true) ∧
      (∀ k, (mapLookup props k).isSome = true → ∃ f ∈ fs, k = externalNameSpec f) ∧
      (∀ pre f post, fs = pre ++ f :: post →
        (∀ f2 ∈ post, externalNameSpec f2 ≠ externalNameSpec f) →
        ∃ child, fieldMapping (generateMappingRecur n) f = .ok child ∧
          mapLookup props (externalNameSpec f) = some child) := by
  obtain ⟨fs2, props, hfs2, hp, rfl⟩ := generateMappingRecur_struct_ok n t g c m hg hk hm
  rw [hfs] at hfs2
  cases hfs2
  refine ⟨props, rfl, ?_, ?_, ?_⟩
  · intro f hf
    rw [loop_keys _ _ _ _ _ hp]
    exact Or.inr ⟨f, hf, memberName_eq_externalNameSpec f⟩
  · intro k hk2
    rw [loop_keys _ _ _ _ _ hp] at hk2
    rcases hk2 with h0 | ⟨f, hf, hfk⟩
    · simp [mapLookup] at h0
    · exact ⟨f, hf, by rw [← hfk, memberName_eq_externalNameSpec]⟩
  · intro pre f post hdec hpost
    subst hdec
    have := loop_last _ pre post f [] props hp
      (fun f2 hf2 => by
        rw [memberName_eq_externalNameSpec, memberName_eq_externalNameSpec]
        exact hpost f2 hf2)
    rw [memberName_eq_externalNameSpec] at this
    exact this

theorem C5_property_key_witness :
    extractFields 2 MyStruct [] = .ok MyStruct.fieldList ∧
    generateMappingRecur 2 MyStruct ""
      = .ok ⟨some "nested", TestMappingGen_expectedDTO.Properties, none, none, none⟩ ∧
    externalNameSpec (.mk "Foo" (.basic .Int) [("json", "foo,omitempty")] false) = "foo" ∧
    externalNameSpec (.mk "Note" (.basic .String) [("json", ",omitempty")] false) = "Note" ∧
    ∃ props child, TestMappingGen_expectedDTO.Properties = some props ∧
      fieldMapping (generateMappingRecur 1)
        (.mk "Foo" (.basic .Int) [("json", "foo,omitempty")] false) = .ok child ∧
      mapLookup props "foo" = some child := by
  refine ⟨rfl, rfl, rfl, rfl, ?_⟩
  obtain ⟨props, hprops, _, _, hlast⟩ :=
    C5_property_key 1 MyStruct MyStruct "" MyStruct.fieldList
      ⟨some "nested", TestMappingGen_expectedDTO.Properties, none, none, none⟩ rfl rfl rfl rfl
  obtain ⟨child, hchild, hlook⟩ := hlast []
    (.mk "Foo" (.basic .Int) [("json", "foo,omitempty")] false)
    [.mk "Inner" MyInnerStruct [("json", "inner")] false] rfl
    (by intro f2 hf2; rw [List.mem_singleton.1 hf2]; decide)
  exact ⟨props, child, hprops, hchild, hlook⟩

/-- C6: for a type T whose unwrapped type is a struct with an embedded field whose unwrapped
type is a struct E, a successful GenerateMapping of T extracts the fields before the embedded
field, then the extracted fields of E, then the fields after it; the embedded field is not
among them, and no property is stored under its name unless an extracted field bears that
name; GenerateMapping of E succeeds too, every extracted field of E has a property in the
root of T under its external name, and this property is the one it has in GenerateMapping of
E when no extracted field from outside the embedded struct has the same external name. -/
theorem C6_embedded_fields_flattened (n : Nat) (T E : GoType) (name : String)
    (pre post : List StructField) (emb : StructField) (root : Mapping)
    (hT : getUnderlyingType T = .ok (.struct name (pre ++ emb :: post)))
    (hanon : emb.Anonymous = true)
    (hE : getUnderlyingType emb.Type_ = .ok E) (hEk : E.Kind = .Struct)
    (hroot : GenerateMapping (n + 1) T = .ok root) :
    ∃ fsPre fsE fsPost propsT rootE propsE,
      extractFields (n + 1) (.struct name pre) [] = .ok fsPre ∧
      extractFields (n + 1) E [] = .ok fsE ∧
      extractFields (n + 1) (.struct name post) [] = .ok fsPost ∧
      extractFields (n + 1) T [] = .ok (fsPre ++ fsE ++ fsPost) ∧
      root.Properties = some propsT ∧
      GenerateMapping (n + 1) E = .ok rootE ∧ rootE.Properties = some propsE ∧
      emb ∉ fsPre ++ fsE ++ fsPost ∧
      ((∀ f ∈ fsPre ++ fsE ++ fsPost, memberName f ≠ memberName emb) →
        mapLookup propsT (memberName emb) = none) ∧
      ∀ f ∈ fsE, (mapLookup propsT (memberName f)).isSome = true ∧
        ((∀ f2 ∈ fsPre ++ fsPost, memberName f2 ≠ memberName f) →
          mapLookup propsT (memberName f) = mapLookup propsE (memberName f)) := by
  obtain ⟨m, hm, rfl⟩ := (GenerateMapping_ok _ _ _).1 hroot
  obtain ⟨fsT, props, hfsT, hp, rfl⟩ :=
    generateMappingRecur_struct_ok n T _ "" m hT rfl hm
  obtain ⟨fsPre, fsE, fsPost, hpre, hfsE, hpost, rfl⟩ :=
    extractFields_split n name pre post emb E fsT hanon hE hEk hfsT
  have hp0 := hp
  rw [foldlM_ok_append] at hp
  obtain ⟨p2, hp2, hp3⟩ := hp
  rw [foldlM_ok_append] at hp2
  obtain ⟨p1, hp1, hp2⟩ := hp2
  obtain ⟨propsE, hpE⟩ := loop_init_irrelevant _ fsE p1 [] p2 hp2
  have hEE := getUnderlyingType_idem _ E hE
  have hgenE : generateMappingRecur (n + 1) E ""
      = .ok ⟨some "nested", some propsE, none, none, none⟩ := by
    rw [generateMappingRecur_struct n E E "" hEE hEk, hfsE]
    simp only [hpE]
  have hTfs : extractFields (n + 1) T [] = .ok (fsPre ++ fsE ++ fsPost) := by
    rw [extractFields_eq, hT]
    rw [extractFields_eq, getUnderlyingType_idem _ _ hT] at hfsT
    exact hfsT
  refine ⟨fsPre, fsE, fsPost, props, ⟨none, some propsE, none, none, none⟩, propsE,
    hpre, hfsE, hpost, hTfs, rfl, (GenerateMapping_ok _ _ _).2 ⟨_, hgenE, rfl⟩, rfl, ?_, ?_, ?_⟩
  · intro hmem
    rcases extractFields_not_embedded _ _ _ _ hfsT emb hmem with h0 | hno
    · simp at h0
    · exact hno E hE ⟨hEk, hanon⟩
  · intro hnone
    rw [loop_lookup_notin _ _ _ _ _ hp0 hnone]
    rfl
  · intro f hf
    refine ⟨?_, ?_⟩
    · rw [loop_keys _ _ _ _ _ hp0]
      exact Or.inr ⟨f, List.mem_append_left _ (List.mem_append_right _ hf), rfl⟩
    · intro hsib
      rw [loop_lookup_notin _ _ fsPost _ _ hp3
        (fun f2 hf2 => hsib f2 (List.mem_append_right _ hf2))]
      exact loop_lookup_in _ _ fsE p1 [] p2 propsE hp2 hpE ⟨f, hf, rfl⟩

theorem C6_embedded_fields_flattened_witness :
    GenerateMapping 1 OuterStruct
      = .ok ⟨none, some [("id", ⟨some "long", none, none, none, none⟩),
          ("bar", ⟨some "text", none, none, none, none⟩),
          ("Note", ⟨some "keyword", none, none, none, none⟩)], none, none, none⟩ ∧
    ∃ propsT rootE propsE,
      GenerateMapping 1 MyInnerStruct = .ok rootE ∧ rootE.Properties = some propsE ∧
      mapLookup propsT "id" = some ⟨some "long", none, none, none, none⟩ ∧
      mapLookup propsT "MyInnerStruct" = none ∧
      (mapLookup propsT "bar").isSome = true ∧
      mapLookup propsT "bar" = mapLookup propsE "bar" := by
  refine ⟨rfl, ?_⟩
  obtain ⟨fsPre, fsE, fsPost, propsT, rootE, propsE, hpre, hfsE, hpost, _, hprops, hE, hpE,
      _, hemb, hflat⟩ :=
    C6_embedded_fields_flattened 0 OuterStruct MyInnerStruct "OuterStruct"
      [.mk "ID" (.basic .Int64) [("json", "id")] false]
      [.mk "Note" (.basic .String) [] false]
      (.mk "MyInnerStruct" (.ptr MyInnerStruct) [] true)
      ⟨none, some [("id", ⟨some "long", none, none, none, none⟩),
          ("bar", ⟨some "text", none, none, none, none⟩),
          ("Note", ⟨some "keyword", none, none, none, none⟩)], none, none, none⟩
      rfl rfl rfl rfl rfl
  have e1 : [StructField.mk "ID" (.basic .Int64) [("json", "id")] false] = fsPre :=
    Except.ok.inj hpre
  have e2 : MyInnerStruct.fieldList = fsE := Except.ok.inj hfsE
  have e3 : [StructField.mk "Note" (.basic .String) [] false] = fsPost := Except.ok.inj hpost
  subst e1 e2 e3
  have hp : some [("id", (⟨some "long", none, none, none, none⟩ : Mapping)),
          ("bar", ⟨some "text", none, none, none, none⟩),
          ("Note", ⟨some "keyword", none, none, none, none⟩)] = some propsT := hprops
  cases hp
  have hbar := hflat (.mk "Bar" (.basic .String) [("json", "bar"), ("es", "text")] false)
    (List.mem_singleton.2 rfl)
  refine ⟨[("id", ⟨some "long", none, none, none, none⟩),
      ("bar", ⟨some "text", none, none, none, none⟩),
      ("Note", ⟨some "keyword", none, none, none, none⟩)], rootE, propsE, hE, hpE, rfl,
    hemb ?_, hbar.1, hbar.2 ?_⟩
  · intro f2 hf2
    simp only [List.singleton_append, List.mem_cons, List.mem_singleton, List.not_mem_nil,
      or_false, MyInnerStruct, GoType.fieldList, List.cons_append, List.nil_append] at hf2
    rcases hf2 with rfl | rfl | rfl <;> decide
  · intro f2 hf2
    simp only [List.singleton_append, List.mem_cons, List.mem_singleton, List.not_mem_nil,
      or_false] at hf2
    rcases hf2 with rfl | rfl <;> decide

/-- C7 (counterexample): in SameNameStruct the field Inner, of struct type MyInnerStruct and
without flags, and the later field Foo, of type int, have the external name x; the property
under x in the generated root is the integer leaf of Foo, not a nested node. -/
theorem C7_later_field_overwrites :
    memberName (.mk "Inner" MyInnerStruct [("json", "x")] false) = "x" ∧
    GenerateMapping 2 SameNameStruct
      = .ok ⟨none, some [("x", ⟨some "integer", none, none, none, none⟩)], none, none, none⟩ ∧
    GenerateMapping 1 MyInnerStruct
      = .ok ⟨none, some [("bar", ⟨some "text", none, none, none, none⟩)], none, none, none⟩ :=
  ⟨rfl, rfl, rfl⟩

/-- C7 (amended): for a struct type T with a declared field that is not embedded, whose
unwrapped type is a struct S and whose es annotation carries no flags, a successful
GenerateMapping of T extracts the field, GenerateMapping of S succeeds with one result for
every fuel on which it succeeds, and, when no later extracted field of T has the same
external name, the property under the external name of the field is a node with Type nested,
the Properties of GenerateMapping of S, and nothing else set. -/
theorem C7_nested_struct_field (n : Nat) (T G S : GoType) (f : StructField)
    (fs : List StructField) (root : Mapping)
    (hT : getUnderlyingType T = .ok G) (hG : G.Kind = .Struct)
    (hf : f ∈ G.fieldList) (hna : f.Anonymous = false)
    (hS : getUnderlyingType f.Type_ = .ok S) (hSk : S.Kind = .Struct)
    (hflags : (getESTypeAndProps f.Tag).2 = none)
    (hfs : extractFields (n + 1) G [] = .ok fs)
    (hroot : GenerateMapping (n + 1) T = .ok root) :
    f ∈ fs ∧ ∃ props rootS,
      root.Properties = some props ∧ GenerateMapping n S = .ok rootS ∧
      (∀ fuelS r, GenerateMapping fuelS S = .ok r → r = rootS) ∧
      ∀ pre post, fs = pre ++ f :: post → (∀ f2 ∈ post, memberName f2 ≠ memberName f) →
        mapLookup props (memberName f)
          = some ⟨some "nested", rootS.Properties, none, none, none⟩ := by
  have hmem : f ∈ fs := extractFields_mem_direct (n + 1) G fs f hG
    (getUnderlyingType_idem T G hT) hfs hf (fun ty _ hc => by simp [hna] at hc)
  refine ⟨hmem, ?_⟩
  obtain ⟨m, hm, rfl⟩ := (GenerateMapping_ok _ _ _).1 hroot
  obtain ⟨fs2, props, hfs2, hp, rfl⟩ := generateMappingRecur_struct_ok n T G "" m hT hG hm
  rw [hfs] at hfs2
  cases hfs2
  obtain ⟨child, hchild⟩ := loop_mem_ok _ fs [] props f hp hmem
  have hchild2 := hchild
  rw [fieldMapping_eq, hflags] at hchild2
  cases hinner : generateMappingRecur n f.Type_ (getESTypeAndProps f.Tag).1 with
  | error e => rw [hinner] at hchild2; cases hchild2
  | ok inner =>
    rw [hinner] at hchild2
    simp only [Except.bind, applyCustomProps, pure, Except.pure, Except.ok.injEq] at hchild2
    subst hchild2
    rw [generateMappingRecur_struct_congr n f.Type_ S _ "" hS hSk] at hinner
    have hSS := getUnderlyingType_idem _ S hS
    cases n with
    | zero => rw [generateMappingRecur_struct_zero S S "" hSS hSk] at hinner; cases hinner
    | succ k =>
      obtain ⟨fsS, propsS, _, _, rfl⟩ :=
        generateMappingRecur_struct_ok k S S "" inner hSS hSk hinner
      refine ⟨props, ⟨none, some propsS, none, none, none⟩, rfl,
        (GenerateMapping_ok _ _ _).2 ⟨_, hinner, rfl⟩, ?_, ?_⟩
      · intro fuelS r hr
        obtain ⟨m2, hm2, rfl⟩ := (GenerateMapping_ok _ _ _).1 hr
        have := generateMappingRecur_fuel_indep _ _ _ _ _ _ hm2 hinner
        subst this
        rfl
      · intro pre post hdec hpost
        subst hdec
        obtain ⟨c, hc, hl⟩ := loop_last _ pre post f [] props hp hpost
        rw [hchild] at hc
        cases hc
        exact hl

theorem C7_nested_struct_field_witness :
    GenerateMapping 2 MyStruct = .ok TestMappingGen_expectedDTO ∧
    ∃ props rootS, TestMappingGen_expectedDTO.Properties = some props ∧
      GenerateMapping 1 MyInnerStruct = .ok rootS ∧
      mapLookup props "inner" = some ⟨some "nested", rootS.Properties, none, none, none⟩ := by
  refine ⟨rfl, ?_⟩
  obtain ⟨_, props, rootS, hprops, hS, _, hlook⟩ :=
    C7_nested_struct_field 1 MyStruct MyStruct MyInnerStruct
      (.mk "Inner" MyInnerStruct [("json", "inner")] false) MyStruct.fieldList
      TestMappingGen_expectedDTO rfl rfl (by simp [MyStruct, GoType.fieldList]) rfl rfl rfl rfl
      rfl rfl
  exact ⟨props, rootS, hprops, hS,
    hlook [.mk "Foo" (.basic .Int) [("json", "foo,omitempty")] false] [] rfl
      (by intro f2 hf2; simp at hf2)⟩

/-- C8: when GenerateMapping succeeds, generateMappingRecur on the same type with the empty
override succeeded too, the root has its Type unset (so it is not nested), and its
Properties, Index, Format and EagerGlobalOrdinals are those of that result. -/
theorem C8_root_type_cleared (fuel : Nat) (t : GoType) (root : Mapping)
    (h : GenerateMapping fuel t = .ok root) :
    ∃ m, generateMappingRecur fuel t "" = .ok m ∧
      root.Type_ = none ∧ root.Type_ ≠ some "nested" ∧
      root.Properties = m.Properties ∧ root.Index = m.Index ∧
      root.Format = m.Format ∧ root.EagerGlobalOrdinals = m.EagerGlobalOrdinals := by
  simp only [GenerateMapping, bind, Except.bind] at h
  cases hm : generateMappingRecur fuel t "" with
  | error e => rw [hm] at h; cases h
  | ok m =>
    rw [hm] at h
    simp only [pure, Except.pure, Except.ok.injEq] at h
    subst h
    exact ⟨m, rfl, rfl, by simp, rfl, rfl, rfl, rfl⟩

theorem C8_root_type_cleared_witness :
    GenerateMapping 2 MyStruct = .ok TestMappingGen_expectedDTO ∧
    ∃ m, generateMappingRecur 2 MyStruct "" = .ok m ∧
      TestMappingGen_expectedDTO.Type_ = none ∧
      TestMappingGen_expectedDTO.Type_ ≠ some "nested" ∧
      TestMappingGen_expectedDTO.Properties = m.Properties ∧
      TestMappingGen_expectedDTO.Index = m.Index ∧
      TestMappingGen_expectedDTO.Format = m.Format ∧
      TestMappingGen_expectedDTO.EagerGlobalOrdinals = m.EagerGlobalOrdinals :=
  ⟨rfl, C8_root_type_cleared 2 MyStruct TestMappingGen_expectedDTO rfl⟩

/-- C9 (counterexample): the field Name of KeywordEpochEager has the flags epoch_second and
eager_global_ordinals and the resolved type keyword; no child with EagerGlobalOrdinals is
stored, the generation aborts with the invalid-format error. -/
theorem C9_keyword_with_epoch_flag_aborts :
    (getESTypeAndProps [("es", ",epoch_second,eager_global_ordinals")]).2
      = some ["epoch_second", "eager_global_ordinals"] ∧
    generateMappingRecur 0 (.basic .String)
      (getESTypeAndProps [("es", ",epoch_second,eager_global_ordinals")]).1
      = .ok ⟨some "keyword", none, none, none, none⟩ ∧
    fieldMapping (generateMappingRecur 0)
      (.mk "Name" (.basic .String) [("es", ",epoch_second,eager_global_ordinals")] false)
      = .error (.invalidFormat "epoch_second" "") ∧
    GenerateMapping 1 KeywordEpochEager = .error (.invalidFormat "epoch_second" "") :=
  ⟨rfl, rfl, rfl, rfl⟩

/-- C9 (amended): for a field whose flag set contains eager_global_ordinals and whose type
resolves to a mapping: when the resolved type is keyword or text and the set contains neither
epoch_second nor epoch_ms, the mapping of the field is generated with EagerGlobalOrdinals
true and is stored under the name of the field; when the resolved type is keyword or text and
the set contains epoch_second or epoch_ms, the generation aborts with the invalid-format
error; when the resolved type is anything else, the mapping of the field is the
eager_global_ordinals error or the invalid-format error, and the generation of a struct type
that has the field among its extracted fields returns an error. -/
theorem C9_eager_global_ordinals (n : Nat) (f : StructField) (flags : List String)
    (inner : Mapping)
    (hflags : (getESTypeAndProps f.Tag).2 = some flags)
    (hego : "eager_global_ordinals" ∈ flags)
    (hinner : generateMappingRecur n f.Type_ (getESTypeAndProps f.Tag).1 = .ok inner) :
    ((generatedESTypeOf inner = "keyword" ∨ generatedESTypeOf inner = "text") →
      ("epoch_second" ∉ flags → "epoch_ms" ∉ flags →
        ∃ child, fieldMapping (generateMappingRecur n) f = .ok child ∧
          child.EagerGlobalOrdinals = some true ∧ child.Type_ = inner.Type_ ∧
          ∀ props, fieldStep (generateMappingRecur n) props f
            = .ok (mapInsert props (memberName f) child)) ∧
      ("epoch_second" ∈ flags ∨ "epoch_ms" ∈ flags →
        ∃ fmt, fieldMapping (generateMappingRecur n) f
          = .error (.invalidFormat fmt (getESTypeAndProps f.Tag).1))) ∧
    (¬ (generatedESTypeOf inner = "keyword" ∨ generatedESTypeOf inner = "text") →
      (fieldMapping (generateMappingRecur n) f = .error .eagerGlobalOrdinals ∨
        ∃ fmt, fieldMapping (generateMappingRecur n) f
          = .error (.invalidFormat fmt (getESTypeAndProps f.Tag).1)) ∧
      ∀ (T G : GoType) (fs : List StructField) (c : String),
        getUnderlyingType T = .ok G → G.Kind = .Struct →
        extractFields (n + 1) G [] = .ok fs → f ∈ fs →
        ∃ e, generateMappingRecur (n + 1) T c = .error e) := by
  have hfm := fieldMapping_flags (generateMappingRecur n) f flags inner hflags hinner
  rw [applyCustomProps_some] at hfm
  refine ⟨fun hkt => ⟨?_, ?_⟩, fun hnkt => ?_⟩
  · intro hs hms
    have hgood : ¬ (generatedESTypeOf inner ≠ "keyword" ∧ generatedESTypeOf inner ≠ "text") := by
      intro hb
      rcases hkt with h | h
      · exact hb.1 h
      · exact hb.2 h
    rw [if_neg hs, if_neg hms] at hfm
    simp only [Except.bind, if_pos hego, if_neg hgood] at hfm
    refine ⟨_, hfm, rfl, rfl, ?_⟩
    intro props
    exact (fieldStep_ok _ _ _ _).2 ⟨_, hfm, rfl⟩
  · intro hfl
    have hnd : generatedESTypeOf inner ≠ "date" := by
      rcases hkt with h | h <;> rw [h] <;> decide
    by_cases hs : "epoch_second" ∈ flags
    · rw [if_pos hs, if_pos hnd] at hfm
      exact ⟨_, hfm⟩
    · have hms : "epoch_ms" ∈ flags := hfl.resolve_left hs
      rw [if_neg hs, if_pos hms, if_pos hnd] at hfm
      exact ⟨_, hfm⟩
  · have hbad : generatedESTypeOf inner ≠ "keyword" ∧ generatedESTypeOf inner ≠ "text" :=
      ⟨fun h => hnkt (Or.inl h), fun h => hnkt (Or.inr h)⟩
    have herr : fieldMapping (generateMappingRecur n) f = .error .eagerGlobalOrdinals ∨
        ∃ fmt, fieldMapping (generateMappingRecur n) f
          = .error (.invalidFormat fmt (getESTypeAndProps f.Tag).1) := by
      by_cases hs : "epoch_second" ∈ flags
      · by_cases hd : generatedESTypeOf inner = "date"
        · rw [if_pos hs, if_neg (not_not.2 hd)] at hfm
          simp only [Except.bind, if_pos hego, if_pos hbad] at hfm
          exact Or.inl hfm
        · rw [if_pos hs, if_pos hd] at hfm
          exact Or.inr ⟨_, hfm⟩
      · by_cases hms : "epoch_ms" ∈ flags
        · by_cases hd : generatedESTypeOf inner = "date"
          · rw [if_neg hs, if_pos hms, if_neg (not_not.2 hd)] at hfm
            simp only [Except.bind, if_pos hego, if_pos hbad] at hfm
            exact Or.inl hfm
          · rw [if_neg hs, if_pos hms, if_pos hd] at hfm
            exact Or.inr ⟨_, hfm⟩
        · rw [if_neg hs, if_neg hms] at hfm
          simp only [Except.bind, if_pos hego, if_pos hbad] at hfm
          exact Or.inl hfm
    refine ⟨herr, ?_⟩
    intro T G fs c hT hG hfs hf
    rcases herr with he | ⟨fmt, he⟩
    · exact generateMappingRecur_error_of_field n T G c fs f _ hT hG hfs hf he
    · exact generateMappingRecur_error_of_field n T G c fs f _ hT hG hfs hf he

theorem C9_eager_global_ordinals_witness :
    ∃ child, fieldMapping (generateMappingRecur 0)
        (.mk "Name" (.basic .String) [("json", "name"), ("es", ",eager_global_ordinals")] false)
        = .ok child ∧
      child.EagerGlobalOrdinals = some true ∧
      child.Type_ = (⟨some "keyword", none, none, none, none⟩ : Mapping).Type_ ∧
      ∀ props, fieldStep (generateMappingRecur 0) props
        (.mk "Name" (.basic .String) [("json", "name"), ("es", ",eager_global_ordinals")] false)
        = .ok (mapInsert props (memberName
          (.mk "Name" (.basic .String) [("json", "name"), ("es", ",eager_global_ordinals")]
            false)) child) :=
  ((C9_eager_global_ordinals 0
    (.mk "Name" (.basic .String) [("json", "name"), ("es", ",eager_global_ordinals")] false)
    ["eager_global_ordinals"] ⟨some "keyword", none, none, none, none⟩ rfl (by decide) rfl).1
    (Or.inl rfl)).1 (by decide) (by decide)

/-- C10 (counterexample): the field When of DateEpochEager has the flags epoch_second and
eager_global_ordinals and the resolved type date; no child with a Format is stored, the
generation aborts with the eager_global_ordinals error. -/
theorem C10_date_with_eager_flag_aborts :
    (getESTypeAndProps [("es", "date,epoch_second,eager_global_ordinals")]).2
      = some ["epoch_second", "eager_global_ordinals"] ∧
    generateMappingRecur 0 (.basic .Int64)
      (getESTypeAndProps [("es", "date,epoch_second,eager_global_ordinals")]).1
      = .ok ⟨some "date", none, none, none, none⟩ ∧
    fieldMapping (generateMappingRecur 0)
      (.mk "When" (.basic .Int64) [("es", "date,epoch_second,eager_global_ordinals")] false)
      = .error .eagerGlobalOrdinals ∧
    GenerateMapping 1 DateEpochEager = .error .eagerGlobalOrdinals :=
  ⟨rfl, rfl, rfl, rfl⟩

/-- C10 (amended): for a field whose type resolves to a mapping and whose flag set contains
epoch_second (respectively epoch_ms and not epoch_second): when the resolved type is date and
the set does not contain eager_global_ordinals, the mapping of the field is generated with
Format epoch_second (respectively epoch_millis) and is stored under the name of the field;
when the resolved type is date and the set contains eager_global_ordinals, the generation
aborts with the eager_global_ordinals error; when the resolved type is not date, the mapping
of the field is the invalid-format error for epoch_second (respectively epoch_millis), and
the generation of a struct type that has the field among its extracted fields returns an
error. -/
theorem C10_epoch_format (n : Nat) (f : StructField) (flags : List String)
    (inner : Mapping) (fmt : String)
    (hflags : (getESTypeAndProps f.Tag).2 = some flags)
    (hfmt : ("epoch_second" ∈ flags ∧ fmt = "epoch_second") ∨
      ("epoch_ms" ∈ flags ∧ "epoch_second" ∉ flags ∧ fmt = "epoch_millis"))
    (hinner : generateMappingRecur n f.Type_ (getESTypeAndProps f.Tag).1 = .ok inner) :
    (generatedESTypeOf inner = "date" →
      ("eager_global_ordinals" ∉ flags →
        ∃ child, fieldMapping (generateMappingRecur n) f = .ok child ∧
          child.Format = some fmt ∧ child.Type_ = inner.Type_ ∧
          ∀ props, fieldStep (generateMappingRecur n) props f
            = .ok (mapInsert props (memberName f) child)) ∧
      ("eager_global_ordinals" ∈ flags →
        fieldMapping (generateMappingRecur n) f = .error .eagerGlobalOrdinals)) ∧
    (generatedESTypeOf inner ≠ "date" →
      fieldMapping (generateMappingRecur n) f
        = .error (.invalidFormat fmt (getESTypeAndProps f.Tag).1) ∧
      ∀ (T G : GoType) (fs : List StructField) (c : String),
        getUnderlyingType T = .ok G → G.Kind = .Struct →
        extractFields (n + 1) G [] = .ok fs → f ∈ fs →
        ∃ e, generateMappingRecur (n + 1) T c = .error e) := by
  have hfm := fieldMapping_flags (generateMappingRecur n) f flags inner hflags hinner
  rw [applyCustomProps_some] at hfm
  refine ⟨fun hd => ⟨?_, ?_⟩, fun hnd => ?_⟩
  · intro hnego
    rcases hfmt with ⟨hs, rfl⟩ | ⟨hms, hs, rfl⟩
    · rw [if_pos hs, if_neg (not_not.2 hd)] at hfm
      simp only [Except.bind, if_neg hnego] at hfm
      exact ⟨_, hfm, rfl, rfl, fun props => (fieldStep_ok _ _ _ _).2 ⟨_, hfm, rfl⟩⟩
    · rw [if_neg hs, if_pos hms, if_neg (not_not.2 hd)] at hfm
      simp only [Except.bind, if_neg hnego] at hfm
      exact ⟨_, hfm, rfl, rfl, fun props => (fieldStep_ok _ _ _ _).2 ⟨_, hfm, rfl⟩⟩
  · intro hego
    have hbad : generatedESTypeOf inner ≠ "keyword" ∧ generatedESTypeOf inner ≠ "text" := by
      rw [hd]
      decide
    rcases hfmt with ⟨hs, rfl⟩ | ⟨hms, hs, rfl⟩
    · rw [if_pos hs, if_neg (not_not.2 hd)] at hfm
      simpa only [Except.bind, if_pos hego, if_pos hbad] using hfm
    · rw [if_neg hs, if_pos hms, if_neg (not_not.2 hd)] at hfm
      simpa only [Except.bind, if_pos hego, if_pos hbad] using hfm
  · have herr : fieldMapping (generateMappingRecur n) f
        = .error (.invalidFormat fmt (getESTypeAndProps f.Tag).1) := by
      rcases hfmt with ⟨hs, rfl⟩ | ⟨hms, hs, rfl⟩
      · rw [if_pos hs, if_pos hnd] at hfm
        exact hfm
      · rw [if_neg hs, if_pos hms, if_pos hnd] at hfm
        exact hfm
    exact ⟨herr, fun T G fs c hT hG hfs hf =>
      generateMappingRecur_error_of_field n T G c fs f _ hT hG hfs hf herr⟩

theorem C10_epoch_format_witness :
    ∃ child, fieldMapping (generateMappingRecur 0)
        (.mk "Created" (.basic .Int64) [("es", "date,indexignore,epoch_ms")] false) = .ok child ∧
      child.Format = some "epoch_millis" ∧
      child.Type_ = (⟨some "date", none, none, none, none⟩ : Mapping).Type_ ∧
      ∀ props, fieldStep (generateMappingRecur 0) props
        (.mk "Created" (.basic .Int64) [("es", "date,indexignore,epoch_ms")] false)
        = .ok (mapInsert props (memberName
          (.mk "Created" (.basic .Int64) [("es", "date,indexignore,epoch_ms")] false)) child) :=
  ((C10_epoch_format 0
    (.mk "Created" (.basic .Int64) [("es", "date,indexignore,epoch_ms")] false)
    ["indexignore", "epoch_ms"] ⟨some "date", none, none, none, none⟩ "epoch_millis" rfl
    (Or.inr ⟨by decide, by decide, rfl⟩) rfl).1 rfl).1 (by decide)

theorem splitComma_no_comma (tok : List Char) (h : ',' ∉ tok) : splitComma tok = [tok] := by
  induction tok with
  | nil => rfl
  | cons c cs ih =>
    have hc : c ≠ ',' := fun hh => h (by rw [hh]; exact List.mem_cons_self _ _)
    have hcs : ',' ∉ cs := fun hh => h (List.mem_cons_of_mem _ hh)
    simp [splitComma, hc, ih hcs]

theorem splitComma_append_comma (tok s : List Char) (h : ',' ∉ tok) :
    splitComma (tok ++ ',' :: s) = tok :: splitComma s := by
  induction tok with
  | nil => simp [splitComma]
  | cons c cs ih =>
    have hc : c ≠ ',' := fun hh => h (by rw [hh]; exact List.mem_cons_self _ _)
    have hcs : ',' ∉ cs := fun hh => h (List.mem_cons_of_mem _ hh)
    simp [splitComma, hc, ih hcs]

theorem joinComma_cons_cons (t t2 : List Char) (ts : List (List Char)) :
    joinComma (t :: t2 :: ts) = t ++ ',' :: joinComma (t2 :: ts) := by
  simp [joinComma, List.intercalate, List.intersperse]

theorem splitComma_joinComma : ∀ (toks : List (List Char)), toks ≠ [] →
    (∀ t ∈ toks, ',' ∉ t) → splitComma (joinComma toks) = toks
  | [], h, _ => absurd rfl h
  | [t], _, hc => by
    have : joinComma [t] = t := by simp [joinComma, List.intercalate, List.intersperse]
    rw [this]
    exact splitComma_no_comma t (hc t (List.mem_singleton.2 rfl))
  | t :: t2 :: ts, _, hc => by
    rw [joinComma_cons_cons, splitComma_append_comma _ _ (hc t (List.mem_cons_self _ _)),
      splitComma_joinComma (t2 :: ts) (by simp)
        (fun x hx => hc x (List.mem_cons_of_mem _ hx))]

theorem getTagValues_empty (tag : StructTag) (key : String) (h : tag.Get key = "") :
    getTagValues tag key = [] := by
  simp [getTagValues, h]

theorem getTagValues_joinComma (tag : StructTag) (key : String) (toks : List (List Char))
    (hne : toks ≠ []) (hc : ∀ t ∈ toks, ',' ∉ t) (hv : tag.Get key = String.mk (joinComma toks))
    (hpos : joinComma toks ≠ []) :
    getTagValues tag key = toks.map String.mk := by
  have hlen : (String.mk (joinComma toks)).length > 0 := by
    simp only [String.length]
    exact List.length_pos.2 hpos
  simp only [getTagValues, hv, hlen, if_true, stringsSplitComma]
  rw [splitComma_joinComma toks hne hc]

theorem generateMappingRecur_attrs (fuel : Nat) (t : GoType) (c : String) (m : Mapping)
    (h : generateMappingRecur fuel t c = .ok m) :
    m.Index = none ∧ m.Format = none ∧ m.EagerGlobalOrdinals = none ∧
      ∃ ty, m.Type_ = some ty := by
  cases hg : getUnderlyingType t with
  | error e => rw [generateMappingRecur] at h; simp [hg, bind, Except.bind] at h
  | ok g =>
    by_cases hk : g.Kind = .Struct
    · cases fuel with
      | zero => rw [generateMappingRecur_struct_zero t g c hg hk] at h; cases h
      | succ n =>
        obtain ⟨fs, props, _, _, rfl⟩ := generateMappingRecur_struct_ok n t g c m hg hk h
        exact ⟨rfl, rfl, rfl, _, rfl⟩
    · rw [generateMappingRecur_prim fuel t g c hg hk] at h
      split at h
      · split at h
        · cases h; exact ⟨rfl, rfl, rfl, _, rfl⟩
        · cases h
      · cases h; exact ⟨rfl, rfl, rfl, _, rfl⟩

theorem fieldMapping_ok (r : GoType → String → Except GenError Mapping) (f : StructField)
    (child : Mapping) (h : fieldMapping r f = .ok child) :
    ∃ inner, r f.Type_ (getESTypeAndProps f.Tag).1 = .ok inner ∧
      applyCustomProps inner (getESTypeAndProps f.Tag).1 (getESTypeAndProps f.Tag).2
        = .ok child := by
  rw [fieldMapping_eq] at h
  cases hr : r f.Type_ (getESTypeAndProps f.Tag).1 with
  | error e => rw [hr] at h; cases h
  | ok inner => rw [hr] at h; exact ⟨inner, rfl, h⟩

theorem applyCustomProps_none (inner : Mapping) (esType : String) :
    applyCustomProps inner esType none = .ok inner := rfl

theorem applyCustomProps_ok (inner child : Mapping) (esType : String) (fl : List String)
    (h : applyCustomProps inner esType (some fl) = .ok child) :
    child.Type_ = inner.Type_ ∧ child.Properties = inner.Properties ∧
    child.Index = (if "indexignore" ∈ fl then some false else inner.Index) ∧
    child.Format = (if "epoch_second" ∈ fl then some "epoch_second"
      else if "epoch_ms" ∈ fl then some "epoch_millis" else inner.Format) ∧
    child.EagerGlobalOrdinals
      = (if "eager_global_ordinals" ∈ fl then some true else inner.EagerGlobalOrdinals) ∧
    (("epoch_second" ∈ fl ∨ "epoch_ms" ∈ fl) → generatedESTypeOf inner = "date") ∧
    ("eager_global_ordinals" ∈ fl →
      generatedESTypeOf inner = "keyword" ∨ generatedESTypeOf inner = "text") := by
  rw [applyCustomProps_some] at h
  by_cases h2 : "epoch_second" ∈ fl <;> by_cases h3 : "epoch_ms" ∈ fl <;>
    by_cases hd : generatedESTypeOf inner = "date" <;>
    by_cases he : "eager_global_ordinals" ∈ fl <;>
    by_cases hk : generatedESTypeOf inner = "keyword" <;>
    by_cases ht : generatedESTypeOf inner = "text" <;>
    simp [h2, h3, hd, he, hk, ht, Except.bind] at h <;>
    subst h <;> simp [h2, h3, hd, he, hk, ht]

theorem getESTypeAndProps_no_comma (tag : StructTag) (h : ',' ∉ (tag.Get "es").data) :
    (getESTypeAndProps tag).2 = none := by
  unfold getESTypeAndProps getTagValues
  by_cases hl : (tag.Get "es").length > 0
  · simp only [hl, if_true, stringsSplitComma, splitComma_no_comma _ h, List.map_cons,
      List.map_nil]
  · simp only [hl, if_false]

/-- C11: when the mapping of a field is generated, its Index is false if the flag set of the
field contains indexignore, whatever the type of the field, and is unset if the field has no
flag set or a flag set without indexignore, in particular if its es annotation has no comma
(is absent, empty or a single token); this mapping is the one stored under the name of the
field. -/
theorem C11_indexignore (n : Nat) (f : StructField) (child : Mapping)
    (h : fieldMapping (generateMappingRecur n) f = .ok child) :
    (∀ flags, (getESTypeAndProps f.Tag).2 = some flags → "indexignore" ∈ flags →
      child.Index = some false) ∧
    (∀ flags, (getESTypeAndProps f.Tag).2 = some flags → "indexignore" ∉ flags →
      child.Index = none) ∧
    ((getESTypeAndProps f.Tag).2 = none → child.Index = none) ∧
    (',' ∉ (f.Tag.Get "es").data → child.Index = none) ∧
    ∀ props, fieldStep (generateMappingRecur n) props f
      = .ok (mapInsert props (memberName f) child) := by
  obtain ⟨inner, hinner, happ⟩ := fieldMapping_ok _ f child h
  obtain ⟨hidx, _, _, _⟩ := generateMappingRecur_attrs _ _ _ _ hinner
  have hnone : (getESTypeAndProps f.Tag).2 = none → child.Index = none := by
    intro hn
    rw [hn, applyCustomProps_none] at happ
    cases happ
    exact hidx
  refine ⟨?_, ?_, hnone, fun hc => hnone (getESTypeAndProps_no_comma _ hc),
    fun props => (fieldStep_ok _ _ _ _).2 ⟨child, h, rfl⟩⟩
  · intro flags hfl hmem
    rw [hfl] at happ
    rw [(applyCustomProps_ok _ _ _ _ happ).2.2.1, if_pos hmem]
  · intro flags hfl hmem
    rw [hfl] at happ
    rw [(applyCustomProps_ok _ _ _ _ happ).2.2.1, if_neg hmem, hidx]

theorem C11_indexignore_witness :
    GenerateMapping 2 IgnoredInner
      = .ok ⟨none, some [("inner", ⟨some "nested",
          some [("bar", ⟨some "text", none, none, none, none⟩)], some false, none, none⟩)],
        none, none, none⟩ ∧
    (⟨some "nested", some [("bar", ⟨some "text", none, none, none, none⟩)], some false, none,
      none⟩ : Mapping).Index = some false ∧
    (⟨some "keyword", none, none, none, some true⟩ : Mapping).Index = none :=
  ⟨rfl,
   (C11_indexignore 1 (.mk "Inner" MyInnerStruct [("json", "inner"), ("es", ",indexignore")]
      false) _ rfl).1 ["indexignore"] rfl (by decide),
   (C11_indexignore 0
      (.mk "Name" (.basic .String) [("json", "name"), ("es", ",eager_global_ordinals")] false)
      ⟨some "keyword", none, none, none, some true⟩ rfl).2.1 ["eager_global_ordinals"] rfl
      (by decide)⟩

/-- C12: getESTypeAndProps returns the empty override and no flag set when the es annotation
is absent or empty; the annotation itself and no flag set when it is one token without a
comma (so a lone indexignore is an override, not a flag); and, when it is two or more tokens
joined by commas, the first token (which may be empty) and the set of all the other tokens,
recognised or not. -/
theorem C12_getESTypeAndProps (tag : StructTag) :
    (tag.lookup "es" = none → getESTypeAndProps tag = ("", none)) ∧
    (tag.Get "es" = "" → getESTypeAndProps tag = ("", none)) ∧
    (∀ tok : List Char, ',' ∉ tok → tag.Get "es" = String.mk tok →
      getESTypeAndProps tag = (String.mk tok, none)) ∧
    (∀ (first second : List Char) (others : List (List Char)),
      (∀ t ∈ first :: second :: others, ',' ∉ t) →
      tag.Get "es" = String.mk (joinComma (first :: second :: others)) →
      getESTypeAndProps tag
        = (String.mk first, some ((second :: others).map String.mk))) := by
  have hempty : tag.Get "es" = "" → getESTypeAndProps tag = ("", none) := by
    intro h
    simp [getESTypeAndProps, getTagValues_empty tag "es" h]
  refine ⟨?_, hempty, ?_, ?_⟩
  · intro h
    apply hempty
    simp [StructTag.Get, h]
  · intro tok hc hv
    cases tok with
    | nil => exact hempty hv
    | cons a l =>
      have := getTagValues_joinComma tag "es" [a :: l] (by simp)
        (fun t ht => by rw [List.mem_singleton.1 ht]; exact hc)
        (by simpa [joinComma, List.intercalate, List.intersperse] using hv)
        (by simp [joinComma, List.intercalate, List.intersperse])
      simp [getESTypeAndProps, this]
  · intro first second others hc hv
    have := getTagValues_joinComma tag "es" (first :: second :: others) (by simp) hc hv
      (by rw [joinComma_cons_cons]; simp)
    simp [getESTypeAndProps, this]

theorem C12_getESTypeAndProps_witness :
    getESTypeAndProps [("json", "id")] = ("", none) ∧
    getESTypeAndProps [("es", "indexignore")] = ("indexignore", none) ∧
    getESTypeAndProps [("es", ",indexignore")] = ("", some ["indexignore"]) ∧
    getESTypeAndProps [("es", "date,epoch_ms,sparse,")]
      = ("date", some ["epoch_ms", "sparse", ""]) :=
  ⟨(C12_getESTypeAndProps [("json", "id")]).1 rfl,
   (C12_getESTypeAndProps [("es", "indexignore")]).2.2.1 "indexignore".data (by decide) rfl,
   (C12_getESTypeAndProps [("es", ",indexignore")]).2.2.2 [] "indexignore".data []
     (by decide) rfl,
   (C12_getESTypeAndProps [("es", "date,epoch_ms,sparse,")]).2.2.2 "date".data
     "epoch_ms".data ["sparse".data, []] (by decide) rfl⟩

theorem nodes_eq (m : Mapping) : m.nodes = m :: nodesOfProperties m.Properties := by
  cases m
  rw [Mapping.nodes]

theorem nodesOfEntries_mem (entries : List (String × Mapping)) (x : Mapping) :
    x ∈ nodesOfEntries entries ↔ ∃ k m, (k, m) ∈ entries ∧ x ∈ m.nodes := by
  induction entries with
  | nil => simp [nodesOfEntries]
  | cons e rest ih =>
    obtain ⟨k, m⟩ := e
    rw [nodesOfEntries, List.mem_append, ih]
    constructor
    · rintro (h | ⟨k2, m2, h1, h2⟩)
      · exact ⟨k, m, List.mem_cons_self _ _, h⟩
      · exact ⟨k2, m2, List.mem_cons_of_mem _ h1, h2⟩
    · rintro ⟨k2, m2, h1, h2⟩
      rcases List.mem_cons.1 h1 with h | h
      · cases h; exact Or.inl h2
      · exact Or.inr ⟨k2, m2, h, h2⟩

theorem mapInsert_keys (props : List (String × Mapping)) (k : String) (v : Mapping) :
    (mapInsert props k v).map Prod.fst
      = if k ∈ props.map Prod.fst then props.map Prod.fst else props.map Prod.fst ++ [k] := by
  induction props with
  | nil => simp [mapInsert]
  | cons p rest ih =>
    obtain ⟨k0, v0⟩ := p
    by_cases h0 : k0 = k
    · subst h0
      simp [mapInsert]
    · have h1 : ¬ k = k0 := fun h => h0 h.symm
      by_cases hm : k ∈ rest.map Prod.fst
      · simp only [mapInsert, h0, if_false, List.map_cons, ih, hm, if_true, List.mem_cons,
          or_true]
      · simp only [mapInsert, h0, if_false, List.map_cons, ih, hm, List.mem_cons, h1, or_self,
          List.cons_append]

theorem mapInsert_nodup (props : List (String × Mapping)) (k : String) (v : Mapping)
    (h : (props.map Prod.fst).Nodup) : ((mapInsert props k v).map Prod.fst).Nodup := by
  rw [mapInsert_keys]
  split
  · exact h
  · rename_i hk
    rw [List.nodup_append]
    refine ⟨h, List.nodup_singleton k, ?_⟩
    intro a ha hb
    rw [List.mem_singleton.1 hb] at ha
    exact hk ha

theorem mapInsert_mem (props : List (String × Mapping)) (k : String) (v : Mapping)
    (e : String × Mapping) (h : e ∈ mapInsert props k v) : e = (k, v) ∨ e ∈ props := by
  induction props with
  | nil =>
    simp only [mapInsert, List.mem_singleton] at h
    exact Or.inl h
  | cons p rest ih =>
    obtain ⟨k0, v0⟩ := p
    by_cases h0 : k0 = k
    · simp only [mapInsert, h0, if_true, List.mem_cons] at h
      rcases h with h | h
      · exact Or.inl h
      · exact Or.inr (List.mem_cons_of_mem _ h)
    · simp only [mapInsert, h0, if_false, List.mem_cons] at h
      rcases h with h | h
      · exact Or.inr (by rw [h]; exact List.mem_cons_self _ _)
      · rcases ih h with h | h
        · exact Or.inl h
        · exact Or.inr (List.mem_cons_of_mem _ h)

theorem mapLookup_isSome_iff (props : List (String × Mapping)) (k : String) :
    (mapLookup props k).isSome = true ↔ k ∈ props.map Prod.fst := by
  induction props with
  | nil => simp [mapLookup]
  | cons p rest ih =>
    obtain ⟨k0, v0⟩ := p
    by_cases h0 : k0 = k
    · simp [mapLookup, h0]
    · have h1 : ¬ k = k0 := fun h => h0 h.symm
      simp [mapLookup, h0, h1, ih]

theorem loop_nodup (r : GoType → String → Except GenError Mapping) :
    ∀ (fs : List StructField) (init p : List (String × Mapping)),
      List.foldlM (fieldStep r) init fs = .ok p → (init.map Prod.fst).Nodup →
      (p.map Prod.fst).Nodup := by
  intro fs init p h hinit
  refine foldlM_invariant (fun l => (l.map Prod.fst).Nodup) (fieldStep r) ?_ fs init p hinit h
  intro a x b ha hb
  obtain ⟨c, _, rfl⟩ := (fieldStep_ok _ _ _ _).1 hb
  exact mapInsert_nodup _ _ _ ha

theorem loop_entries (r : GoType → String → Except GenError Mapping) :
    ∀ (fs : List StructField) (init p : List (String × Mapping)),
      List.foldlM (fieldStep r) init fs = .ok p →
      ∀ e ∈ p, e ∈ init ∨ ∃ f ∈ fs, memberName f = e.1 ∧ fieldMapping r f = .ok e.2 := by
  intro fs init p h
  refine foldlM_invariant_mem
    (fun l => ∀ e ∈ l, e ∈ init ∨ ∃ f ∈ fs, memberName f = e.1 ∧ fieldMapping r f = .ok e.2)
    (fieldStep r) fs init p ?_ (fun e he => Or.inl he) h
  intro a x b hx ha hb
  obtain ⟨c, hc, rfl⟩ := (fieldStep_ok _ _ _ _).1 hb
  intro e he
  rcases mapInsert_mem _ _ _ _ he with h1 | h1
  · subst h1
    exact Or.inr ⟨x, hx, rfl, hc⟩
  · exact ha e h1

theorem loop_succeeds (r : GoType → String → Except GenError Mapping) :
    ∀ (fs : List StructField) (init : List (String × Mapping)),
      (∀ f ∈ fs, ∃ c, fieldMapping r f = .ok c) →
      ∃ p, List.foldlM (fieldStep r) init fs = .ok p := by
  intro fs
  induction fs with
  | nil => intro init _; exact ⟨init, rfl⟩
  | cons x xs ih =>
    intro init h
    obtain ⟨c, hc⟩ := h x (List.mem_cons_self _ _)
    obtain ⟨p, hp⟩ := ih (mapInsert init (memberName x) c)
      (fun f hf => h f (List.mem_cons_of_mem _ hf))
    exact ⟨p, (foldlM_ok_cons _ _ _ _ _).2 ⟨_, (fieldStep_ok _ _ _ _).2 ⟨c, hc, rfl⟩, hp⟩⟩

/-- Every node below the root of a generated tree is the mapping generated for a field. -/
theorem generated_descendants (Q : Mapping → Prop)
    (HQ : ∀ n f child, fieldMapping (generateMappingRecur n) f = .ok child → Q child) :
    ∀ (fuel : Nat) (t : GoType) (c : String) (m : Mapping),
      generateMappingRecur fuel t c = .ok m → ∀ x ∈ nodesOfProperties m.Properties, Q x := by
  intro fuel
  induction fuel with
  | zero =>
    intro t c m h x hx
    cases hg : getUnderlyingType t with
    | error e => rw [generateMappingRecur] at h; simp [hg, bind, Except.bind] at h
    | ok g =>
      by_cases hk : g.Kind = .Struct
      · rw [generateMappingRecur_struct_zero t g c hg hk] at h; cases h
      · rw [generateMappingRecur_prim _ t g c hg hk] at h
        split at h
        · split at h
          · cases h; simp [nodesOfProperties] at hx
          · cases h
        · cases h; simp [nodesOfProperties] at hx
  | succ n ih =>
    intro t c m h x hx
    cases hg : getUnderlyingType t with
    | error e => rw [generateMappingRecur] at h; simp [hg, bind, Except.bind] at h
    | ok g =>
      by_cases hk : g.Kind = .Struct
      · obtain ⟨fs, props, _, hp, rfl⟩ := generateMappingRecur_struct_ok n t g c m hg hk h
        simp only [nodesOfProperties] at hx
        obtain ⟨k, ch, hmem, hxc⟩ := (nodesOfEntries_mem _ _).1 hx
        rcases loop_entries _ fs [] props hp _ hmem with h0 | ⟨f, _, _, hf⟩
        · simp at h0
        · simp only at hf
          rw [nodes_eq] at hxc
          rcases List.mem_cons.1 hxc with rfl | hxc
          · exact HQ n f _ hf
          · obtain ⟨inner, hinner, happ⟩ := fieldMapping_ok _ f ch hf
            have hprops : ch.Properties = inner.Properties := by
              cases hfl : (getESTypeAndProps f.Tag).2 with
              | none => rw [hfl, applyCustomProps_none] at happ; cases happ; rfl
              | some fl => rw [hfl] at happ; exact (applyCustomProps_ok _ _ _ _ happ).2.1
            rw [hprops] at hxc
            exact ih _ _ _ hinner x hxc
      · rw [generateMappingRecur_prim _ t g c hg hk] at h
        split at h
        · split at h
          · cases h; simp [nodesOfProperties] at hx
          · cases h
        · cases h; simp [nodesOfProperties] at hx

theorem generatedESTypeOf_eq (m : Mapping) (s : String) (hs : s ≠ "")
    (h : generatedESTypeOf m = s) : m.Type_ = some s := by
  unfold generatedESTypeOf at h
  cases hty : m.Type_ with
  | none => rw [hty] at h; exact absurd h.symm hs
  | some ty => rw [hty] at h; rw [← h]

theorem GenerateMapping_nodes (fuel : Nat) (t : GoType) (root : Mapping)
    (h : GenerateMapping fuel t = .ok root) :
    ∃ m, generateMappingRecur fuel t "" = .ok m ∧
      root = ⟨none, m.Properties, none, none, none⟩ ∧
      root.nodes = root :: nodesOfProperties m.Properties := by
  obtain ⟨m, hm, rfl⟩ := (GenerateMapping_ok _ _ _).1 h
  obtain ⟨h1, h2, h3, _⟩ := generateMappingRecur_attrs _ _ _ _ hm
  refine ⟨m, hm, ?_, ?_⟩
  · rw [h1, h2, h3]
  · rw [nodes_eq]

theorem fieldMapping_format_type (n : Nat) (f : StructField) (child : Mapping)
    (h : fieldMapping (generateMappingRecur n) f = .ok child) :
    (child.Format ≠ none → child.Type_ = some "date") ∧
    (child.EagerGlobalOrdinals ≠ none →
      child.Type_ = some "keyword" ∨ child.Type_ = some "text") := by
  obtain ⟨inner, hinner, happ⟩ := fieldMapping_ok _ f child h
  obtain ⟨_, hfmt, hego, _⟩ := generateMappingRecur_attrs _ _ _ _ hinner
  cases hfl : (getESTypeAndProps f.Tag).2 with
  | none =>
    rw [hfl, applyCustomProps_none] at happ
    cases happ
    exact ⟨fun hh => absurd hfmt hh, fun hh => absurd hego hh⟩
  | some fl =>
    rw [hfl] at happ
    obtain ⟨hty, _, _, hf, he, hdate, hkt⟩ := applyCustomProps_ok _ _ _ _ happ
    constructor
    · intro hne
      rw [hty]
      apply generatedESTypeOf_eq _ _ (by decide)
      apply hdate
      by_contra hcon
      push_neg at hcon
      rw [hf, if_neg hcon.1, if_neg hcon.2] at hne
      exact hne hfmt
    · intro hne
      rw [hty]
      have hmem : "eager_global_ordinals" ∈ fl := by
        by_contra hcon
        rw [he, if_neg hcon] at hne
        exact hne hego
      rcases hkt hmem with hk | hk
      · exact Or.inl (generatedESTypeOf_eq _ _ (by decide) hk)
      · exact Or.inr (generatedESTypeOf_eq _ _ (by decide) hk)

/-- C13: in the Mapping tree returned by a successful GenerateMapping, every node, the root
included, has a Format only if its Type is date and an EagerGlobalOrdinals only if its Type
is keyword or text. -/
theorem C13_format_and_ordinals_typed (fuel : Nat) (t : GoType) (root : Mapping)
    (h : GenerateMapping fuel t = .ok root) :
    ∀ x ∈ root.nodes,
      (x.Format ≠ none → x.Type_ = some "date") ∧
      (x.EagerGlobalOrdinals ≠ none →
        x.Type_ = some "keyword" ∨ x.Type_ = some "text") := by
  obtain ⟨m, hm, hroot, hnodes⟩ := GenerateMapping_nodes fuel t root h
  intro x hx
  rw [hnodes] at hx
  rcases List.mem_cons.1 hx with rfl | hx
  · rw [hroot]
    exact ⟨fun hh => absurd rfl hh, fun hh => absurd rfl hh⟩
  · exact generated_descendants _ fieldMapping_format_type fuel t "" m hm x hx

theorem C13_format_and_ordinals_typed_witness :
    GenerateMapping 2 EventStruct = .ok EventStruct_expected ∧
    ((⟨some "date", none, none, some "epoch_second", none⟩ : Mapping).Format ≠ none →
      (⟨some "date", none, none, some "epoch_second", none⟩ : Mapping).Type_ = some "date") ∧
    ((⟨some "keyword", none, none, none, some true⟩ : Mapping).EagerGlobalOrdinals ≠ none →
      (⟨some "keyword", none, none, none, some true⟩ : Mapping).Type_ = some "keyword" ∨
      (⟨some "keyword", none, none, none, some true⟩ : Mapping).Type_ = some "text") :=
  ⟨rfl,
   (C13_format_and_ordinals_typed 2 EventStruct EventStruct_expected rfl
      ⟨some "date", none, none, some "epoch_second", none⟩
      (List.mem_cons_of_mem _ (List.mem_cons_self _ _))).1,
   (C13_format_and_ordinals_typed 2 EventStruct EventStruct_expected rfl
      ⟨some "keyword", none, none, none, some true⟩
      (List.mem_cons_of_mem _ (List.mem_cons_of_mem _ (List.mem_cons_of_mem _
        (List.mem_cons_self _ _))))).2⟩

theorem defaultElasticTypeMap_getD_mem (k : Kind) :
    (defaultElasticTypeMap k).getD "" ∈ ["boolean", "byte", "short", "integer", "long",
      "float", "double", "keyword", "text", "date", "ip", ""] := by
  cases k <;> simp [defaultElasticTypeMap, esBOOL, esINT, esBYTE, esSHORT, esLONG, esFLOAT,
    esDOUBLE, esKEYWORD]

theorem generateMappingRecur_leaf (fuel : Nat) (t g : GoType) (c : String) (m : Mapping)
    (hg : getUnderlyingType t = .ok g) (hk : g.Kind ≠ .Struct)
    (h : generateMappingRecur fuel t c = .ok m) :
    ∃ ty, m = ⟨some ty, none, none, none, none⟩ ∧
      ty ∈ ["boolean", "byte", "short", "integer", "long", "float", "double", "keyword",
        "text", "date", "ip", ""] := by
  rw [generateMappingRecur_prim fuel t g c hg hk] at h
  split at h
  · split at h
    · rename_i hp
      cases h
      refine ⟨c, rfl, ?_⟩
      have := (isPrimitiveESType_iff c).1 hp
      simp only [List.mem_cons, List.mem_singleton, List.not_mem_nil, or_false] at this ⊢
      tauto
    · cases h
  · cases h
    exact ⟨_, rfl, defaultElasticTypeMap_getD_mem _⟩

theorem fieldMapping_shape (n : Nat) (f : StructField) (x : Mapping)
    (h : fieldMapping (generateMappingRecur n) f = .ok x) :
    (x.Properties = none ∧ ∃ g ty, getUnderlyingType f.Type_ = .ok g ∧ g.Kind ≠ .Struct ∧
      x.Type_ = some ty ∧
      ty ∈ ["boolean", "byte", "short", "integer", "long", "float", "double", "keyword",
        "text", "date", "ip", ""]) ∨
    (x.Type_ = some "nested" ∧ ∃ G fs props, getUnderlyingType f.Type_ = .ok G ∧
      G.Kind = .Struct ∧ extractFields n G [] = .ok fs ∧ x.Properties = some props ∧
      (props.map Prod.fst).Nodup ∧
      ∀ k, k ∈ props.map Prod.fst ↔ ∃ f2 ∈ fs, memberName f2 = k) := by
  obtain ⟨inner, hinner, happ⟩ := fieldMapping_ok _ f x h
  have hsame : x.Type_ = inner.Type_ ∧ x.Properties = inner.Properties := by
    cases hfl : (getESTypeAndProps f.Tag).2 with
    | none => rw [hfl, applyCustomProps_none] at happ; cases happ; exact ⟨rfl, rfl⟩
    | some fl =>
      rw [hfl] at happ
      exact ⟨(applyCustomProps_ok _ _ _ _ happ).1, (applyCustomProps_ok _ _ _ _ happ).2.1⟩
  rw [hsame.1, hsame.2]
  cases hg : getUnderlyingType f.Type_ with
  | error e => rw [generateMappingRecur] at hinner; simp [hg, bind, Except.bind] at hinner
  | ok g =>
    by_cases hk : g.Kind = .Struct
    · right
      cases n with
      | zero => rw [generateMappingRecur_struct_zero _ g _ hg hk] at hinner; cases hinner
      | succ k =>
        obtain ⟨fs, props, hfs, hp, rfl⟩ :=
          generateMappingRecur_struct_ok k _ g _ inner hg hk hinner
        refine ⟨rfl, g, fs, props, rfl, hk, hfs, rfl, loop_nodup _ fs [] props hp (by simp), ?_⟩
        intro key
        rw [← mapLookup_isSome_iff, loop_keys _ _ _ _ _ hp]
        simp [mapLookup]
    · left
      obtain ⟨ty, rfl, hty⟩ := generateMappingRecur_leaf n _ g _ inner hg hk hinner
      exact ⟨rfl, g, ty, rfl, hk, rfl, hty⟩

/-- C14 (counterexample): the field Labels of MapFieldStruct has a map type, a kind without
an entry in the default table; its node in the generated tree is a leaf whose Type is the
empty string, which is neither in the vocabulary nor nested. -/
theorem C14_leaf_with_empty_type :
    GenerateMapping 1 MapFieldStruct
      = .ok ⟨none, some [("labels", ⟨some "", none, none, none, none⟩)], none, none, none⟩ ∧
    "" ∉ ["boolean", "byte", "short", "integer", "long", "float", "double", "keyword", "text",
      "date", "ip"] ∧
    "" ≠ "nested" :=
  ⟨rfl, by decide, by decide⟩

/-- C14 (amended): in the Mapping tree returned by a successful GenerateMapping, every node
below the root is the mapping generated for a field and is either a leaf, with no Properties
and a Type in the vocabulary boolean, byte, short, integer, long, float, double, keyword,
text, date, ip or the empty string, for a field whose unwrapped type is not a struct, or a
composite, with Type nested and Properties that have one key per distinct external name of
the extracted fields of the unwrapped type of the field, and not both. -/
theorem C14_node_shape (fuel : Nat) (t : GoType) (root : Mapping)
    (h : GenerateMapping fuel t = .ok root) :
    ∀ x ∈ nodesOfProperties root.Properties,
      ∃ n f, fieldMapping (generateMappingRecur n) f = .ok x ∧
        ((x.Properties = none ∧ ∃ g ty, getUnderlyingType f.Type_ = .ok g ∧
            g.Kind ≠ .Struct ∧ x.Type_ = some ty ∧
            ty ∈ ["boolean", "byte", "short", "integer", "long", "float", "double", "keyword",
              "text", "date", "ip", ""]) ∨
          (x.Type_ = some "nested" ∧ ∃ G fs props, getUnderlyingType f.Type_ = .ok G ∧
            G.Kind = .Struct ∧ extractFields n G [] = .ok fs ∧ x.Properties = some props ∧
            (props.map Prod.fst).Nodup ∧
            ∀ k, k ∈ props.map Prod.fst ↔ ∃ f2 ∈ fs, memberName f2 = k)) ∧
        ¬ (x.Properties = none ∧ x.Type_ = some "nested") := by
  obtain ⟨m, hm, hroot, _⟩ := GenerateMapping_nodes fuel t root h
  intro x hx
  rw [hroot] at hx
  refine generated_descendants
    (fun x => ∃ n f, fieldMapping (generateMappingRecur n) f = .ok x ∧
        ((x.Properties = none ∧ ∃ g ty, getUnderlyingType f.Type_ = .ok g ∧
            g.Kind ≠ .Struct ∧ x.Type_ = some ty ∧
            ty ∈ ["boolean", "byte", "short", "integer", "long", "float", "double", "keyword",
              "text", "date", "ip", ""]) ∨
          (x.Type_ = some "nested" ∧ ∃ G fs props, getUnderlyingType f.Type_ = .ok G ∧
            G.Kind = .Struct ∧ extractFields n G [] = .ok fs ∧ x.Properties = some props ∧
            (props.map Prod.fst).Nodup ∧
            ∀ k, k ∈ props.map Prod.fst ↔ ∃ f2 ∈ fs, memberName f2 = k)) ∧
        ¬ (x.Properties = none ∧ x.Type_ = some "nested"))
    ?_ fuel t "" m hm x hx
  intro n f child hch
  have hs := fieldMapping_shape n f child hch
  refine ⟨n, f, hch, hs, ?_⟩
  rintro ⟨hp, hn⟩
  rcases hs with ⟨_, g, ty, _, _, hty, hmem⟩ | ⟨_, G, fs, props, _, _, _, hprops, _⟩
  · rw [hn] at hty
    cases hty
    revert hmem
    decide
  · rw [hp] at hprops
    cases hprops

theorem C14_node_shape_witness :
    GenerateMapping 2 EventStruct = .ok EventStruct_expected ∧
    ∃ n f G fs props,
      fieldMapping (generateMappingRecur n) f
        = .ok ⟨some "nested", some [
            ("name", ⟨some "keyword", none, none, none, some true⟩),
            ("unique_id", ⟨some "keyword", none, some false, none, none⟩)],
          none, none, none⟩ ∧
      getUnderlyingType f.Type_ = .ok G ∧ extractFields n G [] = .ok fs ∧
      some [("name", (⟨some "keyword", none, none, none, some true⟩ : Mapping)),
        ("unique_id", ⟨some "keyword", none, some false, none, none⟩)] = some props ∧
      (props.map Prod.fst).Nodup := by
  refine ⟨rfl, ?_⟩
  obtain ⟨n, f, hf, hs, _⟩ := C14_node_shape 2 EventStruct EventStruct_expected rfl
    ⟨some "nested", some [
        ("name", ⟨some "keyword", none, none, none, some true⟩),
        ("unique_id", ⟨some "keyword", none, some false, none, none⟩)],
      none, none, none⟩
    (List.mem_cons_of_mem _ (List.mem_cons_self _ _))
  rcases hs with ⟨hp, _⟩ | ⟨_, G, fs, props, hG, _, hfs, hprops, hnd, _⟩
  · cases hp
  · exact ⟨n, f, G, fs, props, hf, hG, hfs, hprops, hnd⟩

theorem generated_date_iff (n : Nat) (t : GoType) (c : String) :
    (∃ inner, generateMappingRecur n t c = .ok inner ∧ generatedESTypeOf inner = "date") ↔
      ∃ g, getUnderlyingType t = .ok g ∧ g.Kind ≠ .Struct ∧ c = "date" := by
  constructor
  · rintro ⟨inner, hinner, hd⟩
    cases hg : getUnderlyingType t with
    | error e => rw [generateMappingRecur] at hinner; simp [hg, bind, Except.bind] at hinner
    | ok g =>
      by_cases hk : g.Kind = .Struct
      · cases n with
        | zero => rw [generateMappingRecur_struct_zero _ g _ hg hk] at hinner; cases hinner
        | succ k =>
          obtain ⟨fs, props, _, _, rfl⟩ :=
            generateMappingRecur_struct_ok k _ g _ inner hg hk hinner
          simp [generatedESTypeOf] at hd
      · refine ⟨g, rfl, hk, ?_⟩
        rw [generateMappingRecur_prim n t g c hg hk] at hinner
        split at hinner
        · split at hinner
          · cases hinner
            exact hd
          · cases hinner
        · cases hinner
          exfalso
          revert hd
          cases g.Kind <;> simp [generatedESTypeOf, defaultElasticTypeMap, esBOOL, esINT,
            esBYTE, esSHORT, esLONG, esFLOAT, esDOUBLE, esKEYWORD]
  · rintro ⟨g, hg, hk, rfl⟩
    exact ⟨⟨some "date", none, none, none, none⟩,
      by rw [generateMappingRecur_prim n t g _ hg hk]; rfl, rfl⟩

/-- C16 (counterexample): the field When of DateBothEpochEager has the override date and a
flag set with epoch_second, epoch_ms and eager_global_ordinals; its resolved type is date,
and the generation aborts with the eager_global_ordinals error instead of succeeding. -/
theorem C16_both_epoch_flags_with_eager_aborts :
    (getESTypeAndProps [("es", "date,epoch_ms,epoch_second,eager_global_ordinals")]).2
      = some ["epoch_ms", "epoch_second", "eager_global_ordinals"] ∧
    generateMappingRecur 0 (.basic .Int64)
      (getESTypeAndProps [("es", "date,epoch_ms,epoch_second,eager_global_ordinals")]).1
      = .ok ⟨some "date", none, none, none, none⟩ ∧
    fieldMapping (generateMappingRecur 0)
      (.mk "When" (.basic .Int64)
        [("es", "date,epoch_ms,epoch_second,eager_global_ordinals")] false)
      = .error .eagerGlobalOrdinals ∧
    GenerateMapping 1 DateBothEpochEager = .error .eagerGlobalOrdinals :=
  ⟨rfl, rfl, rfl, rfl⟩

/-- C16 (amended): for a field whose type resolves to a mapping with the type date and whose
flag set contains both epoch_second and epoch_ms and not eager_global_ordinals, the mapping
of the field is generated, its Type is date, its Format is epoch_second and not
epoch_millis, and it is stored under the name of the field. -/
theorem C16_epoch_second_first (n : Nat) (f : StructField) (flags : List String) (inner : Mapping)
    (hflags : (getESTypeAndProps f.Tag).2 = some flags)
    (hs : "epoch_second" ∈ flags) (_hms : "epoch_ms" ∈ flags)
    (hne : "eager_global_ordinals" ∉ flags)
    (hinner : generateMappingRecur n f.Type_ (getESTypeAndProps f.Tag).1 = .ok inner)
    (hd : generatedESTypeOf inner = "date") :
    ∃ child, fieldMapping (generateMappingRecur n) f = .ok child ∧
      child.Type_ = some "date" ∧ child.Format = some "epoch_second" ∧
      child.Format ≠ some "epoch_millis" ∧
      ∀ props, fieldStep (generateMappingRecur n) props f
        = .ok (mapInsert props (memberName f) child) := by
  have hfm := fieldMapping_flags (generateMappingRecur n) f flags inner hflags hinner
  rw [applyCustomProps_some, if_pos hs, if_neg (not_not.2 hd)] at hfm
  simp only [Except.bind, if_neg hne] at hfm
  exact ⟨_, hfm, generatedESTypeOf_eq _ _ (by decide) hd, rfl, fun hh => by simp at hh,
    fun props => (fieldStep_ok _ _ _ _).2 ⟨_, hfm, rfl⟩⟩

theorem C16_epoch_second_first_witness :
    ∃ child, fieldMapping (generateMappingRecur 0)
        (.mk "When" (.ptr (.basic .Int64)) [("es", "date,epoch_ms,epoch_second")] false)
        = .ok child ∧
      child.Type_ = some "date" ∧ child.Format = some "epoch_second" ∧
      child.Format ≠ some "epoch_millis" ∧
      ∀ props, fieldStep (generateMappingRecur 0) props
        (.mk "When" (.ptr (.basic .Int64)) [("es", "date,epoch_ms,epoch_second")] false)
        = .ok (mapInsert props (memberName
          (.mk "When" (.ptr (.basic .Int64)) [("es", "date,epoch_ms,epoch_second")] false))
          child) :=
  C16_epoch_second_first 0
    (.mk "When" (.ptr (.basic .Int64)) [("es", "date,epoch_ms,epoch_second")] false)
    ["epoch_ms", "epoch_second"] ⟨some "date", none, none, none, none⟩ rfl (by decide)
    (by decide) (by decide) rfl rfl

/-- C17 (counterexample): the fields A and B of SameNameInvalid have the external name x,
and the generation fails: the override geo_point of A is not a valid type. -/
theorem C17_same_name_generation_fails :
    memberName (.mk "A" (.basic .String) [("json", "x"), ("es", "geo_point")] false)
      = memberName (.mk "B" (.basic .Int) [("json", "x")] false) ∧
    extractFields 1 SameNameInvalid [] = .ok SameNameInvalid.fieldList ∧
    GenerateMapping 1 SameNameInvalid = .error (.invalidESType "geo_point") :=
  ⟨rfl, rfl, rfl⟩

/-- C17 (amended): for a composite type, whether or not some of its extracted fields share
an external name, the generation returns a mapping exactly when the mapping of each extracted
field is generated; the mapping returned is a nested node whose Properties have no key twice,
have the external names of the extracted fields as keys, and hold under the external name of
a field the mapping generated for the last extracted field with that name. -/
theorem C17_last_write_wins (n : Nat) (T G : GoType) (c : String) (fs : List StructField)
    (hT : getUnderlyingType T = .ok G) (hG : G.Kind = .Struct)
    (hfs : extractFields (n + 1) G [] = .ok fs) :
    ((∃ m, generateMappingRecur (n + 1) T c = .ok m) ↔
      ∀ f ∈ fs, ∃ child, fieldMapping (generateMappingRecur n) f = .ok child) ∧
    ∀ m, generateMappingRecur (n + 1) T c = .ok m →
      ∃ props, m = ⟨some "nested", some props, none, none, none⟩ ∧
        (props.map Prod.fst).Nodup ∧
        (∀ k, k ∈ props.map Prod.fst ↔ ∃ f ∈ fs, memberName f = k) ∧
        ∀ pre f post, fs = pre ++ f :: post →
          (∀ f2 ∈ post, memberName f2 ≠ memberName f) →
          ∃ child, fieldMapping (generateMappingRecur n) f = .ok child ∧
            mapLookup props (memberName f) = some child := by
  have hdet : ∀ m, generateMappingRecur (n + 1) T c = .ok m →
      ∃ props, List.foldlM (fieldStep (generateMappingRecur n)) [] fs = .ok props ∧
        m = ⟨some "nested", some props, none, none, none⟩ := by
    intro m hm
    obtain ⟨fs2, props, hfs2, hp, rfl⟩ := generateMappingRecur_struct_ok n T G c m hT hG hm
    rw [hfs] at hfs2
    cases hfs2
    exact ⟨props, hp, rfl⟩
  refine ⟨⟨?_, ?_⟩, ?_⟩
  · rintro ⟨m, hm⟩ f hf
    obtain ⟨props, hp, _⟩ := hdet m hm
    exact loop_mem_ok _ fs [] props f hp hf
  · intro hall
    obtain ⟨props, hp⟩ := loop_succeeds (generateMappingRecur n) fs [] hall
    refine ⟨⟨some "nested", some props, none, none, none⟩, ?_⟩
    rw [generateMappingRecur_struct n T G c hT hG, hfs]
    simp only [hp]
  · intro m hm
    obtain ⟨props, hp, rfl⟩ := hdet m hm
    refine ⟨props, rfl, loop_nodup _ fs [] props hp (by simp), ?_, ?_⟩
    · intro k
      rw [← mapLookup_isSome_iff, loop_keys _ _ _ _ _ hp]
      simp [mapLookup]
    · intro pre f post hdec hpost
      subst hdec
      exact loop_last _ pre post f [] props hp hpost

theorem C17_last_write_wins_witness :
    memberName (.mk "Inner" MyInnerStruct [("json", "x")] false)
      = memberName (.mk "Foo" (.basic .Int) [("json", "x")] false) ∧
    generateMappingRecur 2 SameNameStruct ""
      = .ok ⟨some "nested", some [("x", ⟨some "integer", none, none, none, none⟩)],
          none, none, none⟩ ∧
    ∃ props child,
      (⟨some "nested", some [("x", ⟨some "integer", none, none, none, none⟩)],
          none, none, none⟩ : Mapping) = ⟨some "nested", some props, none, none, none⟩ ∧
      (props.map Prod.fst).Nodup ∧
      fieldMapping (generateMappingRecur 1) (.mk "Foo" (.basic .Int) [("json", "x")] false)
        = .ok child ∧
      mapLookup props "x" = some child := by
  refine ⟨rfl, rfl, ?_⟩
  obtain ⟨props, hm, hnd, _, hlast⟩ :=
    (C17_last_write_wins 1 SameNameStruct SameNameStruct "" SameNameStruct.fieldList
      rfl rfl rfl).2 _ rfl
  obtain ⟨child, hchild, hlook⟩ := hlast
    [.mk "Inner" MyInnerStruct [("json", "x")] false]
    (.mk "Foo" (.basic .Int) [("json", "x")] false) [] rfl (by intro f2 hf2; simp at hf2)
  exact ⟨props, child, hm, hnd, hchild, hlook⟩

theorem generateMappingRecur_struct_nested (n : Nat) (t G : GoType) (c : String) (m : Mapping)
    (hG : getUnderlyingType t = .ok G) (hk : G.Kind = .Struct)
    (h : generateMappingRecur n t c = .ok m) :
    ∃ props, m = ⟨some "nested", some props, none, none, none⟩ := by
  cases n with
  | zero => rw [generateMappingRecur_struct_zero t G c hG hk] at h; cases h
  | succ k =>
    obtain ⟨fs, props, _, _, rfl⟩ := generateMappingRecur_struct_ok k t G c m hG hk h
    exact ⟨props, rfl⟩

theorem fieldMapping_enough_fuel (n : Nat) (f : StructField) (h : f.Type_.depth ≤ n) :
    fieldMapping (generateMappingRecur n) f ≠ .error .outOfFuel := by
  intro hfm
  rw [fieldMapping_eq] at hfm
  cases hin : generateMappingRecur n f.Type_ (getESTypeAndProps f.Tag).1 with
  | error e =>
    rw [hin] at hfm
    simp only [Except.bind, Except.error.injEq] at hfm
    subst hfm
    exact generateMappingRecur_enough_fuel n _ _ h hin
  | ok inner =>
    rw [hin] at hfm
    exact applyCustomProps_ne_outOfFuel _ _ _ hfm

/-- C19: for a field whose unwrapped type is a struct, the result of generating its type is
the same for every two override strings, a result that is a mapping has Type nested and
Properties, and when the flag set of the field contains epoch_second, epoch_ms or
eager_global_ordinals the mapping of the field is an error whatever the override: the
invalid-format error or the eager_global_ordinals error when its type was generated, and
never the exhaustion of the fuel when the fuel is at least the depth of its type. -/
theorem C19_struct_field_override_ignored (n : Nat) (f : StructField) (G : GoType)
    (hG : getUnderlyingType f.Type_ = .ok G) (hk : G.Kind = .Struct) :
    (∀ c1 c2, generateMappingRecur n f.Type_ c1 = generateMappingRecur n f.Type_ c2) ∧
    (∀ c m, generateMappingRecur n f.Type_ c = .ok m →
      m.Type_ = some "nested" ∧ ∃ props, m.Properties = some props) ∧
    (∀ flags, (getESTypeAndProps f.Tag).2 = some flags →
      ("epoch_second" ∈ flags ∨ "epoch_ms" ∈ flags ∨ "eager_global_ordinals" ∈ flags) →
      (∃ e, fieldMapping (generateMappingRecur n) f = .error e) ∧
      (f.Type_.depth ≤ n → fieldMapping (generateMappingRecur n) f ≠ .error .outOfFuel) ∧
      (∀ inner, generateMappingRecur n f.Type_ "" = .ok inner →
        fieldMapping (generateMappingRecur n) f = .error .eagerGlobalOrdinals ∨
        ∃ fmt, fieldMapping (generateMappingRecur n) f
          = .error (.invalidFormat fmt (getESTypeAndProps f.Tag).1))) := by
  have hcong : ∀ c1 c2,
      generateMappingRecur n f.Type_ c1 = generateMappingRecur n f.Type_ c2 := by
    intro c1 c2
    rw [generateMappingRecur_struct_congr n f.Type_ G c1 "" hG hk,
      generateMappingRecur_struct_congr n f.Type_ G c2 "" hG hk]
  refine ⟨hcong, ?_, ?_⟩
  · intro c m hm
    obtain ⟨props, rfl⟩ := generateMappingRecur_struct_nested n _ G c m hG hk hm
    exact ⟨rfl, props, rfl⟩
  · intro flags hflags hany
    have key : ∀ inner, generateMappingRecur n f.Type_ "" = .ok inner →
        fieldMapping (generateMappingRecur n) f = .error .eagerGlobalOrdinals ∨
        ∃ fmt, fieldMapping (generateMappingRecur n) f
          = .error (.invalidFormat fmt (getESTypeAndProps f.Tag).1) := by
      intro inner hinner
      obtain ⟨props, rfl⟩ := generateMappingRecur_struct_nested n _ G "" _ hG hk hinner
      rw [hcong "" (getESTypeAndProps f.Tag).1] at hinner
      have hfm := fieldMapping_flags (generateMappingRecur n) f flags _ hflags hinner
      rw [applyCustomProps_some] at hfm
      have hgen : generatedESTypeOf ⟨some "nested", some props, none, none, none⟩
          = "nested" := rfl
      have hnd : generatedESTypeOf ⟨some "nested", some props, none, none, none⟩ ≠ "date" := by
        rw [hgen]; decide
      have hbad : generatedESTypeOf ⟨some "nested", some props, none, none, none⟩ ≠ "keyword" ∧
          generatedESTypeOf ⟨some "nested", some props, none, none, none⟩ ≠ "text" := by
        rw [hgen]; decide
      by_cases hs : "epoch_second" ∈ flags
      · rw [if_pos hs, if_pos hnd] at hfm
        exact Or.inr ⟨_, hfm⟩
      · by_cases hms : "epoch_ms" ∈ flags
        · rw [if_neg hs, if_pos hms, if_pos hnd] at hfm
          exact Or.inr ⟨_, hfm⟩
        · have hego : "eager_global_ordinals" ∈ flags := by
            rcases hany with h | h | h
            · exact absurd h hs
            · exact absurd h hms
            · exact h
          rw [if_neg hs, if_neg hms] at hfm
          simp only [Except.bind, if_pos hego, if_pos hbad] at hfm
          exact Or.inl hfm
    refine ⟨?_, fieldMapping_enough_fuel n f, key⟩
    cases hinner : generateMappingRecur n f.Type_ "" with
    | error e =>
      rw [hcong "" (getESTypeAndProps f.Tag).1] at hinner
      exact ⟨e, by rw [fieldMapping_eq, hinner]; rfl⟩
    | ok inner =>
      rcases key inner hinner with h | ⟨fmt, h⟩
      · exact ⟨_, h⟩
      · exact ⟨_, h⟩

theorem C19_struct_field_override_ignored_witness :
    generateMappingRecur 1 MyInnerStruct "geo_point" = generateMappingRecur 1 MyInnerStruct "" ∧
    generateMappingRecur 1 MyInnerStruct "geo_point"
      = .ok ⟨some "nested", some [("bar", ⟨some "text", none, none, none, none⟩)],
          none, none, none⟩ ∧
    (∃ e, fieldMapping (generateMappingRecur 1)
      (.mk "Inner" MyInnerStruct [("json", "inner"), ("es", "date,epoch_second")] false)
      = .error e) ∧
    GenerateMapping 2 NestedWithDateFlag = .error (.invalidFormat "epoch_second" "date") :=
  have hw := C19_struct_field_override_ignored 1
    (.mk "Inner" MyInnerStruct [("json", "inner"), ("es", "date,epoch_second")] false)
    MyInnerStruct rfl rfl
  ⟨hw.1 "geo_point" "", rfl, (hw.2.2 ["epoch_second"] rfl (Or.inl (by decide))).1, rfl⟩

theorem baseTypeSpec_kind : ∀ (t : GoType),
    (baseTypeSpec t).Kind ≠ .Ptr ∧ (baseTypeSpec t).Kind ≠ .Array ∧
      (baseTypeSpec t).Kind ≠ .Slice
  | .array _ e => by rw [baseTypeSpec]; exact baseTypeSpec_kind e
  | .slice e => by rw [baseTypeSpec]; exact baseTypeSpec_kind e
  | .ptr e => by rw [baseTypeSpec]; exact baseTypeSpec_kind e
  | .struct n fs => by simp [baseTypeSpec, GoType.Kind]
  | .basic k => by cases k <;> simp [baseTypeSpec, GoType.Kind, BasicKind.toKind]

theorem getUnderlyingType_eq_baseTypeSpec : ∀ (t : GoType),
    getUnderlyingType t =
      if (baseTypeSpec t).Kind = .UnsafePointer then .error .reflectElem
      else .ok (baseTypeSpec t)
  | .array _ e => by rw [getUnderlyingType, baseTypeSpec]; exact getUnderlyingType_eq_baseTypeSpec e
  | .slice e => by rw [getUnderlyingType, baseTypeSpec]; exact getUnderlyingType_eq_baseTypeSpec e
  | .ptr e => by rw [getUnderlyingType, baseTypeSpec]; exact getUnderlyingType_eq_baseTypeSpec e
  | .struct n fs => by simp [getUnderlyingType, baseTypeSpec, GoType.Kind]
  | .basic k => by cases k <;> simp [getUnderlyingType, baseTypeSpec, GoType.Kind, BasicKind.toKind]

theorem getUnderlyingType_ok_baseTypeSpec (t g : GoType) (h : getUnderlyingType t = .ok g) :
    g = baseTypeSpec t := by
  rw [getUnderlyingType_eq_baseTypeSpec] at h
  split at h
  · cases h
  · cases h; rfl

/-- What holds of `getUnderlyingType` and `isPrimitiveGoType` on the types whose base type is
not of kind UnsafePointer: the unwrapping returns the base type, whose kind is not pointer,
array or slice, unwrapping the result returns it again, and the type is primitive exactly
when the kind of the base type is not struct. -/
theorem getUnderlyingType_unwraps (t : GoType)
    (h : (baseTypeSpec t).Kind ≠ .UnsafePointer) :
    getUnderlyingType t = .ok (baseTypeSpec t) ∧
    (baseTypeSpec t).Kind ≠ .Ptr ∧ (baseTypeSpec t).Kind ≠ .Array ∧
    (baseTypeSpec t).Kind ≠ .Slice ∧
    getUnderlyingType (baseTypeSpec t) = .ok (baseTypeSpec t) ∧
    (∃ b, isPrimitiveGoType t = .ok b) ∧
    (isPrimitiveGoType t = .ok true ↔ (baseTypeSpec t).Kind ≠ .Struct) := by
  have h1 : getUnderlyingType t = .ok (baseTypeSpec t) := by
    rw [getUnderlyingType_eq_baseTypeSpec, if_neg h]
  obtain ⟨k1, k2, k3⟩ := baseTypeSpec_kind t
  have h2 : isPrimitiveGoType t = .ok ((baseTypeSpec t).Kind != .Struct) := by
    simp [isPrimitiveGoType, h1, bind, Except.bind, pure, Except.pure]
  refine ⟨h1, k1, k2, k3, getUnderlyingType_idem _ _ h1, ⟨_, h2⟩, ?_⟩
  rw [h2]
  simp

/-- C20 (the code at the failing input): on the type unsafe.Pointer, bare or under a pointer
or slice layer, getUnderlyingType does not return the base type: it calls Elem on a type
without element type, which panics, and so do isPrimitiveGoType and the generation. -/
theorem C20_unsafe_pointer_not_unwrapped :
    baseTypeSpec (.ptr (.slice (.basic .UnsafePointer))) = .basic .UnsafePointer ∧
    getUnderlyingType (.basic .UnsafePointer) = .error .reflectElem ∧
    getUnderlyingType (.ptr (.slice (.basic .UnsafePointer))) = .error .reflectElem ∧
    isPrimitiveGoType (.basic .UnsafePointer) = .error .reflectElem ∧
    GenerateMapping 0 (.basic .UnsafePointer) = .error .reflectElem :=
  ⟨rfl, rfl, rfl, rfl, rfl⟩

theorem flattenSpec_baseTypeSpec : ∀ (t : GoType), flattenSpec (baseTypeSpec t) = flattenSpec t
  | .array _ e => by rw [baseTypeSpec, flattenSpec]; exact flattenSpec_baseTypeSpec e
  | .slice e => by rw [baseTypeSpec, flattenSpec]; exact flattenSpec_baseTypeSpec e
  | .ptr e => by rw [baseTypeSpec, flattenSpec]; exact flattenSpec_baseTypeSpec e
  | .struct n fs => by simp [baseTypeSpec]
  | .basic k => by simp [baseTypeSpec]

theorem flattenSpec_not_struct (g : GoType) (hk : g.Kind ≠ .Struct)
    (hb : baseTypeSpec g = g) : flattenSpec g = [] := by
  cases g with
  | basic k => rw [flattenSpec]
  | struct n fs => exact absurd rfl hk
  | array l e =>
    have := (baseTypeSpec_kind (.array l e)).2.1
    rw [hb] at this
    exact absurd rfl this
  | slice e =>
    have := (baseTypeSpec_kind (.slice e)).2.2
    rw [hb] at this
    exact absurd rfl this
  | ptr e =>
    have := (baseTypeSpec_kind (.ptr e)).1
    rw [hb] at this
    exact absurd rfl this

theorem baseTypeSpec_idem (t : GoType) : baseTypeSpec (baseTypeSpec t) = baseTypeSpec t := by
  obtain ⟨k1, k2, k3⟩ := baseTypeSpec_kind t
  cases hb : baseTypeSpec t with
  | basic k => rfl
  | struct n fs => rfl
  | array l e => rw [hb] at k2; exact absurd rfl k2
  | slice e => rw [hb] at k3; exact absurd rfl k3
  | ptr e => rw [hb] at k1; exact absurd rfl k1

theorem flattenSpec_of_fieldList (g : GoType) (hk : g.Kind = .Struct) :
    flattenSpec g = flattenFieldsSpec g.fieldList := by
  cases g with
  | struct n fs => rw [flattenSpec, GoType.fieldList]
  | basic k => cases k <;> simp [GoType.Kind, BasicKind.toKind] at hk
  | array l e => simp [GoType.Kind] at hk
  | slice e => simp [GoType.Kind] at hk
  | ptr e => simp [GoType.Kind] at hk

theorem flattenFieldsSpec_cons (x : StructField) (rest : List StructField) :
    flattenFieldsSpec (x :: rest) =
      (if x.Anonymous = true ∧ (baseTypeSpec x.Type_).Kind = .Struct then flattenSpec x.Type_
        else [x]) ++ flattenFieldsSpec rest := by
  obtain ⟨nm, ty, tg, an⟩ := x
  rw [flattenFieldsSpec]
  rfl

theorem foldlM_extractStep_flatten (fuel : Nat)
    (ih : ∀ n, fuel = n + 1 → ∀ (t : GoType) (acc r : List StructField),
      extractFields n t acc = .ok r → r = acc ++ flattenSpec t) :
    ∀ (xs : List StructField) (acc r : List StructField),
      List.foldlM (extractStep fuel) acc xs = .ok r → r = acc ++ flattenFieldsSpec xs := by
  intro xs
  induction xs with
  | nil =>
    intro acc r h
    simp only [List.foldlM_nil, pure, Except.pure, Except.ok.injEq] at h
    rw [← h, flattenFieldsSpec, List.append_nil]
  | cons x xs ihx =>
    intro acc r h
    rw [foldlM_ok_cons] at h
    obtain ⟨b, hb, hr⟩ := h
    rw [ihx b r hr, flattenFieldsSpec_cons, ← List.append_assoc]
    congr 1
    simp only [extractStep] at hb
    cases hty : getUnderlyingType x.Type_ with
    | error e => rw [hty] at hb; cases hb
    | ok ty =>
      rw [hty] at hb
      have hbase := getUnderlyingType_ok_baseTypeSpec _ _ hty
      simp only at hb
      split at hb
      · rename_i hc
        rw [if_pos ⟨hc.2, by rw [← hbase]; exact hc.1⟩]
        cases fuel with
        | zero => cases hb
        | succ n =>
          rw [ih n rfl ty acc b hb, hbase, flattenSpec_baseTypeSpec]
      · rename_i hc
        rw [if_neg (fun hh => hc ⟨by rw [hbase]; exact hh.2, hh.1⟩)]
        simp only [Except.ok.injEq] at hb
        exact hb.symm

/-- What `extractFields` returns is the destination followed by the extracted fields of the
type in the words of the specification. -/
theorem extractFields_eq_flattenSpec : ∀ (fuel : Nat) (t : GoType) (acc r : List StructField),
    extractFields fuel t acc = .ok r → r = acc ++ flattenSpec t := by
  intro fuel
  induction fuel using Nat.strong_induction_on with
  | _ fuel ih =>
    intro t acc r h
    rw [extractFields_eq] at h
    cases hg : getUnderlyingType t with
    | error e => rw [hg] at h; cases h
    | ok g =>
      rw [hg] at h
      have hbase := getUnderlyingType_ok_baseTypeSpec _ _ hg
      simp only at h
      rw [← flattenSpec_baseTypeSpec t, ← hbase]
      by_cases hk : g.Kind = .Struct
      · simp only [hk, ne_eq, not_true_eq_false, if_false] at h
        rw [flattenSpec_of_fieldList g hk]
        refine foldlM_extractStep_flatten fuel ?_ _ _ _ h
        intro n hn
        exact ih n (by omega)
      · simp only [ne_eq, hk, not_false_eq_true, if_true, Except.ok.injEq] at h
        rw [flattenSpec_not_struct g hk (by rw [hbase, baseTypeSpec_idem]), List.append_nil]
        exact h.symm

theorem foldlM_error_source {ε α β : Type} (f : β → α → Except ε β) (e : ε) :
    ∀ (xs : List α) (a : β), List.foldlM f a xs = .error e →
      ∃ b, ∃ x ∈ xs, f b x = .error e := by
  intro xs
  induction xs with
  | nil => intro a h; simp [pure, Except.pure] at h
  | cons x xs ih =>
    intro a h
    simp only [List.foldlM_cons, bind, Except.bind] at h
    cases hx : f a x with
    | error e2 =>
      rw [hx] at h
      simp only [Except.error.injEq] at h
      subst h
      exact ⟨a, x, List.mem_cons_self _ _, hx⟩
    | ok b =>
      rw [hx] at h
      obtain ⟨b2, y, hy, hf⟩ := ih b h
      exact ⟨b2, y, List.mem_cons_of_mem _ hy, hf⟩

theorem extractFields_error_kind : ∀ (fuel : Nat) (t : GoType) (acc : List StructField)
    (e : GenError), extractFields fuel t acc = .error e → e = .outOfFuel ∨ e = .reflectElem := by
  intro fuel
  induction fuel using Nat.strong_induction_on with
  | _ fuel ih =>
    intro t acc e h
    rw [extractFields_eq] at h
    cases hg : getUnderlyingType t with
    | error e2 =>
      rw [hg] at h
      simp only [Except.error.injEq] at h
      subst h
      exact Or.inr (getUnderlyingType_error _ _ hg)
    | ok g =>
      rw [hg] at h
      simp only at h
      by_cases hk : g.Kind = .Struct
      · simp only [hk, ne_eq, not_true_eq_false, if_false] at h
        obtain ⟨b, x, _, hx⟩ := foldlM_error_source _ _ _ _ h
        simp only [extractStep] at hx
        cases hty : getUnderlyingType x.Type_ with
        | error e2 =>
          rw [hty] at hx
          simp only [Except.error.injEq] at hx
          subst hx
          exact Or.inr (getUnderlyingType_error _ _ hty)
        | ok ty =>
          rw [hty] at hx
          simp only at hx
          split at hx
          · cases fuel with
            | zero =>
              simp only [Except.error.injEq] at hx
              exact Or.inl hx.symm
            | succ n => exact ih n (Nat.lt_succ_self n) ty b e hx
          · cases hx
      · simp [hk] at h

/-- With fuel for the depth of the type, `extractFields` returns the destination followed by
the extracted fields of the specification, unless an unwrapping panics in reflect. -/
theorem extractFields_total (fuel : Nat) (t : GoType) (acc : List StructField)
    (h : t.depth ≤ fuel) :
    extractFields fuel t acc = .ok (acc ++ flattenSpec t) ∨
      extractFields fuel t acc = .error .reflectElem := by
  cases hr : extractFields fuel t acc with
  | ok r => exact Or.inl (by rw [extractFields_eq_flattenSpec fuel t acc r hr])
  | error e =>
    rcases extractFields_error_kind fuel t acc e hr with he | he
    · rw [he] at hr
      exact absurd hr (extractFields_enough_fuel fuel t acc h)
    · rw [he]
      exact Or.inr rfl

/-- C15 (the code at the failing input): for UnsafeFieldStruct, whose second field has the
type unsafe.Pointer, the extracted fields of the specification are the two declared fields,
but extractFields panics in the unwrapping of the type of the second field and appends
nothing, and so does the generation; without that field the two agree. -/
theorem C15_unsafe_pointer_field_panics :
    flattenSpec UnsafeFieldStruct
      = [.mk "ID" (.basic .Int64) [("json", "id")] false,
         .mk "Raw" (.basic .UnsafePointer) [("json", "raw")] false] ∧
    extractFields 1 UnsafeFieldStruct [] = .error .reflectElem ∧
    GenerateMapping 1 UnsafeFieldStruct = .error .reflectElem ∧
    extractFields 1 OuterStruct [] = .ok (flattenSpec OuterStruct) :=
  ⟨rfl, rfl, rfl, rfl⟩

theorem fieldLoopOut_spec
    (recOut : GoType → String → List String → List String × Except GenError Mapping)
    (rec : GoType → String → Except GenError Mapping)
    (hrec : ∀ t c out, recOut t c out = (out ++ (recOut t c []).1, rec t c)) :
    ∀ (fs : List StructField), ∃ w, ∀ props out,
      fieldLoopOut recOut fs props out = (out ++ w, List.foldlM (fieldStep rec) props fs) := by
  intro fs
  induction fs with
  | nil => exact ⟨[], fun props out => by simp [fieldLoopOut, pure, Except.pure]⟩
  | cons f rest ih =>
    obtain ⟨w2, hw2⟩ := ih
    cases hr : rec f.Type_ (getESTypeAndProps f.Tag).1 with
    | error e =>
      refine ⟨printedForField f :: (recOut f.Type_ (getESTypeAndProps f.Tag).1 []).1, ?_⟩
      intro props out
      have hfm : fieldMapping rec f = .error e := by rw [fieldMapping_eq, hr]; rfl
      simp only [fieldLoopOut, List.foldlM_cons, bind, Except.bind,
        fieldStep_error rec props f e hfm]
      rw [hrec, hr]
      simp
    | ok inner =>
      cases ha : applyCustomProps inner (getESTypeAndProps f.Tag).1
          (getESTypeAndProps f.Tag).2 with
      | error e =>
        refine ⟨printedForField f :: (recOut f.Type_ (getESTypeAndProps f.Tag).1 []).1, ?_⟩
        intro props out
        have hfm : fieldMapping rec f = .error e := by
          rw [fieldMapping_eq, hr]; exact ha
        simp only [fieldLoopOut, List.foldlM_cons, bind, Except.bind,
          fieldStep_error rec props f e hfm]
        rw [hrec, hr]
        simp [ha]
      | ok child =>
        refine ⟨printedForField f :: (recOut f.Type_ (getESTypeAndProps f.Tag).1 []).1 ++ w2,
          ?_⟩
        intro props out
        have hfm : fieldMapping rec f = .ok child := by
          rw [fieldMapping_eq, hr]; exact ha
        have hst : fieldStep rec props f = .ok (mapInsert props (memberName f) child) :=
          (fieldStep_ok _ _ _ _).2 ⟨child, hfm, rfl⟩
        simp only [fieldLoopOut, List.foldlM_cons, bind, Except.bind, hst]
        rw [hrec, hr]
        simp only [ha, hw2]
        simp

theorem fieldLoopOut_ok
    (recOut : GoType → String → List String → List String × Except GenError Mapping)
    (rec : GoType → String → Except GenError Mapping)
    (hrec : ∀ t c out, recOut t c out = (out ++ (recOut t c []).1, rec t c)) :
    ∀ (fs : List StructField) (props p : List (String × Mapping)) (out : List String),
      List.foldlM (fieldStep rec) props fs = .ok p →
      fieldLoopOut recOut fs props out
        = (out ++ fs.flatMap (fun f =>
            printedForField f :: (recOut f.Type_ (getESTypeAndProps f.Tag).1 []).1), .ok p) := by
  intro fs
  induction fs with
  | nil =>
    intro props p out h
    simp only [List.foldlM_nil, pure, Except.pure, Except.ok.injEq] at h
    simp [fieldLoopOut, h]
  | cons f rest ih =>
    intro props p out h
    rw [foldlM_ok_cons] at h
    obtain ⟨b, hb, hrest⟩ := h
    obtain ⟨child, hfm, rfl⟩ := (fieldStep_ok _ _ _ _).1 hb
    obtain ⟨inner, hinner, happ⟩ := fieldMapping_ok _ f child hfm
    simp only [fieldLoopOut]
    rw [hrec, hinner]
    simp only [happ]
    rw [ih _ _ _ hrest]
    simp

theorem generateMappingRecurOut_spec : ∀ (fuel : Nat) (t : GoType) (c : String)
    (out : List String),
    generateMappingRecurOut fuel t c out
      = (out ++ (generateMappingRecurOut fuel t c []).1, generateMappingRecur fuel t c) := by
  intro fuel
  induction fuel with
  | zero =>
    intro t c out
    cases hg : getUnderlyingType t with
    | error e =>
      rw [generateMappingRecur]
      simp [generateMappingRecurOut, hg, bind, Except.bind]
    | ok g =>
      by_cases hk : g.Kind = .Struct
      · have hb : (g.Kind != Kind.Struct) = false := by simp [hk]
        rw [generateMappingRecur_struct_zero t g c hg hk]
        simp [generateMappingRecurOut, hg, isPrimitiveGoType_of_underlying t g hg, hb]
      · have hb : (g.Kind != Kind.Struct) = true := by simpa using hk
        rw [generateMappingRecur_prim 0 t g c hg hk]
        simp only [generateMappingRecurOut, hg, isPrimitiveGoType_of_underlying t g hg, hb]
        by_cases hc : c.length > 0 <;> by_cases hp : isPrimitiveESType c = true <;>
          simp [hc, hp, Mapping.zero]
  | succ n ih =>
    intro t c out
    cases hg : getUnderlyingType t with
    | error e =>
      rw [generateMappingRecur]
      simp [generateMappingRecurOut, hg, bind, Except.bind]
    | ok g =>
      by_cases hk : g.Kind = .Struct
      · have hb : (g.Kind != Kind.Struct) = false := by simp [hk]
        rw [generateMappingRecur_struct n t g c hg hk]
        simp only [generateMappingRecurOut, hg, isPrimitiveGoType_of_underlying t g hg, hb]
        cases hfs : extractFields (n + 1) g [] with
        | error e => simp
        | ok fs =>
          obtain ⟨w, hw⟩ := fieldLoopOut_spec (generateMappingRecurOut n)
            (generateMappingRecur n) ih fs
          simp only [hw]
          cases List.foldlM (fieldStep (generateMappingRecur n)) [] fs with
          | error e => simp
          | ok props => simp [Mapping.zero]
      · have hb : (g.Kind != Kind.Struct) = true := by simpa using hk
        rw [generateMappingRecur_prim _ t g c hg hk]
        simp only [generateMappingRecurOut, hg, isPrimitiveGoType_of_underlying t g hg, hb]
        by_cases hc : c.length > 0 <;> by_cases hp : isPrimitiveESType c = true <;>
          simp [hc, hp, Mapping.zero]

theorem generateMappingRecurOut_struct (n : Nat) (t g : GoType) (c : String)
    (out : List String) (fs : List StructField)
    (hg : getUnderlyingType t = .ok g) (hk : g.Kind = .Struct)
    (hfs : extractFields (n + 1) g [] = .ok fs) :
    generateMappingRecurOut (n + 1) t c out =
      match fieldLoopOut (generateMappingRecurOut n) fs [] out with
      | (out2, .error e) => (out2, .error e)
      | (out2, .ok props) => (out2, .ok ⟨some "nested", some props, none, none, none⟩) := by
  have hb : (g.Kind != Kind.Struct) = false := by simp [hk]
  rw [generateMappingRecurOut]
  simp only [hg, isPrimitiveGoType_of_underlying t g hg, hb, hfs]
  rfl

theorem GenerateMappingOut_spec (fuel : Nat) (t : GoType) (out : List String) :
    GenerateMappingOut fuel t out
      = (out ++ (generateMappingRecurOut fuel t "" []).1, GenerateMapping fuel t) := by
  simp only [GenerateMappingOut, GenerateMapping, bind, Except.bind]
  rw [generateMappingRecurOut_spec]
  cases generateMappingRecur fuel t "" with
  | error e => rfl
  | ok m => rfl

theorem fieldLoopOut_written
    (recOut : GoType → String → List String → List String × Except GenError Mapping)
    (rec : GoType → String → Except GenError Mapping) (w : GoType → List String)
    (hrec : ∀ t c out, recOut t c out = (out ++ w t, rec t c)) :
    ∀ (fs : List StructField) (props : List (String × Mapping)) (out : List String),
      fieldLoopOut recOut fs props out
        = (out ++ writtenFieldsSpec w rec fs, List.foldlM (fieldStep rec) props fs) := by
  intro fs
  induction fs with
  | nil => intro props out; simp [fieldLoopOut, writtenFieldsSpec, pure, Except.pure]
  | cons f rest ih =>
    intro props out
    cases hr : rec f.Type_ (getESTypeAndProps f.Tag).1 with
    | error e =>
      have hfm : fieldMapping rec f = .error e := by rw [fieldMapping_eq, hr]; rfl
      simp only [fieldLoopOut, writtenFieldsSpec, List.foldlM_cons, bind, Except.bind,
        fieldStep_error rec props f e hfm, hfm]
      rw [hrec, hr]
      simp
    | ok inner =>
      cases ha : applyCustomProps inner (getESTypeAndProps f.Tag).1
          (getESTypeAndProps f.Tag).2 with
      | error e =>
        have hfm : fieldMapping rec f = .error e := by
          rw [fieldMapping_eq, hr]; exact ha
        simp only [fieldLoopOut, writtenFieldsSpec, List.foldlM_cons, bind, Except.bind,
          fieldStep_error rec props f e hfm, hfm]
        rw [hrec, hr]
        simp [ha]
      | ok child =>
        have hfm : fieldMapping rec f = .ok child := by
          rw [fieldMapping_eq, hr]; exact ha
        have hst : fieldStep rec props f = .ok (mapInsert props (memberName f) child) :=
          (fieldStep_ok _ _ _ _).2 ⟨child, hfm, rfl⟩
        simp only [fieldLoopOut, writtenFieldsSpec, List.foldlM_cons, bind, Except.bind, hst,
          hfm]
        rw [hrec, hr]
        simp only [ha, ih]
        simp

theorem generateMappingRecurOut_written : ∀ (fuel : Nat) (t : GoType) (c : String)
    (out : List String),
    generateMappingRecurOut fuel t c out
      = (out ++ writtenSpec fuel t, generateMappingRecur fuel t c) := by
  intro fuel
  induction fuel with
  | zero =>
    intro t c out
    cases hg : getUnderlyingType t with
    | error e =>
      rw [generateMappingRecur]
      simp [generateMappingRecurOut, writtenSpec, hg, bind, Except.bind]
    | ok g =>
      by_cases hk : g.Kind = .Struct
      · have hb : (g.Kind != Kind.Struct) = false := by simp [hk]
        rw [generateMappingRecur_struct_zero t g c hg hk]
        simp [generateMappingRecurOut, writtenSpec, hg, isPrimitiveGoType_of_underlying t g hg,
          hb]
      · have hb : (g.Kind != Kind.Struct) = true := by simpa using hk
        rw [generateMappingRecur_prim 0 t g c hg hk]
        simp only [generateMappingRecurOut, writtenSpec, hg,
          isPrimitiveGoType_of_underlying t g hg, hb]
        by_cases hc : c.length > 0 <;> by_cases hp : isPrimitiveESType c = true <;>
          simp [hc, hp, Mapping.zero]
  | succ n ih =>
    intro t c out
    cases hg : getUnderlyingType t with
    | error e =>
      rw [generateMappingRecur]
      simp [generateMappingRecurOut, writtenSpec, hg, bind, Except.bind]
    | ok g =>
      by_cases hk : g.Kind = .Struct
      · have hb : (g.Kind != Kind.Struct) = false := by simp [hk]
        rw [generateMappingRecur_struct n t g c hg hk]
        simp only [generateMappingRecurOut, writtenSpec, hg,
          isPrimitiveGoType_of_underlying t g hg, hb, hk, if_true]
        cases hfs : extractFields (n + 1) g [] with
        | error e => simp
        | ok fs =>
          simp only [fieldLoopOut_written (generateMappingRecurOut n) (generateMappingRecur n)
            (writtenSpec n) ih fs]
          cases List.foldlM (fieldStep (generateMappingRecur n)) [] fs with
          | error e => simp
          | ok props => simp [Mapping.zero]
      · have hb : (g.Kind != Kind.Struct) = true := by simpa using hk
        rw [generateMappingRecur_prim _ t g c hg hk]
        simp only [generateMappingRecurOut, writtenSpec, hg,
          isPrimitiveGoType_of_underlying t g hg, hb, hk, if_false]
        by_cases hc : c.length > 0 <;> by_cases hp : isPrimitiveESType c = true <;>
          simp [hc, hp, Mapping.zero]

theorem GenerateMappingOut_written (fuel : Nat) (t : GoType) (out : List String) :
    GenerateMappingOut fuel t out = (out ++ writtenSpec fuel t, GenerateMapping fuel t) := by
  simp only [GenerateMappingOut, GenerateMapping, bind, Except.bind]
  rw [generateMappingRecurOut_written]
  cases generateMappingRecur fuel t "" with
  | error e => rfl
  | ok m => rfl

theorem writtenFieldsSpec_congr (w1 w2 : GoType → List String)
    (r1 r2 : GoType → String → Except GenError Mapping) :
    ∀ (fs : List StructField),
      (∀ f ∈ fs, w1 f.Type_ = w2 f.Type_ ∧ fieldMapping r1 f = fieldMapping r2 f) →
      writtenFieldsSpec w1 r1 fs = writtenFieldsSpec w2 r2 fs := by
  intro fs
  induction fs with
  | nil => intro _; rfl
  | cons f rest ih =>
    intro h
    obtain ⟨h1, h2⟩ := h f (List.mem_cons_self _ _)
    simp only [writtenFieldsSpec]
    rw [h1, h2, ih (fun x hx => h x (List.mem_cons_of_mem _ hx))]

theorem writtenFieldsSpec_all_ok (w : GoType → List String)
    (r : GoType → String → Except GenError Mapping) :
    ∀ (fs : List StructField), (∀ f ∈ fs, ∃ c, fieldMapping r f = .ok c) →
      writtenFieldsSpec w r fs = fs.flatMap (fun f => printedForField f :: w f.Type_) := by
  intro fs
  induction fs with
  | nil => intro _; rfl
  | cons f rest ih =>
    intro h
    obtain ⟨c, hc⟩ := h f (List.mem_cons_self _ _)
    simp only [writtenFieldsSpec, hc, List.flatMap_cons]
    rw [ih (fun x hx => h x (List.mem_cons_of_mem _ hx))]

theorem writtenFieldsSpec_first_error (w : GoType → List String)
    (r : GoType → String → Except GenError Mapping) (f : StructField)
    (post : List StructField) (e : GenError) (hf : fieldMapping r f = .error e) :
    ∀ (pre : List StructField), (∀ x ∈ pre, ∃ c, fieldMapping r x = .ok c) →
      writtenFieldsSpec w r (pre ++ f :: post)
        = (pre ++ [f]).flatMap (fun x => printedForField x :: w x.Type_) := by
  intro pre
  induction pre with
  | nil => intro _; simp [writtenFieldsSpec, hf]
  | cons x rest ih =>
    intro h
    obtain ⟨c, hc⟩ := h x (List.mem_cons_self _ _)
    have hih := ih (fun y hy => h y (List.mem_cons_of_mem _ hy))
    simp only [List.cons_append, writtenFieldsSpec, hc, List.flatMap_cons]
    exact congrArg (fun l => printedForField x :: (w x.Type_ ++ l)) hih

theorem loop_first_error (r : GoType → String → Except GenError Mapping) (f : StructField)
    (post : List StructField) (e : GenError) (hf : fieldMapping r f = .error e) :
    ∀ (pre : List StructField) (init : List (String × Mapping)),
      (∀ x ∈ pre, ∃ c, fieldMapping r x = .ok c) →
      List.foldlM (fieldStep r) init (pre ++ f :: post) = .error e := by
  intro pre
  induction pre with
  | nil =>
    intro init _
    simp [List.foldlM_cons, bind, Except.bind, fieldStep_error r init f e hf]
  | cons x rest ih =>
    intro init h
    obtain ⟨c, hc⟩ := h x (List.mem_cons_self _ _)
    have hst : fieldStep r init x = .ok (mapInsert init (memberName x) c) :=
      (fieldStep_ok _ _ _ _).2 ⟨c, hc, rfl⟩
    simp only [List.cons_append, List.foldlM_cons, bind, Except.bind, hst]
    exact ih _ (fun y hy => h y (List.mem_cons_of_mem _ hy))

theorem writtenSpec_stable_succ : ∀ (n : Nat) (t : GoType), t.depth ≤ n →
    writtenSpec (n + 1) t = writtenSpec n t := by
  intro n
  induction n with
  | zero =>
    intro t hd
    simp only [writtenSpec]
    cases hg : getUnderlyingType t with
    | error e => rfl
    | ok g =>
      by_cases hk : g.Kind = .Struct
      · have := struct_depth_pos g hk
        rw [depth_underlying t g hg] at this
        omega
      · simp [hk]
  | succ n ih =>
    intro t hd
    rw [writtenSpec, writtenSpec]
    cases hg : getUnderlyingType t with
    | error e => rfl
    | ok g =>
      by_cases hk : g.Kind = .Struct
      · have hgd : g.depth ≤ n + 1 := by rw [depth_underlying t g hg]; exact hd
        simp only [hk, if_true]
        rw [extractFields_stable (n + 1) g [] (extractFields_enough_fuel _ _ _ hgd)]
        cases hfs : extractFields (n + 1) g [] with
        | error e => rfl
        | ok fs =>
          simp only
          apply writtenFieldsSpec_congr
          intro f hf
          have hfd : f.Type_.depth ≤ n := by
            rcases extractFields_depth (n + 1) g [] fs hfs f hf with h | h
            · simp at h
            · omega
          refine ⟨ih _ hfd, ?_⟩
          rw [fieldMapping_eq, fieldMapping_eq,
            generateMappingRecur_stable_succ n _ _ (generateMappingRecur_enough_fuel _ _ _ hfd)]
      · simp [hk]

theorem writtenSpec_stable (fuel : Nat) (t : GoType) (h : t.depth ≤ fuel) :
    writtenSpec fuel t = writtenSpec t.depth t := by
  induction h with
  | refl => rfl
  | step hle ih => rw [writtenSpec_stable_succ _ _ hle, ih]

/-- C18 (counterexample): the call GenerateMapping of the test on MyStruct writes three texts
to the standard output: one for the field Foo, one for the field Inner and, in the generation
of the type of Inner, one for the field Bar of MyInnerStruct. -/
theorem C18_test_call_writes_to_stdout :
    GenerateMappingOut 2 MyStruct []
      = (["field name: foo\n\ttype:int\n", "field name: inner\n\ttype:struct\n",
          "field name: bar\n\ttype:string\n"], .ok TestMappingGen_expectedDTO) ∧
    (GenerateMappingOut 2 MyStruct []).1 ≠ [] :=
  ⟨rfl, fun h => by cases h⟩

/-- C18 (amended): a GenerateMapping call, and every call of generateMappingRecur in it,
returns its value and appends to the standard output the texts of writtenSpec, whether it
returns a Mapping or aborts, and the same texts for every fuel that is at least the depth of
the type: nothing when the unwrapping panics, when the unwrapped type is not a struct or when
the extraction of the fields panics, and, when the unwrapped type is a struct, for each
extracted field in order the text of the Printf for the field, with its external name and
the kind of its type, followed by what the generation of the type of the field writes, for
all the extracted fields when the mapping of each is generated, and up to and including the
first field whose mapping is not generated when there is one, the call then aborting with
the error of that field. -/
theorem C18_written_output (fuel : Nat) (t : GoType) :
    (∀ out, GenerateMappingOut fuel t out
      = (out ++ writtenSpec fuel t, GenerateMapping fuel t)) ∧
    (∀ c out, generateMappingRecurOut fuel t c out
      = (out ++ writtenSpec fuel t, generateMappingRecur fuel t c)) ∧
    (t.depth ≤ fuel → writtenSpec fuel t = writtenSpec t.depth t ∧
      GenerateMapping fuel t = GenerateMapping t.depth t ∧
      GenerateMapping fuel t ≠ .error .outOfFuel) ∧
    (∀ e, getUnderlyingType t = .error e → writtenSpec fuel t = []) ∧
    (∀ g, getUnderlyingType t = .ok g → g.Kind ≠ .Struct → writtenSpec fuel t = []) ∧
    (∀ n g, fuel = n + 1 → getUnderlyingType t = .ok g → g.Kind = .Struct →
      (∀ e, extractFields (n + 1) g [] = .error e →
        writtenSpec fuel t = [] ∧ GenerateMapping fuel t = .error e) ∧
      (∀ fs, extractFields (n + 1) g [] = .ok fs →
        ((∀ f ∈ fs, ∃ child, fieldMapping (generateMappingRecur n) f = .ok child) →
          (∃ root, GenerateMapping fuel t = .ok root) ∧
          writtenSpec fuel t
            = fs.flatMap (fun f => printedForField f :: writtenSpec n f.Type_)) ∧
        (∀ pre f post e, fs = pre ++ f :: post →
          (∀ x ∈ pre, ∃ child, fieldMapping (generateMappingRecur n) x = .ok child) →
          fieldMapping (generateMappingRecur n) f = .error e →
          GenerateMapping fuel t = .error e ∧
          writtenSpec fuel t
            = (pre ++ [f]).flatMap (fun x => printedForField x :: writtenSpec n x.Type_)))) := by
  refine ⟨GenerateMappingOut_written fuel t, generateMappingRecurOut_written fuel t, ?_, ?_, ?_,
    ?_⟩
  · intro hd
    refine ⟨writtenSpec_stable fuel t hd, ?_, ?_⟩
    · simp only [GenerateMapping]
      rw [generateMappingRecur_stable fuel t "" hd]
    · intro h
      have hne := generateMappingRecur_enough_fuel fuel t "" hd
      simp only [GenerateMapping, bind, Except.bind] at h
      cases hm : generateMappingRecur fuel t "" with
      | error e =>
        rw [hm] at h hne
        simp only [Except.error.injEq] at h
        exact hne (by rw [h])
      | ok m => rw [hm] at h; cases h
  · intro e he
    cases fuel <;> simp [writtenSpec, he]
  · intro g hg hk
    cases fuel <;> simp [writtenSpec, hg, hk]
  · intro n g hn hg hk
    subst hn
    have hwE : ∀ e, extractFields (n + 1) g [] = .error e → writtenSpec (n + 1) t = [] := by
      intro e he
      rw [writtenSpec]
      simp only [hg, hk, if_true, he]
    have hwO : ∀ fs, extractFields (n + 1) g [] = .ok fs → writtenSpec (n + 1) t
        = writtenFieldsSpec (writtenSpec n) (generateMappingRecur n) fs := by
      intro fs hfs
      rw [writtenSpec]
      simp only [hg, hk, if_true, hfs]
    have hv := generateMappingRecur_struct n t g "" hg hk
    refine ⟨?_, ?_⟩
    · intro e he
      rw [he] at hv
      exact ⟨hwE e he, by simp [GenerateMapping, hv, bind, Except.bind]⟩
    · intro fs hfs
      rw [hwO fs hfs]
      rw [hfs] at hv
      simp only at hv
      refine ⟨?_, ?_⟩
      · intro hall
        obtain ⟨props, hp⟩ := loop_succeeds (generateMappingRecur n) fs [] hall
        rw [hp] at hv
        exact ⟨⟨_, by simp only [GenerateMapping, hv, bind, Except.bind]; rfl⟩,
          writtenFieldsSpec_all_ok _ _ fs hall⟩
      · intro pre f post e hdec hpre hf
        subst hdec
        rw [loop_first_error _ f post e hf pre [] hpre] at hv
        exact ⟨by simp [GenerateMapping, hv, bind, Except.bind],
          writtenFieldsSpec_first_error _ _ f post e hf pre hpre⟩

theorem C18_written_output_witness :
    GenerateMappingOut 2 DeepAbortStruct ["before"]
      = (["before", "field name: id\n\ttype:int64\n", "field name: inner\n\ttype:ptr\n",
          "field name: ok\n\ttype:string\n", "field name: bad\n\ttype:string\n"],
         .error (.invalidESType "geo_point")) ∧
    (GenerateMapping 2 DeepAbortStruct = .error (.invalidESType "geo_point") ∧
      writtenSpec 2 DeepAbortStruct
        = ["field name: id\n\ttype:int64\n", "field name: inner\n\ttype:ptr\n",
            "field name: ok\n\ttype:string\n", "field name: bad\n\ttype:string\n"]) ∧
    writtenSpec 7 MyStruct = writtenSpec 2 MyStruct ∧
    writtenSpec 2 (.ptr (.basic .Int64)) = [] :=
  ⟨(C18_written_output 2 DeepAbortStruct).1 ["before"],
   (((C18_written_output 2 DeepAbortStruct).2.2.2.2.2 1 DeepAbortStruct rfl rfl rfl).2
      DeepAbortStruct.fieldList rfl).2
      [.mk "ID" (.basic .Int64) [("json", "id")] false]
      (.mk "Inner" (.ptr (.struct "AbortInner"
        [.mk "Ok" (.basic .String) [("json", "ok")] false,
         .mk "Bad" (.basic .String) [("json", "bad"), ("es", "geo_point")] false,
         .mk "Rest" (.basic .Int) [("json", "rest")] false])) [("json", "inner")] false)
      [.mk "Tail" (.basic .String) [("json", "tail")] false]
      (.invalidESType "geo_point") rfl
      (fun x hx => by rw [List.mem_singleton.1 hx]; exact ⟨_, rfl⟩) rfl,
   ((C18_written_output 7 MyStruct).2.2.1 (by decide)).1,
   (C18_written_output 2 (.ptr (.basic .Int64))).2.2.2.2.1 (.basic .Int64) rfl (by decide)⟩

end Elastigo
